import Mathlib

/-!
# Freeciv: research model, action enablers, ruleset sanity checks, AI effect values

A shallow embedding of `common/research.c`, `common/actions.c`,
`server/rssanity.c` and `ai/default/daieffects.c`.

Conventions of the embedding.

* C `int` values are mathematical integers (`Int`); tech numbers
  (`Tech_type_id`), player numbers, team numbers and array indices are `Nat`.
* A pointer argument that may be `NULL` is an `Option`; a `struct research *`
  is the index of the structure in `research_array`, so that two pointers
  are equal exactly when the indices are.
* C `double` values are kept abstract (`DoubleOps`): the functions are written
  against an arbitrary implementation of the arithmetic, and the theorems
  use only the two conversion laws recorded in that structure and the
  conversion laws they state as hypotheses.  `Frac`
  is an exact implementation used to evaluate concrete scenarios; every
  scenario evaluated with it uses small integers, on which binary
  floating point is exact as well.
* `fc_assert_ret_val(cond, v)` returns `v` when `cond` fails; the `-1` that
  `research_invention_state` returns in that case is `none`.
* A function returning `Option` yields `none` when the C code does not
  return a value: unbounded recursion, a loop that does not end, a
  dereferenced `NULL` or a division by zero.
* Parts of the program whose source is not in the repository snapshot
  (`tech.c`, `effects.c`, `requirements.c`, `metaknowledge.c`, `player.c`,
  `team.c`, `improvement.c`, the advisor data, unit and tile accessors) enter
  as tables of the game state or as fields of `ActionEnv`, `UpkeepEnv`,
  `RulesetEnv`, `Ruleset` and `DaiContext`.

The file has two parts: all definitions (the embedding, the predicates used
in the statements, the concrete scenarios), then all theorems.
-/

namespace Freeciv

/-! ## Doubles -/

/-- Arithmetic of the C type `double`, as far as `research.c` uses it.
`toInt` is the conversion `(int) x`, which C defines only for a value whose
truncation is in the range of `int`; `int_range x` says that `x` is such a
value.  The two laws say that `(int) 1.0` is `1` and that a value in that
range that compares greater than `1.0` converts to an integer that is at
least `1`.  Nothing is assumed of `toInt` outside the range. -/
structure DoubleOps where
  D : Type
  ofInt : Int → D
  add : D → D → D
  sub : D → D → D
  mul : D → D → D
  div : D → D → D
  gt : D → D → Bool
  int_range : D → Bool
  toInt : D → Int
  toInt_one : toInt (ofInt 1) = 1
  toInt_of_gt_one : ∀ x, gt x (ofInt 1) = true → int_range x = true → 1 ≤ toInt x

/-- Exact fractions `num / den`; `den = 0` marks the result of a division
by zero, which compares false with everything (as a NaN does). -/
structure Frac where
  num : Int
  den : Nat
deriving DecidableEq, Repr

namespace Frac

def ofInt (n : Int) : Frac := ⟨n, 1⟩

def add (a b : Frac) : Frac := ⟨a.num * b.den + b.num * a.den, a.den * b.den⟩

def sub (a b : Frac) : Frac := ⟨a.num * b.den - b.num * a.den, a.den * b.den⟩

def mul (a b : Frac) : Frac := ⟨a.num * b.num, a.den * b.den⟩

def div (a b : Frac) : Frac :=
  if 0 < b.num then ⟨a.num * b.den, a.den * b.num.toNat⟩
  else if b.num < 0 then ⟨-(a.num * b.den), a.den * (-b.num).toNat⟩
  else ⟨0, 0⟩

def gt (a b : Frac) : Bool :=
  decide (a.den ≠ 0) && decide (b.den ≠ 0) && decide (b.num * a.den < a.num * b.den)

/-- Truncation toward zero, as the C conversion to `int`. -/
def toInt (a : Frac) : Int := Int.tdiv a.num a.den

/-- The value is a number above `INT_MIN - 1` and below `INT_MAX + 1`, for
an `int` of 32 bits: the values that C converts to `int`. -/
def int_range (a : Frac) : Bool :=
  decide (a.den ≠ 0) && decide (-2147483649 * (a.den : Int) < a.num)
    && decide (a.num < 2147483648 * (a.den : Int))

/-- The conversion to `int` as the instruction `cvttsd2si` of x86-64
performs it: truncation toward zero for a value in the range of `int`,
and `INT_MIN` for every other value and for a NaN, where C leaves the
result undefined. -/
def toInt_x86 (a : Frac) : Int :=
  if int_range a then Int.tdiv a.num a.den else -2147483648

/-- The loop that brings `n / d` between `2 ^ 52` and `2 ^ 53` by doubling
`n` or `d`; the exponent `e` keeps `n / d * 2 ^ e` as it is. -/
def norm53 : Nat → Nat → Nat → Int → Nat × Nat × Int
  | 0, n, d, e => (n, d, e)
  | fuel + 1, n, d, e =>
    if n < d * 2 ^ 52 then norm53 fuel (2 * n) d (e - 1)
    else if d * 2 ^ 53 ≤ n then norm53 fuel n (2 * d) (e + 1)
    else (n, d, e)

/-- The integer nearest to `n / d`, the even one of two that are equally
near. -/
def round_even (n d : Nat) : Nat :=
  if 2 * (n % d) < d then n / d
  else if d < 2 * (n % d) then n / d + 1
  else if (n / d) % 2 = 0 then n / d
  else n / d + 1

/-- The fraction `m * 2 ^ e`. -/
def scaled (m : Nat) (e : Int) : Frac :=
  if 0 ≤ e then ⟨(m * 2 ^ e.toNat : Nat), 1⟩ else ⟨m, 2 ^ (-e).toNat⟩

/-- The binary64 number nearest to `n / d`, for positive `n` and `d`: a
significand of 53 bits, rounded to nearest, ties to even.  The bounds of
the exponent (overflow, subnormal numbers) are not modelled. -/
def round_pos (n d : Nat) : Frac :=
  match norm53 2200 n d 0 with
  | (n1, d1, e) =>
    if round_even n1 d1 = 2 ^ 53 then scaled (2 ^ 52) (e + 1)
    else scaled (round_even n1 d1) e

/-- Rounding of an exact result to binary64; a NaN stays a NaN. -/
def round53 (a : Frac) : Frac :=
  if a.den = 0 then a
  else if a.num = 0 then ⟨0, 1⟩
  else if 0 < a.num then round_pos a.num.toNat a.den
  else
    match round_pos (-a.num).toNat a.den with
    | ⟨n, d⟩ => ⟨-n, d⟩

end Frac

/-- Exact arithmetic as an implementation of `DoubleOps`: no operation
rounds, and `toInt` truncates toward zero, outside the range of `int` as
well. -/
def exactDouble : DoubleOps where
  D := Frac
  ofInt := Frac.ofInt
  add := Frac.add
  sub := Frac.sub
  mul := Frac.mul
  div := Frac.div
  gt := Frac.gt
  int_range := Frac.int_range
  toInt := Frac.toInt
  toInt_one := by decide
  toInt_of_gt_one := by
    intro x h _
    simp only [Frac.gt, Frac.ofInt, Bool.and_eq_true, decide_eq_true_eq] at h
    obtain ⟨⟨hd, _⟩, hlt⟩ := h
    have hd0 : (0 : Int) < (x.den : Int) := by
      have : 0 < x.den := Nat.pos_of_ne_zero hd
      exact_mod_cast this
    have hlt2 : (x.den : Int) < x.num := by
      simpa using hlt
    show 1 ≤ Int.tdiv x.num x.den
    have hnum : 0 ≤ x.num := by omega
    rw [Int.tdiv_eq_ediv hnum (le_of_lt hd0)]
    exact (Int.le_ediv_iff_mul_le hd0).2 (by omega)

/-- Binary64 arithmetic as an implementation of `DoubleOps`: every operation
gives the binary64 number nearest to the exact result, and `(int) x` is
what x86-64 gives, which is `INT_MIN` outside the range of `int`, where C
leaves the conversion undefined.  Infinities are not modelled: a division by
zero gives a NaN. -/
def ieeeDouble : DoubleOps where
  D := Frac
  ofInt := fun n => Frac.round53 (Frac.ofInt n)
  add := fun a b => Frac.round53 (Frac.add a b)
  sub := fun a b => Frac.round53 (Frac.sub a b)
  mul := fun a b => Frac.round53 (Frac.mul a b)
  div := fun a b => if b.den = 0 then b else Frac.round53 (Frac.div a b)
  gt := Frac.gt
  int_range := Frac.int_range
  toInt := Frac.toInt_x86
  toInt_one := by decide
  toInt_of_gt_one := by
    intro x h hr
    have h1 : Frac.round53 (Frac.ofInt 1) = ⟨4503599627370496, 4503599627370496⟩ := by
      decide
    simp only [h1, Frac.gt, Bool.and_eq_true, decide_eq_true_eq] at h
    obtain ⟨⟨hd, _⟩, hlt⟩ := h
    have hd0 : (0 : Int) < (x.den : Int) := by
      have : 0 < x.den := Nat.pos_of_ne_zero hd
      exact_mod_cast this
    have hlt2 : (x.den : Int) < x.num := by
      push_cast at hlt
      omega
    show 1 ≤ Frac.toInt_x86 x
    unfold Frac.toInt_x86
    rw [if_pos hr]
    have hnum : 0 ≤ x.num := by omega
    rw [Int.tdiv_eq_ediv hnum (le_of_lt hd0)]
    exact (Int.le_ediv_iff_mul_le hd0).2 (by omega)

instance : DecidableEq ieeeDouble.D := inferInstanceAs (DecidableEq Frac)

/-! ## Tech constants and the tech tree (`tech.h`, `tech.c`) -/

inductive tech_state where
  | TECH_UNKNOWN
  | TECH_PREREQS_KNOWN
  | TECH_KNOWN
deriving DecidableEq, Repr

inductive tech_req where
  | AR_ONE
  | AR_TWO
  | AR_ROOT
deriving DecidableEq, Repr

open tech_state tech_req

/-! The tech number constants of `tech.h`.  The statements below use
`A_NONE`, `A_FIRST` and `A_FUTURE` by name only. -/

def A_NONE : Nat := 0
def A_FIRST : Nat := 1
def A_LAST : Nat := 200
def A_UNSET : Nat := A_LAST + 1
def A_FUTURE : Nat := A_LAST + 2
def A_UNKNOWN : Nat := A_LAST + 3

def is_future_tech (tech : Nat) : Bool := tech == A_FUTURE

/-- The `advances[]` table of the ruleset, as `research.c` reads it.
`num_tech_types` is `advance_count()`, `removed t` says that a requirement
of `t` is `A_NEVER`, `required` is `advance_required`, `cost t` is
`advance_by_number(t)->cost` converted to `double`, `reqs t` lists the tech
numbers that `advance_req_iterate` visits for goal `t`, in its order, and
`has_flag` is `advance_has_flag`. -/
structure Advances (F : DoubleOps) where
  num_tech_types : Nat
  removed : Nat → Bool
  required : Nat → tech_req → Nat
  cost : Nat → F.D
  reqs : Nat → List Nat
  has_flag : Nat → Nat → Bool
  tech_flag_id_max : Nat

/-! ## Players, research structures and the game state -/

/-- The fields of `struct player` that `research.c` reads.
`tech_cost_factor` is `get_player_bonus(pplayer, EFT_TECH_COST_FACTOR)`. -/
structure player where
  number : Nat
  team : Nat
  is_alive : Bool
  ai_controlled : Bool
  science_cost : Int
  is_barbarian : Bool
  tech_cost_factor : Int

/-- One entry of `research->inventions[]`. -/
structure research_invention where
  state : tech_state
  required_techs : Nat → Bool
  num_required_techs : Int
  bulbs_required : Int

structure research where
  techs_researched : Int
  future_tech : Int
  tech_goal : Nat
  researching : Nat
  researching_saved : Nat
  inventions : Nat → research_invention
  num_known_tech_with_flag : Nat → Int

/-- The part of `game.info` that `research.c` reads. -/
structure game_info where
  tech_cost_style : Int
  base_tech_cost : Int
  tech_leakage : Int
  sciencebox : Int
  team_pooled_research : Bool
  tech_steal_allow_holes : Bool
  global_advances : Nat → Bool

/-- The game state: settings, ruleset tech table, players (in the order of
`players_iterate`), embassies (`player_has_embassy` by player number) and
`research_array`. -/
structure Game (F : DoubleOps) where
  info : game_info
  advances : Advances F
  players : List player
  has_embassy : Nat → Nat → Bool
  research_array : Nat → research

variable {F : DoubleOps}

def advance_count (g : Game F) : Nat := g.advances.num_tech_types

/-- The test `NULL != valid_advance_by_number(tech)`: the number is in
range and the advance has not been removed from the ruleset. -/
def valid_advance_by_number (g : Game F) (tech : Nat) : Bool :=
  decide (tech < advance_count g) && !g.advances.removed tech

def advance_required (g : Game F) (tech : Nat) (r : tech_req) : Nat :=
  g.advances.required tech r

def player_by_number (g : Game F) (n : Nat) : Option player :=
  g.players.find? (fun p => p.number == n)

def players_alive (g : Game F) : List player :=
  g.players.filter (fun p => p.is_alive)

/-- The function `research_get`: `NULL` for `NULL`, else the research of the
team or of the player. -/
def research_get (g : Game F) (pplayer : Option player) : Option Nat :=
  match pplayer with
  | none => none
  | some p => if g.info.team_pooled_research then some p.team else some p.number

/-- The players visited by `research_players_iterate(presearch, pplayer)`:
the alive members of the team, or the alive owner of the research. -/
def research_players (g : Game F) (presearch : Option Nat) : List player :=
  match presearch with
  | none => []
  | some r =>
    if g.info.team_pooled_research then
      (g.players.filter (fun p => p.team == r)).filter (fun p => p.is_alive)
    else
      match player_by_number g r with
      | none => []
      | some p => if p.is_alive then [p] else []

/-! ## `research.c` -/

def research_invention_state (g : Game F) (presearch : Option Nat)
    (tech : Nat) : Option tech_state :=
  if !valid_advance_by_number g tech then none
  else
    match presearch with
    | some r => some ((g.research_array r).inventions tech).state
    | none => if g.info.global_advances tech then some TECH_KNOWN else some TECH_UNKNOWN

/-- Write one tech state; helper for `research_invention_set`. -/
def set_state (g : Game F) (r : Nat) (tech : Nat) (value : tech_state) : Game F :=
  let res := g.research_array r
  let old := res.inventions tech
  let new : research_invention := { old with state := value }
  let res1 : research := { res with inventions := Function.update res.inventions tech new }
  { g with research_array := Function.update g.research_array r res1 }

/-- The function `research_invention_set`: the returned state (`none` for the
`-1` of the failed assertion) and the game after the call. -/
def research_invention_set (g : Game F) (r : Nat) (tech : Nat)
    (value : tech_state) : Option tech_state × Game F :=
  if !valid_advance_by_number g tech then (none, g)
  else
    let old := ((g.research_array r).inventions tech).state
    if old = value then (some old, g)
    else
      let g1 := set_state g r tech value
      let g2 : Game F :=
        if value = TECH_KNOWN then
          let info1 : game_info :=
            { g1.info with global_advances := Function.update g1.info.global_advances tech true }
          { g1 with info := info1 }
        else g1
      (some old, g2)

/-- The function `researches_init`: `memset` clears every research, the loop
sets the four scalar fields and makes `A_NONE` known in every research, and
`global_advances[A_NONE]` is set.  The enumerator of `enum tech_state` with
the value 0, which `memset` leaves in every tech state (`tech.h` is not part
of the sources), is the argument `state_zero`. -/
def researches_init (state_zero : tech_state) (g : Game F) : Game F :=
  let cleared : research_invention :=
    { state := state_zero, required_techs := fun _ => false, num_required_techs := 0,
      bulbs_required := 0 }
  let res : research :=
    { techs_researched := 0
      future_tech := 0
      tech_goal := A_UNSET
      researching := A_UNSET
      researching_saved := A_UNKNOWN
      inventions := Function.update (fun _ => cleared) A_NONE
        { cleared with state := TECH_KNOWN }
      num_known_tech_with_flag := fun _ => 0 }
  { g with
    research_array := fun _ => res
    info := { g.info with global_advances := Function.update g.info.global_advances A_NONE true } }

/-- The recursion of `research_invention_reachable` with a bound on its
depth; `none` when the bound is reached. -/
def reachable_fuel (g : Game F) (presearch : Option Nat) :
    Nat → Nat → Option Bool
  | 0, _ => none
  | fuel + 1, tech =>
    if !valid_advance_by_number g tech then some false
    else
      let root := advance_required g tech AR_ROOT
      if A_NONE ≠ root then
        if root = tech then
          some (decide (some TECH_KNOWN = research_invention_state g presearch tech))
        else
          match reachable_fuel g presearch fuel root with
          | none => none
          | some false => some false
          | some true =>
            match reachable_fuel g presearch fuel (advance_required g tech AR_ONE) with
            | none => none
            | some false => some false
            | some true => reachable_fuel g presearch fuel (advance_required g tech AR_TWO)
      else some true

/-- The function `research_invention_reachable`.  A call that returns never
has the same tech twice on its call stack, and every tech on the stack but
the last is valid, so a depth of `advance_count() + 1` is reached only by a
recursion that does not end: `none` stands for that. -/
def research_invention_reachable (g : Game F) (presearch : Option Nat)
    (tech : Nat) : Option Bool :=
  reachable_fuel g presearch (advance_count g + 1) tech

def research_invention_gettable (g : Game F) (presearch : Option Nat)
    (tech : Nat) (reachable_ok : Bool) : Bool :=
  if !valid_advance_by_number g tech then false
  else
    let req := advance_required g tech AR_ROOT
    if req ≠ A_NONE ∧ research_invention_state g presearch req ≠ some TECH_KNOWN then false
    else if reachable_ok then true
    else
      let req := advance_required g tech AR_ONE
      if req ≠ A_NONE ∧ research_invention_state g presearch req ≠ some TECH_KNOWN then false
      else
        let req := advance_required g tech AR_TWO
        if req ≠ A_NONE ∧ research_invention_state g presearch req ≠ some TECH_KNOWN then false
        else true

/-- The field `presearch->future_tech`; `none` when `presearch` is `NULL`. -/
def future_tech_of (g : Game F) (presearch : Option Nat) : Option Int :=
  presearch.map (fun r => (g.research_array r).future_tech)

/-- The `switch (tech_cost_style)` of `research_total_bulbs_required`: future
techs use style 0, style 0 without a research falls through to the cost of
the advance, an invalid advance or style gives `0.0`. -/
def base_cost_of_style (g : Game F) (presearch : Option Nat) (tech : Nat) : F.D :=
  let tech_cost_style : Int := if is_future_tech tech then 0 else g.info.tech_cost_style
  let advance_cost : F.D :=
    if valid_advance_by_number g tech then g.advances.cost tech else F.ofInt 0
  if tech_cost_style = 0 then
    match presearch with
    | some r => F.ofInt (g.info.base_tech_cost * (g.research_array r).techs_researched)
    | none => advance_cost
  else if 1 ≤ tech_cost_style ∧ tech_cost_style ≤ 4 then advance_cost
  else F.ofInt 0

/-- The first `research_players_iterate` loop: the mean over the members of
`base_cost * get_player_bonus(pplayer, EFT_TECH_COST_FACTOR)`. -/
def apply_cost_factor (g : Game F) (presearch : Option Nat) (base_cost : F.D) : F.D :=
  let members : Int := (research_players g presearch).length
  let total_cost : F.D :=
    (research_players g presearch).foldl
      (fun acc p => F.add acc (F.mul base_cost (F.ofInt p.tech_cost_factor))) (F.ofInt 0)
  if 0 < members then F.div total_cost (F.ofInt members) else base_cost

/-- Count the players of a list for which a test holds; `none` as soon as
the test has no value. -/
def count_players (test : player → Option Bool) : List player → Option Int
  | [] => some 0
  | p :: ps =>
    match test p with
    | none => none
    | some b =>
      match count_players test ps with
      | none => none
      | some n => some (if b then n + 1 else n)

/-- Leakage style 1, body of `players_iterate_alive`: does `aplayer` count
in `players_with_tech_and_embassy`. -/
def leakage1_counts (g : Game F) (presearch : Option Nat) (tech : Nat)
    (aplayer : player) : Option Bool :=
  let aresearch := research_get g (some aplayer)
  let skip : Option Bool :=
    if aresearch = presearch then some true
    else if A_FUTURE = tech then
      match future_tech_of g aresearch, future_tech_of g presearch with
      | some a, some b => some (decide (a ≤ b))
      | _, _ => none
    else some (decide (some TECH_KNOWN ≠ research_invention_state g aresearch tech))
  skip.map (fun s => !s
    && (research_players g presearch).any (fun p => g.has_embassy p.number aplayer.number))

/-- Leakage styles 2 and 3, body of `players_iterate_alive`: does `aplayer`
count in `players_with_tech`. -/
def leakage_has_tech (g : Game F) (presearch : Option Nat) (tech : Nat)
    (aplayer : player) : Option Bool :=
  if A_FUTURE = tech then
    match future_tech_of g (research_get g (some aplayer)), future_tech_of g presearch with
    | some a, some b => some (decide (b < a))
    | _, _ => none
  else
    some (decide (some TECH_KNOWN
      = research_invention_state g (research_get g (some aplayer)) tech))

/-- The `switch (game.info.tech_leakage)`. -/
def apply_leakage (g : Game F) (presearch : Option Nat) (tech : Nat)
    (base_cost : F.D) : Option F.D :=
  let scale (players with_tech : Int) : F.D :=
    F.div (F.mul base_cost (F.ofInt (players - with_tech))) (F.ofInt players)
  if g.info.tech_leakage = 0 then some base_cost
  else if g.info.tech_leakage = 1 then
    (count_players (leakage1_counts g presearch tech) (players_alive g)).map
      (fun n => scale (players_alive g).length n)
  else if g.info.tech_leakage = 2 then
    (count_players (leakage_has_tech g presearch tech) (players_alive g)).map
      (fun n => scale (players_alive g).length n)
  else if g.info.tech_leakage = 3 then
    (count_players (leakage_has_tech g presearch tech)
        ((players_alive g).filter (fun p => !p.is_barbarian))).map
      (fun n => scale ((players_alive g).filter (fun p => !p.is_barbarian)).length n)
  else some base_cost

/-- The second `research_players_iterate` loop: the AI science penalty. -/
def apply_ai_science_cost (g : Game F) (presearch : Option Nat) (base_cost : F.D) : F.D :=
  let members : Int := (research_players g presearch).length
  let total_cost : F.D :=
    (research_players g presearch).foldl
      (fun acc p =>
        if p.ai_controlled then
          F.add acc (F.div (F.mul base_cost (F.ofInt p.science_cost)) (F.ofInt 100))
        else F.add acc base_cost) (F.ofInt 0)
  if 0 < members then F.div total_cost (F.ofInt members) else base_cost

/-- The last two statements: scale by `sciencebox / 100.0` and
`return MAX(base_cost, 1)`, converted to `int`. -/
def sciencebox_and_floor (g : Game F) (base_cost : F.D) : Int :=
  let scaled : F.D := F.mul base_cost (F.div (F.ofInt g.info.sciencebox) (F.ofInt 100))
  F.toInt (if F.gt scaled (F.ofInt 1) then scaled else F.ofInt 1)

/-- The value of `base_cost` at the `return` of
`research_total_bulbs_required`, past the scaling by `sciencebox / 100.0` and
before `MAX(base_cost, 1)` and the conversion to `int`; `none` where
`apply_leakage` has no value. -/
def scaled_base_cost (g : Game F) (presearch : Option Nat) (tech : Nat) : Option F.D :=
  (apply_leakage g presearch tech
      (apply_cost_factor g presearch (base_cost_of_style g presearch tech))).map
    (fun base_cost =>
      F.mul (apply_ai_science_cost g presearch base_cost)
        (F.div (F.ofInt g.info.sciencebox) (F.ofInt 100)))

/-- The condition of the first `if` of `research_total_bulbs_required`,
evaluated left to right. -/
def known_tech_guard (g : Game F) (presearch : Option Nat) (tech : Nat)
    (loss_value : Bool) : Option Bool :=
  if !loss_value && presearch.isSome && !is_future_tech tech then
    (research_invention_reachable g presearch tech).map
      (fun reach => !reach
        && decide (research_invention_state g presearch tech = some TECH_KNOWN))
  else some false

def research_total_bulbs_required (g : Game F) (presearch : Option Nat)
    (tech : Nat) (loss_value : Bool) : Option Int :=
  match known_tech_guard g presearch tech loss_value with
  | none => none
  | some true => some 0
  | some false =>
    match apply_leakage g presearch tech
        (apply_cost_factor g presearch (base_cost_of_style g presearch tech)) with
    | none => none
    | some base_cost =>
      some (sciencebox_and_floor g (apply_ai_science_cost g presearch base_cost))

/-- Apply a change to `research_array[r]`. -/
def modify_research (g : Game F) (r : Nat) (f : research → research) : Game F :=
  { g with research_array := Function.update g.research_array r (f (g.research_array r)) }

/-- Apply a change to `research_array[r].inventions[i]`. -/
def modify_invention (g : Game F) (r : Nat) (i : Nat)
    (f : research_invention → research_invention) : Game F :=
  modify_research g r (fun res =>
    { res with inventions := Function.update res.inventions i (f (res.inventions i)) })

/-- First part of the loop body of `research_update`: the new state of
tech `i`, given the value of `research_invention_reachable(presearch, i)`. -/
def update_tech_state (g : Game F) (r : Nat) (i : Nat) (reach : Bool) : Game F :=
  if !reach then (research_invention_set g r i TECH_UNKNOWN).2
  else
    let g1 : Game F :=
      if some TECH_PREREQS_KNOWN = research_invention_state g (some r) i then
        (research_invention_set g r i TECH_UNKNOWN).2
      else g
    if research_invention_state g1 (some r) i = some TECH_UNKNOWN
        ∧ some TECH_KNOWN
          = research_invention_state g1 (some r) (advance_required g1 i AR_ONE)
        ∧ some TECH_KNOWN
          = research_invention_state g1 (some r) (advance_required g1 i AR_TWO) then
      (research_invention_set g1 r i TECH_PREREQS_KNOWN).2
    else g1

/-- An entry of `inventions[]` after `BV_CLR_ALL(required_techs)`,
`num_required_techs = 0` and `bulbs_required = 0`. -/
def cleared_invention (inv : research_invention) : research_invention :=
  { inv with required_techs := fun _ => false, num_required_techs := 0, bulbs_required := 0 }

/-- Reset `required_techs`, `num_required_techs` and `bulbs_required`. -/
def clear_derived (g : Game F) (r : Nat) (i : Nat) : Game F :=
  modify_invention g r i cleared_invention

/-- Body of the `advance_req_iterate` loop of `research_update`. -/
def add_requirement (g : Game F) (r : Nat) (i j : Nat) : Option (Game F) :=
  let g1 : Game F :=
    if j ≠ i then
      modify_invention g r i (fun inv =>
        { inv with required_techs := Function.update inv.required_techs j true })
    else g
  let g2 : Game F :=
    modify_invention g1 r i (fun inv =>
      { inv with num_required_techs := inv.num_required_techs + 1 })
  match research_total_bulbs_required g2 (some r) j false with
  | none => none
  | some cost =>
    let g3 : Game F :=
      modify_invention g2 r i (fun inv =>
        { inv with bulbs_required := inv.bulbs_required + cost })
    some (modify_research g3 r (fun res =>
      { res with techs_researched := res.techs_researched + 1 }))

/-- The `advance_req_iterate` loop of `research_update`. -/
def add_requirements (r : Nat) (i : Nat) :
    Game F → List Nat → Option (Game F)
  | g, [] => some g
  | g, j :: js =>
    match add_requirement g r i j with
    | none => none
    | some g1 => add_requirements r i g1 js

/-- Second part of the loop body of `research_update`: "Updates
required_techs, num_required_techs and bulbs_required". -/
def update_derived (g : Game F) (r : Nat) (i : Nat) : Option (Game F) :=
  let g1 := clear_derived g r i
  if some TECH_KNOWN = research_invention_state g1 (some r) i then some g1
  else
    let techs_researched := (g1.research_array r).techs_researched
    match add_requirements r i g1 (g1.advances.reqs i) with
    | none => none
    | some g2 =>
      some (modify_research g2 r (fun res =>
        { res with techs_researched := techs_researched }))

/-- Body of the first `advance_index_iterate` loop of `research_update`. -/
def research_update_tech (g : Game F) (r : Nat) (i : Nat) : Option (Game F) :=
  match research_invention_reachable g (some r) i with
  | none => none
  | some reach => update_derived (update_tech_state g r i reach) r i

/-- The first `advance_index_iterate` loop, over a list of tech numbers. -/
def research_update_techs (r : Nat) : Game F → List Nat → Option (Game F)
  | g, [] => some g
  | g, i :: is =>
    match research_update_tech g r i with
    | none => none
    | some g1 => research_update_techs r g1 is

/-- The value computed for `num_known_tech_with_flag[flag]`. -/
def count_known_with_flag (g : Game F) (r : Nat) (flag : Nat) : Int :=
  ((List.range (advance_count g)).filter (fun i =>
    decide (some TECH_KNOWN = research_invention_state g (some r) i)
      && g.advances.has_flag i flag)).length

/-- The last loop of `research_update`, over the tech flags. -/
def update_flag_counts (g : Game F) (r : Nat) : Game F :=
  modify_research g r (fun res =>
    { res with num_known_tech_with_flag := fun flag =>
        if flag ≤ g.advances.tech_flag_id_max then count_known_with_flag g r flag
        else res.num_known_tech_with_flag flag })

/-- The function `research_update` on `research_array[r]`; `none` when a
call of `research_invention_reachable` does not return. -/
def research_update (g : Game F) (r : Nat) : Option (Game F) :=
  match research_update_techs r g (List.range' A_FIRST (advance_count g - A_FIRST)) with
  | none => none
  | some g1 => some (update_flag_counts g1 r)

/-- The function `research_goal_step`; `none` when the call of
`research_invention_reachable` does not return.  The loop
`advance_req_iterate(pgoal, preq)` visits `g.advances.reqs goal` in order. -/
def research_goal_step (g : Game F) (presearch : Option Nat) (goal : Nat) : Option Nat :=
  if !valid_advance_by_number g goal then some A_UNSET
  else
    match research_invention_reachable g presearch goal with
    | none => none
    | some false => some A_UNSET
    | some true =>
      match (g.advances.reqs goal).find? (fun preq =>
          decide (research_invention_state g presearch preq = some TECH_PREREQS_KNOWN)) with
      | some preq => some preq
      | none => some A_UNSET

/-! ### `player_tech_upkeep` -/

/-- The values of `game.info.tech_upkeep_style` that the last `switch` of
`player_tech_upkeep` lists. -/
inductive tech_upkeep_style where
  | TECH_UPKEEP_NONE
  | TECH_UPKEEP_BASIC
  | TECH_UPKEEP_PER_CITY
deriving DecidableEq, Repr

open tech_upkeep_style

/-- What `player_tech_upkeep` reads besides the game state above:
`game.info.tech_upkeep_style`, `game.info.tech_upkeep_divider`,
`get_player_bonus(pplayer, EFT_TECH_UPKEEP_FREE)` and
`city_list_size(pplayer->cities)`. -/
structure UpkeepEnv where
  tech_upkeep_style : tech_upkeep_style
  tech_upkeep_divider : Int
  tech_upkeep_free : player → Int
  city_list_size : player → Int

/-- The loop `research_players_iterate` of `player_tech_upkeep`: the value
of `total_research_factor` after it. -/
def total_research_factor (g : Game F) (presearch : Option Nat) : F.D :=
  (research_players g presearch).foldl
    (fun acc p =>
      F.add acc (F.add (F.ofInt p.tech_cost_factor)
        (if p.ai_controlled then F.div (F.ofInt p.science_cost) (F.ofInt 100)
          else F.ofInt 1)))
    (F.ofInt 0)

/-- The closed form `base_tech_cost * t * (t + 1) / 2` of cost style 0, in
`int` arithmetic. -/
def upkeep_normal_techs (base_tech_cost t : Int) : Int :=
  Int.tdiv (base_tech_cost * t * (t + 1)) 2

/-- The closed form `base_tech_cost * (f * (2 * t + f + 1) + 2 * t) / 2` for
the future techs, in `int` arithmetic. -/
def upkeep_future_techs (base_tech_cost t f : Int) : Int :=
  Int.tdiv (base_tech_cost * (f * (2 * t + f + 1) + 2 * t)) 2

/-- The `switch (game.info.tech_cost_style)` of `player_tech_upkeep`, from
the value `tech_upkeep` has before it. -/
def upkeep_of_cost_style (g : Game F) (r : Nat) (tech_upkeep : F.D) : F.D :=
  let f : Int := (g.research_array r).future_tech
  let t : Int := (g.research_array r).techs_researched
  if g.info.tech_cost_style = 0 then
    F.add tech_upkeep (F.ofInt (upkeep_normal_techs g.info.base_tech_cost t))
  else if 1 ≤ g.info.tech_cost_style ∧ g.info.tech_cost_style ≤ 4 then
    let known_cost : F.D :=
      (List.range (advance_count g)).foldl
        (fun acc i =>
          if some TECH_KNOWN = research_invention_state g (some r) i then
            F.add acc (g.advances.cost i)
          else acc)
        tech_upkeep
    if 0 < f then F.add known_cost (F.ofInt (upkeep_future_techs g.info.base_tech_cost t f))
    else known_cost
  else F.ofInt 0

/-- The `switch (game.info.tech_upkeep_style)` of `player_tech_upkeep`. -/
def upkeep_of_upkeep_style (u : UpkeepEnv) (pplayer : player) (tech_upkeep : F.D) : F.D :=
  match u.tech_upkeep_style with
  | TECH_UPKEEP_BASIC => F.sub tech_upkeep (F.ofInt (u.tech_upkeep_free pplayer))
  | TECH_UPKEEP_PER_CITY =>
    F.mul (F.sub tech_upkeep (F.ofInt (u.tech_upkeep_free pplayer)))
      (F.ofInt (u.city_list_size pplayer))
  | TECH_UPKEEP_NONE => F.ofInt 0

/-- The function `player_tech_upkeep`.  The local `tech_upkeep` is declared
without an initial value and is first used by `+=` (cost styles 0 to 4): the
value it holds at that point is the argument `tech_upkeep0`.  The result is
`none` when `research_get` gives `NULL`, which the first line dereferences. -/
def player_tech_upkeep (g : Game F) (u : UpkeepEnv) (pplayer : Option player)
    (tech_upkeep0 : F.D) : Option Int :=
  match pplayer, research_get g pplayer with
  | some p, some r =>
    if u.tech_upkeep_style = TECH_UPKEEP_NONE then some 0
    else
      let members : Int := (research_players g (some r)).length
      if members = 0 then some 0
      else
        let tech_upkeep : F.D := upkeep_of_cost_style g r tech_upkeep0
        let tech_upkeep : F.D :=
          F.mul tech_upkeep (F.div (total_research_factor g (some r)) (F.ofInt members))
        let tech_upkeep : F.D :=
          F.mul tech_upkeep (F.div (F.ofInt g.info.sciencebox) (F.ofInt 100))
        let tech_upkeep : F.D := F.div tech_upkeep (F.ofInt members)
        let tech_upkeep : F.D := F.div tech_upkeep (F.ofInt u.tech_upkeep_divider)
        let tech_upkeep : F.D := upkeep_of_upkeep_style u p tech_upkeep
        let tech_upkeep : F.D :=
          if F.gt (F.ofInt 0) tech_upkeep then F.ofInt 0 else tech_upkeep
        some (F.toInt tech_upkeep)
  | _, _ => none

/-! ## Predicates used in the statements -/

/-- The requirement graph that `research_invention_reachable` walks has no
cycle: some rank decreases along every edge the recursion follows (from a
valid tech with a root requirement other than itself to its root, first and
second requirement). -/
def Acyclic (g : Game F) : Prop :=
  ∃ rank : Nat → Nat,
    ∀ t, valid_advance_by_number g t = true →
      advance_required g t AR_ROOT ≠ A_NONE → advance_required g t AR_ROOT ≠ t →
      rank (advance_required g t AR_ROOT) < rank t
      ∧ rank (advance_required g t AR_ONE) < rank t
      ∧ rank (advance_required g t AR_TWO) < rank t

/-- A tech that is `TECH_KNOWN` in some research has its entry of
`global_advances` set. -/
def KnownIsGlobal (g : Game F) : Prop :=
  ∀ r t, ((g.research_array r).inventions t).state = TECH_KNOWN →
    g.info.global_advances t = true

/-- Every tech from `A_FIRST` upward that is `TECH_KNOWN` in research `r` is
reachable. -/
def KnownReachable (g : Game F) (r : Nat) : Prop :=
  ∀ t, A_FIRST ≤ t → research_invention_state g (some r) t = some TECH_KNOWN →
    research_invention_reachable g (some r) t = some true

/-- Before an update of research `r`: every `TECH_KNOWN` requirement (`AR_ONE`
or `AR_TWO`) with a higher number than a reachable tech from `A_FIRST` upward
that is not known is itself reachable. -/
def KnownPrereqsReachable (g : Game F) (r : Nat) : Prop :=
  ∀ i, A_FIRST ≤ i → research_invention_reachable g (some r) i = some true →
    research_invention_state g (some r) i ≠ some TECH_KNOWN →
    ∀ j, i < j → j = advance_required g i AR_ONE ∨ j = advance_required g i AR_TWO →
      research_invention_state g (some r) j = some TECH_KNOWN →
      research_invention_reachable g (some r) j = some true

/-! ## Concrete scenarios -/

/-- A tech tree with three techs besides `A_NONE`: tech 3 is its own root,
tech 2 requires tech 3, tech 1 requires tech 2; tech 3 is the root
requirement of techs 1 and 2.  Every tech costs 10 bulbs.  `reqs` lists,
for each goal, the goal and the techs it requires directly or indirectly. -/
def scenario_advances : Advances exactDouble where
  num_tech_types := 4
  removed := fun _ => false
  required := fun t r =>
    match t, r with
    | 1, AR_ONE => 2
    | 1, AR_ROOT => 3
    | 2, AR_ONE => 3
    | 2, AR_ROOT => 3
    | 3, AR_ROOT => 3
    | _, _ => 0
  cost := fun _ => Frac.ofInt 10
  reqs := fun t =>
    match t with
    | 1 => [1, 2, 3]
    | 2 => [2, 3]
    | t => [t]
  has_flag := fun _ _ => false
  tech_flag_id_max := 0

/-- A research in which `A_NONE` and tech 2 are `TECH_KNOWN` and the root
tech 3 is not: tech 2 is known and not reachable. -/
def scenario_research : research where
  techs_researched := 1
  future_tech := 0
  tech_goal := A_UNSET
  researching := A_UNSET
  researching_saved := A_UNKNOWN
  inventions := fun t =>
    { state := if t = 0 ∨ t = 2 then TECH_KNOWN else TECH_UNKNOWN
      required_techs := fun _ => false
      num_required_techs := 0
      bulbs_required := 0 }
  num_known_tech_with_flag := fun _ => 0

/-- One alive human player owning research 0; cost style 1, no leakage,
sciencebox 100. -/
def scenario_game : Game exactDouble where
  info :=
    { tech_cost_style := 1
      base_tech_cost := 20
      tech_leakage := 0
      sciencebox := 100
      team_pooled_research := false
      tech_steal_allow_holes := false
      global_advances := fun t => decide (t = 0 ∨ t = 2) }
  advances := scenario_advances
  players :=
    [{ number := 0, team := 0, is_alive := true, ai_controlled := false,
       science_cost := 100, is_barbarian := false, tech_cost_factor := 1 }]
  has_embassy := fun _ _ => false
  research_array := fun _ => scenario_research

/-- The game `scenario_game` with leakage style 2. -/
def scenario_game_leakage : Game exactDouble :=
  { scenario_game with info := { scenario_game.info with tech_leakage := 2 } }

/-- A rank for the tech tree of `scenario_advances`. -/
def scenario_rank (t : Nat) : Nat :=
  match t with
  | 1 => 2
  | 2 => 1
  | _ => 0

/-- A tech tree without root requirements: tech 3 requires techs 1 and 2,
which require nothing.  Every tech costs 10 bulbs. -/
def classic_advances : Advances exactDouble where
  num_tech_types := 4
  removed := fun _ => false
  required := fun t r =>
    match t, r with
    | 3, AR_ONE => 1
    | 3, AR_TWO => 2
    | _, _ => 0
  cost := fun _ => Frac.ofInt 10
  reqs := fun t =>
    match t with
    | 3 => [3, 1, 2]
    | t => [t]
  has_flag := fun _ _ => false
  tech_flag_id_max := 0

/-- A research that knows `A_NONE`, tech 1 and tech 2. -/
def classic_research : research where
  techs_researched := 3
  future_tech := 0
  tech_goal := A_UNSET
  researching := A_UNSET
  researching_saved := A_UNKNOWN
  inventions := fun t =>
    { state := if t ≤ 2 then TECH_KNOWN else TECH_UNKNOWN
      required_techs := fun _ => false
      num_required_techs := 0
      bulbs_required := 0 }
  num_known_tech_with_flag := fun _ => 0

/-- One alive human player owning research 0; cost style 1, no leakage,
sciencebox 100. -/
def classic_game : Game exactDouble where
  info :=
    { tech_cost_style := 1
      base_tech_cost := 20
      tech_leakage := 0
      sciencebox := 100
      team_pooled_research := false
      tech_steal_allow_holes := false
      global_advances := fun t => decide (t ≤ 2) }
  advances := classic_advances
  players :=
    [{ number := 0, team := 0, is_alive := true, ai_controlled := false,
       science_cost := 100, is_barbarian := false, tech_cost_factor := 1 }]
  has_embassy := fun _ _ => false
  research_array := fun _ => classic_research

/-- The game `classic_game` with a research that knows `A_NONE`, tech 1 and
tech 3 but not tech 2, a requirement of tech 3, which is
`TECH_PREREQS_KNOWN`. -/
def gap_game : Game exactDouble :=
  { classic_game with
    research_array := fun _ =>
      { classic_research with
        inventions := fun t =>
          { state := if t = 2 then TECH_PREREQS_KNOWN else if t ≤ 3 then TECH_KNOWN
              else TECH_UNKNOWN
            required_techs := fun _ => false
            num_required_techs := 0
            bulbs_required := 0 } } }

/-- The game `classic_game` with two future techs researched. -/
def future_game : Game exactDouble :=
  { classic_game with
    research_array := fun _ => { classic_research with future_tech := 2 } }

/-! ## Relations between game states used in the proofs -/

/-- The game `g` with `inventions[i]` of research `r` replaced by `inv` and
`techs_researched` of research `r` replaced by `n`. -/
def with_invention (g : Game F) (r : Nat) (i : Nat) (inv : research_invention)
    (n : Int) : Game F :=
  modify_research g r (fun res =>
    { res with techs_researched := n, inventions := Function.update res.inventions i inv })

/-- Two game states that differ at most in which unknown techs have their
requirements known and in the derived fields of the researches: same
settings, tech table and players, same counters in every research, and the
same techs in state `TECH_KNOWN`. -/
structure SameKnowledge (g g' : Game F) : Prop where
  info : g'.info = g.info
  advances : g'.advances = g.advances
  players : g'.players = g.players
  has_embassy : g'.has_embassy = g.has_embassy
  techs_researched : ∀ k,
    (g'.research_array k).techs_researched = (g.research_array k).techs_researched
  future_tech : ∀ k, (g'.research_array k).future_tech = (g.research_array k).future_tech
  known : ∀ k t, ((g'.research_array k).inventions t).state = TECH_KNOWN
    ↔ ((g.research_array k).inventions t).state = TECH_KNOWN

/-- The entry `inventions[i]` after the first two statements of the body of
the `advance_req_iterate` loop of `research_update` for requirement `j`. -/
def note_requirement (i j : Nat) (inv : research_invention) : research_invention :=
  let inv1 : research_invention :=
    if j ≠ i then { inv with required_techs := Function.update inv.required_techs j true }
    else inv
  { inv1 with num_required_techs := inv1.num_required_techs + 1 }

/-- Two entries of `inventions[]` with the same derived fields. -/
def SameDerived (x y : research_invention) : Prop :=
  x.required_techs = y.required_techs ∧ x.num_required_techs = y.num_required_techs
    ∧ x.bulbs_required = y.bulbs_required

/-! ## `actions.c`: action enablers and action probabilities -/

inductive fc_tristate where
  | TRI_NO
  | TRI_YES
  | TRI_MAYBE
deriving DecidableEq, Repr

open fc_tristate

/-- Modelled from the spec: the ternary AND of `utility/shared.c` (not in the
repository snapshot): the result is no as soon as one side is no, else
unknown as soon as one side is unknown, else yes. -/
def tri_and (one two : fc_tristate) : fc_tristate :=
  if one = TRI_NO ∨ two = TRI_NO then TRI_NO
  else if one = TRI_MAYBE ∨ two = TRI_MAYBE then TRI_MAYBE
  else TRI_YES

inductive gen_action where
  | ACTION_SPY_POISON
  | ACTION_SPY_SABOTAGE_UNIT
  | ACTION_SPY_BRIBE_UNIT
  | ACTION_SPY_SABOTAGE_CITY
  | ACTION_SPY_TARGETED_SABOTAGE_CITY
  | ACTION_SPY_INCITE_CITY
  | ACTION_ESTABLISH_EMBASSY
  | ACTION_SPY_STEAL_TECH
  | ACTION_SPY_TARGETED_STEAL_TECH
  | ACTION_SPY_INVESTIGATE_CITY
  | ACTION_COUNT
deriving DecidableEq, Repr

open gen_action

/-- The type `action_probability`: 0 to 200 for 0% to 100%, or a sentinel. -/
abbrev action_probability := Int

/-- The value of a 0% chance ("ACTPROB_IMPOSSIBLE is a 0% probability of
success"). -/
def ACTPROB_IMPOSSIBLE : action_probability := 0

/-- Modelled from the spec: the sentinel for "no probability applies" of
`actions.h` (not in the repository snapshot), a value of its own outside
0..200. -/
def ACTPROB_NA : action_probability := 253

/-- Modelled from the spec: the sentinel of `actions.h` (not in the
repository snapshot) for an action whose formula is not implemented, a
value of its own outside 0..200. -/
def ACTPROB_NOT_IMPLEMENTED : action_probability := 254

/-- Modelled from the spec: the sentinel of `actions.h` (not in the
repository snapshot) for a probability the player cannot know, a value of its
own outside 0..200. -/
def ACTPROB_NOT_KNOWN : action_probability := 255

/-- The unit type flags that `actions.c` tests. -/
inductive unit_type_flag_id where
  | UTYF_DIPLOMAT
  | UTYF_SPY
  | UTYF_SUPERSPY
deriving DecidableEq, Repr

open unit_type_flag_id

/-- The effect types, in the order in which the `switch` of
`dai_effect_value` lists them; that `switch` has a case for every value of
`enum effect_type` and no `default`. -/
inductive effect_type where
  | EFT_CAPITAL_CITY
  | EFT_GOV_CENTER
  | EFT_UPKEEP_FREE
  | EFT_TECH_UPKEEP_FREE
  | EFT_POLLU_POP_PCT
  | EFT_POLLU_PROD_PCT
  | EFT_OUTPUT_BONUS
  | EFT_OUTPUT_BONUS_2
  | EFT_OUTPUT_ADD_TILE
  | EFT_OUTPUT_INC_TILE
  | EFT_OUTPUT_PER_TILE
  | EFT_OUTPUT_WASTE
  | EFT_OUTPUT_WASTE_BY_DISTANCE
  | EFT_OUTPUT_WASTE_PCT
  | EFT_SPECIALIST_OUTPUT
  | EFT_ENEMY_CITIZEN_UNHAPPY_PCT
  | EFT_IRRIGATION_PCT
  | EFT_MINING_PCT
  | EFT_OUTPUT_TILE_PUNISH_PCT
  | EFT_CITY_VISION_RADIUS_SQ
  | EFT_UNIT_VISION_RADIUS_SQ
  | EFT_TURN_YEARS
  | EFT_SLOW_DOWN_TIMELINE
  | EFT_INCITE_COST_PCT
  | EFT_MAKE_HAPPY
  | EFT_UNIT_RECOVER
  | EFT_NO_UNHAPPY
  | EFT_FORCE_CONTENT
  | EFT_MAKE_CONTENT
  | EFT_MAKE_CONTENT_MIL_PER
  | EFT_MAKE_CONTENT_MIL
  | EFT_TECH_PARASITE
  | EFT_GROWTH_FOOD
  | EFT_HEALTH_PCT
  | EFT_AIRLIFT
  | EFT_ANY_GOVERNMENT
  | EFT_ENABLE_NUKE
  | EFT_ENABLE_SPACE
  | EFT_VICTORY
  | EFT_GIVE_IMM_TECH
  | EFT_HAVE_EMBASSIES
  | EFT_REVEAL_CITIES
  | EFT_NO_ANARCHY
  | EFT_NUKE_PROOF
  | EFT_REVEAL_MAP
  | EFT_SIZE_UNLIMIT
  | EFT_SIZE_ADJ
  | EFT_SS_STRUCTURAL
  | EFT_SS_COMPONENT
  | EFT_SS_MODULE
  | EFT_SPY_RESISTANT
  | EFT_MOVE_BONUS
  | EFT_UNIT_NO_LOSE_POP
  | EFT_HP_REGEN
  | EFT_VETERAN_COMBAT
  | EFT_VETERAN_BUILD
  | EFT_UPGRADE_UNIT
  | EFT_UNIT_BRIBE_COST_PCT
  | EFT_DEFEND_BONUS
  | EFT_GAIN_AI_LOVE
  | EFT_UPGRADE_PRICE_PCT
  | EFT_CITY_UNHAPPY_SIZE
  | EFT_UNHAPPY_FACTOR
  | EFT_UPKEEP_FACTOR
  | EFT_UNIT_UPKEEP_FREE_PER_CITY
  | EFT_CIVIL_WAR_CHANCE
  | EFT_EMPIRE_SIZE_BASE
  | EFT_EMPIRE_SIZE_STEP
  | EFT_MAX_RATES
  | EFT_MARTIAL_LAW_EACH
  | EFT_MARTIAL_LAW_MAX
  | EFT_RAPTURE_GROW
  | EFT_REVOLUTION_UNHAPPINESS
  | EFT_HAS_SENATE
  | EFT_INSPIRE_PARTISANS
  | EFT_HAPPINESS_TO_GOLD
  | EFT_FANATICS
  | EFT_NO_DIPLOMACY
  | EFT_NOT_TECH_SOURCE
  | EFT_OUTPUT_PENALTY_TILE
  | EFT_OUTPUT_INC_TILE_CELEBRATE
  | EFT_TRADE_REVENUE_BONUS
  | EFT_TILE_WORKABLE
  | EFT_IRRIG_POSSIBLE
  | EFT_TRANSFORM_POSSIBLE
  | EFT_MINING_POSSIBLE
  | EFT_IRRIG_TF_POSSIBLE
  | EFT_MINING_TF_POSSIBLE
  | EFT_PERFORMANCE
  | EFT_HISTORY
  | EFT_VISIBLE_WALLS
  | EFT_CITY_IMAGE
  | EFT_SHIELD2GOLD_FACTOR
  | EFT_TECH_COST_FACTOR
  | EFT_CITY_RADIUS_SQ
  | EFT_CITY_BUILD_SLOTS
  | EFT_MIGRATION_PCT
  | EFT_MAX_TRADE_ROUTES
  | EFT_TRADEROUTE_PCT
  | EFT_COUNT
deriving DecidableEq, Repr

open effect_type

inductive req_problem_type where
  | RPT_POSSIBLE
  | RPT_CERTAIN
deriving DecidableEq, Repr

open req_problem_type

/-- A requirement, with the five fields that `req_from_str` receives. -/
structure requirement where
  kind : String
  range : String
  survives : Bool
  present : Bool
  value : String
deriving DecidableEq, Repr

abbrev requirement_vector := List requirement

structure action_enabler where
  action : gen_action
  actor_reqs : requirement_vector
  target_reqs : requirement_vector
deriving DecidableEq, Repr

structure effect where
  reqs : requirement_vector
  value : Int

/-- A unit type: `has_flag` is `utype_has_flag`, `power_fact v` is
`utype_veteran_level(utype, v)->power_fact`. -/
structure unit_type where
  has_flag : unit_type_flag_id → Bool
  power_fact : Int → Int

/-- The fields of `struct unit` that `actions.c` reads; `tile` is the index
of the tile. -/
structure unit where
  owner : player
  utype : unit_type
  tile : Nat
  hp : Int
  veteran : Int

structure city where
  id : Nat
  owner : player
  tile : Nat

/-- The functions of other modules that `actions.c` calls, and the
registered enablers.  The arguments of `are_reqs_active` and `mke_eval_reqs`
are those of the C functions, in their order; buildings, tiles, output types
and specialists are given by number. -/
structure ActionEnv where
  are_reqs_active : Option player → Option player → Option city → Option Nat →
    Option Nat → Option unit → Option unit_type → Option Nat → Option Nat →
    requirement_vector → req_problem_type → Bool
  mke_eval_reqs : Option player → Option player → Option player → Option city →
    Option Nat → Option Nat → Option unit → Option Nat → Option Nat →
    requirement_vector → fc_tristate
  action_enablers_for_action : gen_action → List action_enabler
  get_effects : effect_type → List effect
  get_city_bonus : city → effect_type → Int
  tile_city : Nat → Option city
  tile_has_diplomat_defense_base : Nat → unit_type → Bool
  can_see_techs_of_target : Option player → Option player → Bool

/-- The argument list `actor_player, ..., target_specialist` shared by
`is_action_enabled`, `action_enabled_local` and `action_prob` (the last two
have no unit type arguments). -/
structure action_context where
  actor_player : Option player
  actor_city : Option city
  actor_building : Option Nat
  actor_tile : Option Nat
  actor_unit : Option unit
  actor_unittype : Option unit_type
  actor_output : Option Nat
  actor_specialist : Option Nat
  target_player : Option player
  target_city : Option city
  target_building : Option Nat
  target_tile : Option Nat
  target_unit : Option unit
  target_unittype : Option unit_type
  target_output : Option Nat
  target_specialist : Option Nat

/-- The call `req_from_str(type, range, survives, present, value)`: a
requirement is kept as the five arguments of the call (the parser itself is
in `requirements.c`). -/
def req_from_str (type range : String) (survives present : Bool) (value : String) :
    requirement :=
  { kind := type, range := range, survives := survives, present := present, value := value }

/-- The function `action_enabler_append_hard`; `requirement_vector_append`
adds at the end of the vector. -/
def action_enabler_append_hard (enabler : action_enabler) : action_enabler :=
  let actor_reqs : requirement_vector :=
    enabler.actor_reqs ++ [req_from_str "UnitFlag" "Local" false true "Diplomat"]
  let actor_reqs : requirement_vector :=
    actor_reqs ++ [req_from_str "UnitState" "Local" false false "TransportDependent"]
  let actor_reqs : requirement_vector :=
    if enabler.action = ACTION_ESTABLISH_EMBASSY then
      actor_reqs ++ [req_from_str "DiplRel" "Local" false false "Has real embassy"]
    else actor_reqs
  let target_reqs : requirement_vector :=
    if enabler.action = ACTION_SPY_BRIBE_UNIT ∨ enabler.action = ACTION_SPY_SABOTAGE_UNIT then
      enabler.target_reqs ++ [req_from_str "MaxUnitsOnTile" "Local" false true "1"]
    else enabler.target_reqs
  { enabler with actor_reqs := actor_reqs, target_reqs := target_reqs }

def unit_has_type_flag (punit : unit) (flag : unit_type_flag_id) : Bool :=
  punit.utype.has_flag flag

def is_enabler_active (env : ActionEnv) (enabler : action_enabler) (c : action_context) :
    Bool :=
  env.are_reqs_active c.actor_player c.target_player c.actor_city c.actor_building
      c.actor_tile c.actor_unit c.actor_unittype c.actor_output c.actor_specialist
      enabler.actor_reqs RPT_CERTAIN
    && env.are_reqs_active c.target_player c.actor_player c.target_city c.target_building
      c.target_tile c.target_unit c.target_unittype c.target_output c.target_specialist
      enabler.target_reqs RPT_CERTAIN

/-- The `action_enabler_list_iterate` loop of `is_action_enabled`. -/
def is_action_enabled_loop (env : ActionEnv) (c : action_context) :
    List action_enabler → Bool
  | [] => false
  | enabler :: rest =>
    if is_enabler_active env enabler c then true else is_action_enabled_loop env c rest

def is_action_enabled (env : ActionEnv) (wanted_action : gen_action) (c : action_context) :
    Bool :=
  is_action_enabled_loop env c (env.action_enablers_for_action wanted_action)

/-- The value of `current` in the loop of `action_enabled_local`. -/
def enabler_local_eval (env : ActionEnv) (c : action_context) (enabler : action_enabler) :
    fc_tristate :=
  tri_and
    (env.mke_eval_reqs c.actor_player c.actor_player c.target_player c.actor_city
      c.actor_building c.actor_tile c.actor_unit c.actor_output c.actor_specialist
      enabler.actor_reqs)
    (env.mke_eval_reqs c.actor_player c.target_player c.actor_player c.target_city
      c.target_building c.target_tile c.target_unit c.target_output c.target_specialist
      enabler.target_reqs)

/-- The `action_enabler_list_iterate` loop of `action_enabled_local`, from a
given value of `result`. -/
def action_enabled_local_loop (env : ActionEnv) (c : action_context) :
    fc_tristate → List action_enabler → fc_tristate
  | result, [] => result
  | result, enabler :: rest =>
    if enabler_local_eval env c enabler = TRI_YES then TRI_YES
    else if enabler_local_eval env c enabler = TRI_MAYBE then
      action_enabled_local_loop env c TRI_MAYBE rest
    else action_enabled_local_loop env c result rest

def action_enabled_local (env : ActionEnv) (wanted_action : gen_action)
    (c : action_context) : fc_tristate :=
  action_enabled_local_loop env c TRI_NO (env.action_enablers_for_action wanted_action)

/-- The loop of `is_effect_val_known`. -/
def is_effect_val_known_loop (env : ActionEnv)
    (pow_player target_player other_player : Option player) (target_city : Option city)
    (target_building target_tile : Option Nat) (target_unit : Option unit)
    (target_output target_specialist : Option Nat) : List effect → Bool
  | [] => true
  | peffect :: rest =>
    if TRI_MAYBE = env.mke_eval_reqs pow_player target_player other_player target_city
        target_building target_tile target_unit target_output target_specialist
        peffect.reqs then false
    else is_effect_val_known_loop env pow_player target_player other_player target_city
      target_building target_tile target_unit target_output target_specialist rest

def is_effect_val_known (env : ActionEnv) (etype : effect_type)
    (pow_player target_player other_player : Option player) (target_city : Option city)
    (target_building target_tile : Option Nat) (target_unit : Option unit)
    (target_output target_specialist : Option Nat) : Bool :=
  is_effect_val_known_loop env pow_player target_player other_player target_city
    target_building target_tile target_unit target_output target_specialist
    (env.get_effects etype)

/-- The test of the `advance_iterate` loop of `tech_can_be_stolen`. -/
def tech_worth_stealing (g : Game F) (actor_research target_research : Option Nat)
    (i : Nat) : Bool :=
  decide (research_invention_state g target_research i = some TECH_KNOWN)
    && research_invention_gettable g actor_research i g.info.tech_steal_allow_holes
    && (decide (research_invention_state g actor_research i = some TECH_UNKNOWN)
      || decide (research_invention_state g actor_research i = some TECH_PREREQS_KNOWN))

def tech_can_be_stolen (env : ActionEnv) (g : Game F)
    (actor_player target_player : Option player) : fc_tristate :=
  let actor_research := research_get g actor_player
  let target_research := research_get g target_player
  if actor_research ≠ target_research then
    if env.can_see_techs_of_target actor_player target_player then
      if (List.range' A_FIRST (advance_count g - A_FIRST)).any
          (tech_worth_stealing g actor_research target_research) then TRI_YES
      else TRI_NO
    else TRI_MAYBE
  else TRI_NO

def ap_diplomat_battle (env : ActionEnv) (pattacker pdefender : unit) : action_probability :=
  if unit_has_type_flag pattacker UTYF_SUPERSPY then 200
  else if unit_has_type_flag pdefender UTYF_SUPERSPY then ACTPROB_IMPOSSIBLE
  else if !unit_has_type_flag pdefender UTYF_DIPLOMAT then 200
  else
    let chance : Int := 50
    let chance : Int := if unit_has_type_flag pattacker UTYF_SPY then chance + 25 else chance
    let chance : Int := if unit_has_type_flag pdefender UTYF_SPY then chance - 25 else chance
    let chance : Int :=
      chance + (pattacker.utype.power_fact pattacker.veteran
        - pdefender.utype.power_fact pdefender.veteran)
    match env.tile_city pdefender.tile with
    | some pcity =>
      if !is_effect_val_known env EFT_SPY_RESISTANT (some pattacker.owner) (some pcity.owner)
          none (some pcity) none (some pcity.tile) none none none then ACTPROB_NOT_KNOWN
      else (chance - Int.tdiv (chance * env.get_city_bonus pcity EFT_SPY_RESISTANT) 100) * 2
    | none =>
      if env.tile_has_diplomat_defense_base pdefender.tile pdefender.utype then
        (chance - Int.tdiv (chance * 25) 100) * 2
      else chance * 2

/-- The final `switch (known)` of `action_prob`. -/
def action_prob_of_known (known : fc_tristate) (chance : action_probability) :
    action_probability :=
  match known with
  | TRI_NO => ACTPROB_IMPOSSIBLE
  | TRI_MAYBE => ACTPROB_NOT_KNOWN
  | TRI_YES => chance

/-- The function `action_prob`; `none` when a `NULL` unit is dereferenced. -/
def action_prob (env : ActionEnv) (g : Game F) (wanted_action : gen_action)
    (c : action_context) : Option action_probability :=
  let chance : action_probability := ACTPROB_NOT_IMPLEMENTED
  let known : fc_tristate := action_enabled_local env wanted_action c
  match wanted_action with
  | ACTION_SPY_POISON => some (action_prob_of_known known chance)
  | ACTION_SPY_SABOTAGE_UNIT =>
    match c.target_unit with
    | none => none
    | some target_unit =>
      if target_unit.hp < 2 then some ACTPROB_IMPOSSIBLE
      else
        match c.actor_unit with
        | none => none
        | some actor_unit =>
          some (action_prob_of_known known (ap_diplomat_battle env actor_unit target_unit))
  | ACTION_SPY_BRIBE_UNIT => some (action_prob_of_known known 200)
  | ACTION_SPY_SABOTAGE_CITY => some (action_prob_of_known known chance)
  | ACTION_SPY_TARGETED_SABOTAGE_CITY => some (action_prob_of_known known chance)
  | ACTION_SPY_INCITE_CITY => some (action_prob_of_known known chance)
  | ACTION_ESTABLISH_EMBASSY => some (action_prob_of_known known 200)
  | ACTION_SPY_STEAL_TECH =>
    some (action_prob_of_known
      (tri_and known (tech_can_be_stolen env g c.actor_player c.target_player)) chance)
  | ACTION_SPY_TARGETED_STEAL_TECH =>
    some (action_prob_of_known
      (tri_and known (tech_can_be_stolen env g c.actor_player c.target_player)) chance)
  | ACTION_SPY_INVESTIGATE_CITY => some (action_prob_of_known known 200)
  | ACTION_COUNT => some (action_prob_of_known known chance)

/-! ## Concrete scenarios for the action rules -/

/-- Requirement vectors named by what they evaluate to in `sample_env`. -/
def reqs_false : requirement_vector :=
  [{ kind := "MinSize", range := "City", survives := false, present := true, value := "99" }]

def reqs_unknown : requirement_vector :=
  [{ kind := "Tech", range := "Player", survives := false, present := true,
     value := "Writing" }]

/-- Enabler A of the two-enabler scenario: its actor side is false. -/
def enabler_a : action_enabler :=
  { action := ACTION_ESTABLISH_EMBASSY, actor_reqs := reqs_false, target_reqs := [] }

/-- Enabler B of the two-enabler scenario: both sides are true. -/
def enabler_b : action_enabler :=
  { action := ACTION_ESTABLISH_EMBASSY, actor_reqs := [], target_reqs := [] }

/-- An enabler whose target side is not known to the actor. -/
def enabler_m : action_enabler :=
  { action := ACTION_SPY_POISON, actor_reqs := [], target_reqs := reqs_unknown }

/-- An enabler whose actor side is false. -/
def enabler_n : action_enabler :=
  { action := ACTION_SPY_POISON, actor_reqs := reqs_false, target_reqs := [] }

/-- An environment without cities, bases and effects, where an empty
requirement vector is active, `reqs_unknown` is not known and every other
vector is false; establish embassy has the enablers A and B, poison city the
enablers M and N, sabotage unit the enabler B. -/
def sample_env : ActionEnv where
  are_reqs_active := fun _ _ _ _ _ _ _ _ _ reqs _ => decide (reqs = [])
  mke_eval_reqs := fun _ _ _ _ _ _ _ _ _ reqs =>
    if reqs = [] then TRI_YES else if reqs = reqs_unknown then TRI_MAYBE else TRI_NO
  action_enablers_for_action := fun a =>
    match a with
    | ACTION_ESTABLISH_EMBASSY => [enabler_a, enabler_b]
    | ACTION_SPY_POISON => [enabler_m, enabler_n]
    | ACTION_SPY_SABOTAGE_UNIT => [enabler_b]
    | _ => []
  get_effects := fun _ => []
  get_city_bonus := fun _ _ => 0
  tile_city := fun _ => none
  tile_has_diplomat_defense_base := fun _ _ => false
  can_see_techs_of_target := fun _ _ => false

def sample_player (n : Nat) : player :=
  { number := n, team := n, is_alive := true, ai_controlled := false, science_cost := 100,
    is_barbarian := false, tech_cost_factor := 1 }

/-- A unit type without flags. -/
def plain_type : unit_type :=
  { has_flag := fun _ => false, power_fact := fun _ => 100 }

/-- A unit type with the Diplomat flag only. -/
def diplomat_type : unit_type :=
  { has_flag := fun f => decide (f = UTYF_DIPLOMAT), power_fact := fun _ => 100 }

/-- A unit type with the SuperSpy flag (and Diplomat). -/
def superspy_type : unit_type :=
  { has_flag := fun f => decide (f = UTYF_DIPLOMAT ∨ f = UTYF_SUPERSPY),
    power_fact := fun _ => 100 }

def sample_unit (owner : Nat) (utype : unit_type) : unit :=
  { owner := sample_player owner, utype := utype, tile := owner, hp := 10, veteran := 0 }

/-- A context with actor unit `a` and target unit `t` and nothing else. -/
def sample_context (a t : unit) : action_context :=
  { actor_player := some a.owner, actor_city := none, actor_building := none,
    actor_tile := some a.tile, actor_unit := some a, actor_unittype := some a.utype,
    actor_output := none, actor_specialist := none,
    target_player := some t.owner, target_city := none, target_building := none,
    target_tile := some t.tile, target_unit := some t, target_unittype := some t.utype,
    target_output := none, target_specialist := none }

/-- A unit type with the Diplomat and Spy flags and the veteran power
factors 100, 150, 175, 200 for the levels 0 to 3. -/
def spy_type : unit_type :=
  { has_flag := fun f => decide (f = UTYF_DIPLOMAT ∨ f = UTYF_SPY)
    power_fact := fun v => if v = 1 then 150 else if v = 2 then 175 else if v = 3 then 200
      else 100 }

/-- The unit `sample_unit owner utype` at veteran level `v`. -/
def veteran_unit (owner : Nat) (utype : unit_type) (v : Int) : unit :=
  { sample_unit owner utype with veteran := v }

/-- The city on tile 1, owned by player 1. -/
def sample_city : city :=
  { id := 1, owner := sample_player 1, tile := 1 }

/-- The environment `sample_env` with `sample_city` on tile 1 and one effect
of every type, whose requirement vector the actor cannot evaluate. -/
def city_env : ActionEnv :=
  { sample_env with
    tile_city := fun t => if t = 1 then some sample_city else none
    get_effects := fun _ => [{ reqs := reqs_unknown, value := 25 }] }

/-- The environment `sample_env` with `sample_city` on tile 1, one effect of
every type without requirements, and a city bonus of 40 for every effect
type. -/
def known_city_env : ActionEnv :=
  { sample_env with
    tile_city := fun t => if t = 1 then some sample_city else none
    get_effects := fun _ => [{ reqs := [], value := 40 }]
    get_city_bonus := fun _ _ => 40 }

/-- Upkeep per city, divider 1, two bulbs free and three cities for every
player. -/
def sample_upkeep : UpkeepEnv :=
  { tech_upkeep_style := TECH_UPKEEP_PER_CITY
    tech_upkeep_divider := 1
    tech_upkeep_free := fun _ => 2
    city_list_size := fun _ => 3 }

/-- A tech tree in which tech 1 has no root requirement and requires tech 2,
tech 2 has the root requirement tech 3, techs 3 and 4 are their own roots,
and tech 4 requires tech 2.  Every tech costs 10 bulbs. -/
def holes_advances : Advances exactDouble where
  num_tech_types := 5
  removed := fun _ => false
  required := fun t r =>
    match t, r with
    | 1, AR_ONE => 2
    | 2, AR_ROOT => 3
    | 3, AR_ROOT => 3
    | 4, AR_ONE => 2
    | 4, AR_ROOT => 4
    | _, _ => 0
  cost := fun _ => Frac.ofInt 10
  reqs := fun t =>
    match t with
    | 1 => [1, 2, 3]
    | 2 => [2, 3]
    | 4 => [4, 2, 3]
    | t => [t]
  has_flag := fun _ _ => false
  tech_flag_id_max := 0

/-- A research that knows `A_NONE`, tech 2 and tech 4, but not tech 3, the
root requirement of tech 2. -/
def holes_research : research where
  techs_researched := 2
  future_tech := 0
  tech_goal := A_UNSET
  researching := A_UNSET
  researching_saved := A_UNKNOWN
  inventions := fun t =>
    { state := if t = 0 ∨ t = 2 ∨ t = 4 then TECH_KNOWN else TECH_UNKNOWN
      required_techs := fun _ => false
      num_required_techs := 0
      bulbs_required := 0 }
  num_known_tech_with_flag := fun _ => 0

/-- The game `scenario_game` with the tech tree `holes_advances` and the
research `holes_research`. -/
def holes_game : Game exactDouble :=
  { scenario_game with
    advances := holes_advances
    research_array := fun _ => holes_research }


/-! ## `rssanity.c`: sanity checks on requirement vectors -/

/-- The kinds of `enum universals_n`, as the `switch` on the kind in
`sanity_check_req_set` lists them; that `switch` has no `default`, so that
the compiler warns about a kind it does not handle. -/
inductive universals_n where
  | VUT_GOVERNMENT
  | VUT_UTYPE
  | VUT_UCLASS
  | VUT_OTYPE
  | VUT_SPECIALIST
  | VUT_MINSIZE
  | VUT_MINYEAR
  | VUT_AI_LEVEL
  | VUT_TERRAINALTER
  | VUT_CITYTILE
  | VUT_STYLE
  | VUT_TERRAIN
  | VUT_RESOURCE
  | VUT_TERRAINCLASS
  | VUT_EXTRA
  | VUT_MAXTILEUNITS
  | VUT_NATION
  | VUT_NONE
  | VUT_ADVANCE
  | VUT_TECHFLAG
  | VUT_IMPROVEMENT
  | VUT_UNITSTATE
  | VUT_UTFLAG
  | VUT_UCFLAG
  | VUT_TERRFLAG
  | VUT_BASEFLAG
  | VUT_ROADFLAG
  | VUT_NATIONALITY
  | VUT_MINCULTURE
  | VUT_ACHIEVEMENT
  | VUT_DIPLREL
  | VUT_COUNT
deriving DecidableEq, Repr

open universals_n

/-- The type `struct universal`: the kind and the value, which is the number
of the building, government, terrain and so on. -/
structure universal where
  value : Nat
  kind : universals_n
deriving DecidableEq, Repr

/-- The type `struct requirement` as the ruleset loader leaves it: `range` is
the value of `enum req_range`.  (The type `requirement` above is the
argument list of `req_from_str`.) -/
structure struct_requirement where
  source : universal
  range : Int
  survives : Bool
  present : Bool
deriving DecidableEq, Repr

/-- What `rssanity.c` takes from `requirements.h`, `requirements.c` and
`improvement.c`: three values of `enum req_range`, the validity test of a
kind, the wonder tests by building number, and
`are_requirements_opposites`. -/
structure RulesetEnv where
  REQ_RANGE_LOCAL : Int
  REQ_RANGE_TRADEROUTE : Int
  REQ_RANGE_WORLD : Int
  universals_n_is_valid : universals_n → Bool
  is_great_wonder : Nat → Bool
  is_wonder : Nat → Bool
  are_requirements_opposites : struct_requirement → struct_requirement → Bool

/-- The function `sanity_check_req_individual` (the log messages are left
out). -/
def sanity_check_req_individual (env : RulesetEnv) (preq : struct_requirement) : Bool :=
  match preq.source.kind with
  | VUT_IMPROVEMENT =>
    if preq.range = env.REQ_RANGE_WORLD ∧ env.is_great_wonder preq.source.value = false then
      false
    else if preq.range > env.REQ_RANGE_TRADEROUTE
        ∧ env.is_wonder preq.source.value = false then
      false
    else true
  | _ => true

/-- The arrays `reqs_of_type[]` and `local_reqs_of_type[]`, indexed by the
kind. -/
structure req_counts where
  reqs_of_type : universals_n → Int
  local_reqs_of_type : universals_n → Int

/-- Both arrays after `memset(..., 0, ...)`. -/
def req_counts_zero : req_counts :=
  { reqs_of_type := fun _ => 0, local_reqs_of_type := fun _ => 0 }

/-- The `switch` of `sanity_check_req_set` for a present local requirement:
false when the list has both a local terrain and a local terrain class
requirement. -/
def local_terrain_ok (kind : universals_n) (local_reqs_of_type : universals_n → Int) : Bool :=
  match kind with
  | VUT_TERRAINCLASS => if local_reqs_of_type VUT_TERRAIN > 0 then false else true
  | VUT_TERRAIN => if local_reqs_of_type VUT_TERRAINCLASS > 0 then false else true
  | _ => true

/-- The `switch` of `sanity_check_req_set` under `rc > 1 && preq->present`:
false when the kind may not occur `rc` times. -/
def multiple_reqs_ok (kind : universals_n) (rc max_tiles : Int) : Bool :=
  match kind with
  | VUT_GOVERNMENT | VUT_UTYPE | VUT_UCLASS | VUT_OTYPE | VUT_SPECIALIST | VUT_MINSIZE
  | VUT_MINYEAR | VUT_AI_LEVEL | VUT_TERRAINALTER | VUT_CITYTILE | VUT_STYLE => false
  | VUT_TERRAIN | VUT_RESOURCE => if max_tiles ≠ -1 ∧ rc > max_tiles then false else true
  | VUT_TERRAINCLASS =>
    if rc > 2 ∨ (max_tiles ≠ -1 ∧ rc > max_tiles) then false else true
  | VUT_EXTRA | VUT_MAXTILEUNITS | VUT_NATION | VUT_NONE | VUT_ADVANCE | VUT_TECHFLAG
  | VUT_IMPROVEMENT | VUT_UNITSTATE | VUT_UTFLAG | VUT_UCFLAG | VUT_TERRFLAG | VUT_BASEFLAG
  | VUT_ROADFLAG | VUT_NATIONALITY | VUT_MINCULTURE | VUT_ACHIEVEMENT | VUT_DIPLREL => true
  | VUT_COUNT => false

/-- The function `sanity_check_req_set`: the result and the two arrays as
the call leaves them. -/
def sanity_check_req_set (env : RulesetEnv) (cnt : req_counts) (preq : struct_requirement)
    (conjunctive : Bool) (max_tiles : Int) : Bool × req_counts :=
  if !env.universals_n_is_valid preq.source.kind then (false, cnt)
  else if !sanity_check_req_individual env preq then (false, cnt)
  else if !conjunctive then (true, cnt)
  else
    let reqs_of_type : universals_n → Int :=
      if preq.present then
        Function.update cnt.reqs_of_type preq.source.kind
          (cnt.reqs_of_type preq.source.kind + 1)
      else cnt.reqs_of_type
    let rc : Int := reqs_of_type preq.source.kind
    let local_reqs_of_type : universals_n → Int :=
      if preq.range = env.REQ_RANGE_LOCAL ∧ preq.present = true then
        Function.update cnt.local_reqs_of_type preq.source.kind
          (cnt.local_reqs_of_type preq.source.kind + 1)
      else cnt.local_reqs_of_type
    let cnt1 : req_counts :=
      { reqs_of_type := reqs_of_type, local_reqs_of_type := local_reqs_of_type }
    if (preq.range = env.REQ_RANGE_LOCAL ∧ preq.present = true)
        ∧ local_terrain_ok preq.source.kind local_reqs_of_type = false then (false, cnt1)
    else if rc > 1 ∧ preq.present = true then
      (multiple_reqs_ok preq.source.kind rc max_tiles, cnt1)
    else (true, cnt1)

/-- The outer loop of `sanity_check_req_vec` over the rest of the vector
`preqs`; the inner loop compares `preq` with every requirement of the
vector. -/
def sanity_check_req_vec_loop (env : RulesetEnv) (preqs : List struct_requirement)
    (conjunctive : Bool) (max_tiles : Int) :
    req_counts → List struct_requirement → Bool
  | _, [] => true
  | cnt, preq :: rest =>
    if !(sanity_check_req_set env cnt preq conjunctive max_tiles).1 then false
    else if preqs.any (fun nreq => env.are_requirements_opposites preq nreq) then false
    else
      sanity_check_req_vec_loop env preqs conjunctive max_tiles
        (sanity_check_req_set env cnt preq conjunctive max_tiles).2 rest

/-- The function `sanity_check_req_vec`. -/
def sanity_check_req_vec (env : RulesetEnv) (preqs : List struct_requirement)
    (conjunctive : Bool) (max_tiles : Int) : Bool :=
  sanity_check_req_vec_loop env preqs conjunctive max_tiles req_counts_zero preqs

/-! ### A ruleset environment for the examples -/

/-- Modelled from the spec: two requirements are logical opposites when
they have the same kind, value and range and one is present and the other
is absent (the function is in `requirements.c`). -/
def are_requirements_opposites (req1 req2 : struct_requirement) : Bool :=
  decide (req1.source = req2.source ∧ req1.range = req2.range
    ∧ req1.present ≠ req2.present)

/-- The ranges numbered as in `enum req_range` (local 0, trade route 4,
world 9), every kind but `VUT_COUNT` valid, building 1 a great wonder,
building 2 a small wonder. -/
def sample_ruleset : RulesetEnv where
  REQ_RANGE_LOCAL := 0
  REQ_RANGE_TRADEROUTE := 4
  REQ_RANGE_WORLD := 9
  universals_n_is_valid := fun k => decide (k ≠ VUT_COUNT)
  is_great_wonder := fun b => decide (b = 1)
  is_wonder := fun b => decide (b = 1 ∨ b = 2)
  are_requirements_opposites := are_requirements_opposites

/-- A requirement without the `survives` flag. -/
def sample_req (kind : universals_n) (value : Nat) (range : Int) (present : Bool) :
    struct_requirement :=
  { source := { value := value, kind := kind }, range := range, survives := false,
    present := present }

/-! ## `rssanity.c`: `sanity_check_ruleset_data` -/

/-- The calls of `ruleset_error(LOG_ERROR, ...)` in `rssanity.c`, one name
for each call, in the order of the source. -/
inductive ruleset_problem where
  | cost_based_free_tech
  | tech_requires_itself
  | tech_requires_itself_indirectly
  | global_init_tech_missing
  | global_init_tech_no_root_req
  | nation_init_tech_missing
  | nation_init_tech_no_root_req
  | obsoleted_by_loop
  | spy_without_diplomat
  | effects_reqs
  | disasters_reqs
  | buildings_reqs
  | buildings_obsolescence_req
  | governments_reqs
  | specialists_reqs
  | extras_reqs
  | extras_removal_reqs
  | road_integrates_non_integrating
  | city_styles_reqs
  | action_enablers_reqs
  | no_basic_city_style
  | music_styles_reqs
  | animal_not_native
  | unit_class_cannot_exist
  | no_flag_settler_units
  | no_role_explorer_units
  | no_role_ferryboat_units
  | no_role_firstbuild_units
  | ferryboat_not_at_sea
  | no_role_barbarian_units
  | no_role_barbarian_leader_units
  | no_role_barbarian_build_units
  | no_role_barbarian_ship_units
  | barbarian_boat_not_at_sea
  | no_role_sea_raider_units
  | barbarian_boat_no_capacity
  | barbarian_boat_cannot_transport
deriving DecidableEq, Repr

open ruleset_problem

/-- The unit flag and the unit roles that `rssanity.c` counts with
`num_role_units` or tests with `utype_has_role`. -/
inductive unit_role where
  | UTYF_SETTLERS
  | L_EXPLORER
  | L_FERRYBOAT
  | L_FIRSTBUILD
  | L_BARBARIAN
  | L_BARBARIAN_LEADER
  | L_BARBARIAN_BUILD
  | L_BARBARIAN_BOAT
  | L_BARBARIAN_SEA
  | L_BARBARIAN_SEA_TECH
deriving DecidableEq, Repr

open unit_role

/-- A unit type as `rssanity.c` reads it: `obsoleted_by` is the number of
the unit type in the table (`none` for `NULL`), `uclass` the number of
`utype_class`, `can_transport c` is `can_unit_type_transport` for the unit
class with number `c`. -/
structure rs_unit_type where
  obsoleted_by : Option Nat
  has_flag : unit_type_flag_id → Bool
  has_role : unit_role → Bool
  transport_capacity : Int
  uclass : Nat
  can_transport : Nat → Bool

/-- A terrain type: `animal` is the number of the unit type `pterr->animal`,
`animal_native` the value of `is_native_to_class` for the class of the
animal on this terrain without extras, `native_to` the bit set by unit class
number. -/
structure rs_terrain where
  animal : Option Nat
  animal_native : Bool
  is_ocean : Bool
  native_to : Nat → Bool

/-- An extra type; `native_tile` is `extra_has_flag(pextra, EF_NATIVE_TILE)`. -/
structure rs_extra where
  reqs : List struct_requirement
  rmreqs : List struct_requirement
  native_to : Nat → Bool
  native_tile : Bool

/-- A road type: the road indices of the list `integrators`, and the bit
set `integrates` by road index.  The index of a road is its place in the
table. -/
structure rs_road where
  integrators : List Nat
  integrates : Nat → Bool

/-- The ruleset tables that `sanity_check_ruleset_data` goes through, each in
the order of its iterator.  `advance_requires t i` is `none` for `A_NEVER`,
`advance_reqs t` lists what `advance_req_iterate` visits from `t`,
`global_init_techs` and the `init_techs` of the `nations` are the entries
before `A_LAST`, `free_tech_cheapest` is
`game.info.free_tech_method == FTM_CHEAPEST`, `barbs_disabled` is
`BARBS_DISABLED == game.server.barbarianrate`, `basic_city_style` lists
`basic_city_style_for_style` of each nation style, `build_anywhere` lists
`uclass_has_flag(pclass, UCF_BUILD_ANYWHERE)` of each unit class, and
`role_units r` lists the unit types `get_role_unit(r, 0)`, `get_role_unit(r,
1)` and so on, so that its length is `num_role_units(r)`.  The entry
`global_init_techs` and the tables are those of `game.rgame`,
`game.control` and the ruleset modules, none of which is in this file. -/
structure Ruleset where
  env : RulesetEnv
  tech_cost_style : Int
  free_tech_cheapest : Bool
  num_tech_types : Nat
  advance_requires : Nat → tech_req → Option Nat
  advance_reqs : Nat → List Nat
  valid_advance : Nat → Bool
  global_init_techs : List Nat
  nations : List (List Nat)
  unit_types : List rs_unit_type
  effects : List (List struct_requirement)
  disasters : List (List struct_requirement)
  buildings : List (List struct_requirement × List struct_requirement)
  governments : List (List struct_requirement)
  specialists : List (List struct_requirement)
  extras : List rs_extra
  roads : List rs_road
  city_styles : List (List struct_requirement)
  action_enablers : List (List struct_requirement × List struct_requirement)
  basic_city_style : List Int
  music_styles : List (List struct_requirement)
  terrains : List rs_terrain
  build_anywhere : List Bool
  role_units : unit_role → List rs_unit_type
  barbs_disabled : Bool

/-- The local `ok` of `sanity_check_ruleset_data` together with the errors
reported so far. -/
structure check_state where
  ok : Bool
  errors : List ruleset_problem
deriving DecidableEq, Repr

/-- A call of `ruleset_error(LOG_ERROR, ...)`: the error is reported; `ok` is
a separate assignment. -/
def ruleset_error (st : check_state) (p : ruleset_problem) : check_state :=
  { st with errors := st.errors ++ [p] }

/-- The statements `ruleset_error(LOG_ERROR, ...); ok = FALSE;`. -/
def ruleset_error_not_ok (st : check_state) (p : ruleset_problem) : check_state :=
  { ok := false, errors := st.errors ++ [p] }

/-- The function `nation_has_initial_tech`, by tech number. -/
def nation_has_initial_tech (rs : Ruleset) (init_techs : List Nat) (tech : Nat) : Bool :=
  rs.global_init_techs.contains tech || init_techs.contains tech

/-- The body of the loop `for (i = AR_ONE; i < AR_SIZE; i++)` for the
advance `padvance` and the requirement `i`. -/
def check_advance_req (rs : Ruleset) (padvance : Nat) (st : check_state) (i : tech_req) :
    check_state :=
  match rs.advance_requires padvance i with
  | none => st
  | some preq =>
    if preq = padvance then ruleset_error_not_ok st tech_requires_itself
    else
      (rs.advance_reqs preq).foldl
        (fun s preqreq =>
          if preqreq = padvance then ruleset_error_not_ok s tech_requires_itself_indirectly
          else s)
        st

/-- The loop `advance_iterate(A_FIRST, padvance)`. -/
def check_advances (rs : Ruleset) (st : check_state) : check_state :=
  (List.range' A_FIRST (rs.num_tech_types - A_FIRST)).foldl
    (fun s padvance => [AR_ONE, AR_TWO, AR_ROOT].foldl (check_advance_req rs padvance) s) st

/-- The check of one initial tech of a nation; `none` when
`a->require[AR_ROOT]` is `A_NEVER`, which `nation_has_initial_tech`
dereferences (a valid advance has no such requirement). -/
def check_init_tech (rs : Ruleset) (init_techs : List Nat)
    (missing no_root_req : ruleset_problem) (st : Option check_state) (tech : Nat) :
    Option check_state :=
  match st with
  | none => none
  | some s =>
    if !rs.valid_advance tech then some (ruleset_error_not_ok s missing)
    else
      match rs.advance_requires tech AR_ROOT with
      | none => none
      | some root =>
        if root ≠ A_NONE ∧ nation_has_initial_tech rs init_techs root = false then
          some (ruleset_error_not_ok s no_root_req)
        else some s

/-- The loop `nations_iterate(pnation)`. -/
def check_nations (rs : Ruleset) (st : check_state) : Option check_state :=
  rs.nations.foldl
    (fun s init_techs =>
      init_techs.foldl
        (check_init_tech rs init_techs nation_init_tech_missing nation_init_tech_no_root_req)
        (rs.global_init_techs.foldl
          (check_init_tech rs init_techs global_init_tech_missing
            global_init_tech_no_root_req) s))
    (some st)

/-- The loop `while (upgraded != NULL)` with a bound on the number of tests
of its condition; `none` when the bound is reached. -/
def upgrade_chain (rs : Ruleset) : Nat → Option Nat → Int → check_state → Option check_state
  | 0, _, _, _ => none
  | fuel + 1, upgraded, chain_length, st =>
    match upgraded with
    | none => some st
    | some u =>
      upgrade_chain rs fuel ((rs.unit_types.get? u).bind (fun t => t.obsoleted_by))
        (chain_length + 1)
        (if chain_length + 1 > (rs.unit_types.length : Int) then
          ruleset_error_not_ok st obsoleted_by_loop
        else st)

/-- The check against unit upgrade loops.  A chain of `obsoleted_by` links
that ends passes through each unit type of the table at most once, so the
loop tests its condition at most `num_utypes + 1` times; a loop that reaches
the bound `num_utypes + 2` does not end, and `none` stands for that. -/
def check_upgrade_loops (rs : Ruleset) (st : check_state) : Option check_state :=
  (List.range rs.unit_types.length).foldl
    (fun s putype =>
      match s with
      | none => none
      | some s1 => upgrade_chain rs (rs.unit_types.length + 2) (some putype) 0 s1)
    (some st)

/-- The check that a unit type with the flag Spy has the flag Diplomat. -/
def check_unit_flags (rs : Ruleset) (st : check_state) : check_state :=
  rs.unit_types.foldl
    (fun s putype =>
      if putype.has_flag UTYF_SPY = true ∧ putype.has_flag UTYF_DIPLOMAT = false then
        ruleset_error_not_ok s spy_without_diplomat
      else s)
    st

/-- The check of the effects: `iterate_effect_cache` gives false when the
callback `effect_list_sanity_cb` gives false for an effect. -/
def check_effects (rs : Ruleset) (st : check_state) : check_state :=
  if rs.effects.all (fun reqs => sanity_check_req_vec rs.env reqs true (-1)) = false then
    ruleset_error_not_ok st effects_reqs
  else st

/-- One `if (!sanity_check_req_vec(...)) { ruleset_error(...); ok = FALSE; }`. -/
def check_req_vec (rs : Ruleset) (conjunctive : Bool) (p : ruleset_problem)
    (st : check_state) (reqs : List struct_requirement) : check_state :=
  if sanity_check_req_vec rs.env reqs conjunctive (-1) = false then ruleset_error_not_ok st p
  else st

/-- The loop over the buildings: requirements, then obsolescence
requirements, which are disjunctive. -/
def check_buildings (rs : Ruleset) (st : check_state) : check_state :=
  rs.buildings.foldl
    (fun s pimprove =>
      check_req_vec rs false buildings_obsolescence_req
        (check_req_vec rs true buildings_reqs s pimprove.1) pimprove.2)
    st

/-- The loop over the extras: requirements, then removal requirements. -/
def check_extras (rs : Ruleset) (st : check_state) : check_state :=
  rs.extras.foldl
    (fun s pextra =>
      check_req_vec rs true extras_removal_reqs
        (check_req_vec rs true extras_reqs s pextra.reqs) pextra.rmreqs)
    st

/-- The loop over the roads and their integrators: the error is reported
and `ok` is left as it is. -/
def check_roads (rs : Ruleset) (st : check_state) : check_state :=
  (List.range rs.roads.length).foldl
    (fun s proad =>
      match rs.roads.get? proad with
      | none => s
      | some road =>
        road.integrators.foldl
          (fun s1 iroad =>
            match rs.roads.get? iroad with
            | none => s1
            | some integrator =>
              if proad ≠ iroad ∧ integrator.integrates proad = false then
                ruleset_error s1 road_integrates_non_integrating
              else s1)
          s)
    st

/-- The loop over the action enablers of all actions. -/
def check_action_enablers (rs : Ruleset) (st : check_state) : check_state :=
  rs.action_enablers.foldl
    (fun s enabler =>
      if sanity_check_req_vec rs.env enabler.1 true (-1) = false
          ∨ sanity_check_req_vec rs.env enabler.2 true (-1) = false then
        ruleset_error_not_ok s action_enablers_reqs
      else s)
    st

/-- The loop `styles_iterate(pstyle)`. -/
def check_styles (rs : Ruleset) (st : check_state) : check_state :=
  rs.basic_city_style.foldl
    (fun s basic => if basic < 0 then ruleset_error_not_ok s no_basic_city_style else s) st

/-- The loop over the terrains with an animal. -/
def check_animals (rs : Ruleset) (st : check_state) : check_state :=
  rs.terrains.foldl
    (fun s pterr =>
      if pterr.animal ≠ none ∧ pterr.animal_native = false then
        ruleset_error_not_ok s animal_not_native
      else s)
    st

/-- The check that every unit class can exist somewhere. -/
def check_unit_classes (rs : Ruleset) (st : check_state) : check_state :=
  (List.range rs.build_anywhere.length).foldl
    (fun s pclass =>
      if rs.build_anywhere.get? pclass = some false then
        if rs.terrains.any (fun pterr => pterr.native_to pclass)
            || rs.extras.any (fun pextra => pextra.native_to pclass && pextra.native_tile) then
          s
        else ruleset_error_not_ok s unit_class_cannot_exist
      else s)
    st

/-- The test `sea_capable` for the unit type `u`: some ocean terrain is
native to its class. -/
def sea_capable (rs : Ruleset) (u : rs_unit_type) : Bool :=
  rs.terrains.any (fun pterr => pterr.is_ocean && pterr.native_to u.uclass)

/-- The function `rs_common_units`: its result and the errors reported,
added to those reported before. -/
def rs_common_units (rs : Ruleset) (errors : List ruleset_problem) :
    Bool × List ruleset_problem :=
  if (rs.role_units UTYF_SETTLERS).length = 0 then (false, errors ++ [no_flag_settler_units])
  else
    let errors : List ruleset_problem :=
      if (rs.role_units L_EXPLORER).length = 0 then errors ++ [no_role_explorer_units]
      else errors
    let errors : List ruleset_problem :=
      if (rs.role_units L_FERRYBOAT).length = 0 then errors ++ [no_role_ferryboat_units]
      else errors
    let errors : List ruleset_problem :=
      if (rs.role_units L_FIRSTBUILD).length = 0 then errors ++ [no_role_firstbuild_units]
      else errors
    match rs.role_units L_FERRYBOAT with
    | [] => (true, errors)
    | u :: _ =>
      if sea_capable rs u = false then (false, errors ++ [ferryboat_not_at_sea])
      else (true, errors)

/-- The last loop of `rs_barbarian_units`: the first error of a unit type
with the role barbarian boat, if there is one. -/
def barbarian_boat_problem (rs : Ruleset) : Option ruleset_problem :=
  rs.unit_types.findSome? (fun ptype =>
    if ptype.has_role L_BARBARIAN_BOAT then
      if ptype.transport_capacity ≤ 1 then some barbarian_boat_no_capacity
      else if rs.unit_types.any (fun pbarb =>
          (pbarb.has_role L_BARBARIAN_SEA || pbarb.has_role L_BARBARIAN_SEA_TECH
            || pbarb.has_role L_BARBARIAN_LEADER)
          && !ptype.can_transport pbarb.uclass) then
        some barbarian_boat_cannot_transport
      else none
    else none)

/-- The function `rs_barbarian_units`: its result and the errors reported,
added to those reported before. -/
def rs_barbarian_units (rs : Ruleset) (errors : List ruleset_problem) :
    Bool × List ruleset_problem :=
  if (rs.role_units L_BARBARIAN).length = 0 ∧ rs.barbs_disabled = false then
    (false, errors ++ [no_role_barbarian_units])
  else if (rs.role_units L_BARBARIAN_LEADER).length = 0 ∧ rs.barbs_disabled = false then
    (false, errors ++ [no_role_barbarian_leader_units])
  else if (rs.role_units L_BARBARIAN_BUILD).length = 0 ∧ rs.barbs_disabled = false then
    (false, errors ++ [no_role_barbarian_build_units])
  else if (rs.role_units L_BARBARIAN_BOAT).length = 0 ∧ rs.barbs_disabled = false then
    (false, errors ++ [no_role_barbarian_ship_units])
  else if (match rs.role_units L_BARBARIAN_BOAT with
      | [] => false
      | u :: _ => !sea_capable rs u) then
    (false, errors ++ [barbarian_boat_not_at_sea])
  else if (rs.role_units L_BARBARIAN_SEA).length = 0 ∧ rs.barbs_disabled = false then
    (false, errors ++ [no_role_sea_raider_units])
  else
    match barbarian_boat_problem rs with
    | some p => (false, errors ++ [p])
    | none => (true, errors)

/-- The checks of `sanity_check_ruleset_data` from the disasters to the unit
classes, in the order of the source. -/
def check_req_categories (rs : Ruleset) (st : check_state) : check_state :=
  let st := rs.disasters.foldl (check_req_vec rs true disasters_reqs) st
  let st := check_buildings rs st
  let st := rs.governments.foldl (check_req_vec rs true governments_reqs) st
  let st := rs.specialists.foldl (check_req_vec rs true specialists_reqs) st
  let st := check_extras rs st
  let st := check_roads rs st
  let st := rs.city_styles.foldl (check_req_vec rs true city_styles_reqs) st
  let st := check_action_enablers rs st
  let st := check_styles rs st
  let st := rs.music_styles.foldl (check_req_vec rs true music_styles_reqs) st
  let st := check_animals rs st
  check_unit_classes rs st

/-- The end of `sanity_check_ruleset_data`: `rs_common_units` and
`rs_barbarian_units`, each called only while `ok` is true. -/
def check_unit_roles (rs : Ruleset) (st : check_state) : check_state :=
  let st : check_state :=
    if st.ok then
      { ok := (rs_common_units rs st.errors).1, errors := (rs_common_units rs st.errors).2 }
    else st
  if st.ok then
    { ok := (rs_barbarian_units rs st.errors).1, errors := (rs_barbarian_units rs st.errors).2 }
  else st

/-- The function `sanity_check_ruleset_data`: the value it returns is the
field `ok` of the result, `errors` lists the errors reported by
`ruleset_error`; `none` when the function does not return. -/
def sanity_check_ruleset_data (rs : Ruleset) : Option check_state :=
  let st : check_state := { ok := true, errors := [] }
  let st : check_state :=
    if rs.tech_cost_style = 0 ∧ rs.free_tech_cheapest = true then
      ruleset_error_not_ok st cost_based_free_tech
    else st
  match check_nations rs (check_advances rs st) with
  | none => none
  | some st =>
    match check_upgrade_loops rs st with
    | none => none
    | some st =>
      some (check_unit_roles rs
        (check_req_categories rs (check_effects rs (check_unit_flags rs st))))

/-- One step `upgraded = upgraded->obsoleted_by` of the upgrade chain walked
by `upgrade_chain`; `none` is `NULL`. -/
def utype_upgrade (rs : Ruleset) (upgraded : Option Nat) : Option Nat :=
  upgraded.bind (fun u => (rs.unit_types.get? u).bind (fun t => t.obsoleted_by))

/-- Every `obsoleted_by` pointer of the unit type table points into the
table. -/
def obsoleted_by_in_table (rs : Ruleset) : Prop :=
  ∀ (u : Nat) (t : rs_unit_type) (v : Nat),
    rs.unit_types.get? u = some t → t.obsoleted_by = some v → v < rs.unit_types.length

/-! ### Rulesets for the examples -/

/-- A land unit type of unit class 0 without flags and roles. -/
def land_unit : rs_unit_type :=
  { obsoleted_by := none, has_flag := fun _ => false, has_role := fun _ => false,
    transport_capacity := 0, uclass := 0, can_transport := fun _ => false }

/-- A boat of unit class 1. -/
def ferry_unit : rs_unit_type :=
  { land_unit with uclass := 1, transport_capacity := 4, can_transport := fun _ => true }

/-- A ruleset without errors: techs 1 and 2 (tech 2 requires tech 1), one
nation, two unit types, a land and an ocean terrain, two roads that do not
integrate, units for the four roles of `rs_common_units`, barbarians
disabled, and no requirement vectors. -/
def plain_ruleset : Ruleset where
  env := sample_ruleset
  tech_cost_style := 1
  free_tech_cheapest := false
  num_tech_types := 3
  advance_requires := fun t i =>
    match t, i with
    | 2, AR_ONE => some 1
    | _, _ => some 0
  advance_reqs := fun t =>
    match t with
    | 2 => [2, 1, 0]
    | 1 => [1, 0]
    | t => [t]
  valid_advance := fun t => decide (t < 3)
  global_init_techs := [1]
  nations := [[2]]
  unit_types := [land_unit, ferry_unit]
  effects := []
  disasters := []
  buildings := []
  governments := []
  specialists := []
  extras := []
  roads := [{ integrators := [], integrates := fun _ => false },
    { integrators := [], integrates := fun _ => false }]
  city_styles := []
  action_enablers := []
  basic_city_style := [0]
  music_styles := []
  terrains :=
    [{ animal := none, animal_native := true, is_ocean := false,
       native_to := fun c => decide (c = 0) },
     { animal := none, animal_native := true, is_ocean := true,
       native_to := fun c => decide (c = 1) }]
  build_anywhere := [false, false]
  role_units := fun r =>
    match r with
    | UTYF_SETTLERS => [land_unit]
    | L_EXPLORER => [land_unit]
    | L_FERRYBOAT => [ferry_unit]
    | L_FIRSTBUILD => [land_unit]
    | _ => []
  barbs_disabled := true

/-- The ruleset `plain_ruleset` in which road 0 has road 1 among its
integrators while road 1 does not integrate road 0. -/
def road_ruleset : Ruleset :=
  { plain_ruleset with
    roads := [{ integrators := [1], integrates := fun r => decide (r = 1) },
      { integrators := [], integrates := fun _ => false }] }

/-- The ruleset `plain_ruleset` without a unit of the role explorer. -/
def no_explorer_ruleset : Ruleset :=
  { plain_ruleset with
    role_units := fun r =>
      match r with
      | UTYF_SETTLERS => [land_unit]
      | L_FERRYBOAT => [ferry_unit]
      | L_FIRSTBUILD => [land_unit]
      | _ => [] }

/-- The ruleset `no_explorer_ruleset` with a third unit type that has the
flag Spy and not the flag Diplomat. -/
def spy_no_explorer_ruleset : Ruleset :=
  { no_explorer_ruleset with
    unit_types := [land_unit, ferry_unit,
      { land_unit with has_flag := fun f => decide (f = UTYF_SPY) }] }

/-! ## `daieffects.c`: the value of an effect for the AI -/

/-- The macro `MIN` of `shared.h`. -/
def MIN (x y : Int) : Int := if x < y then x else y

/-- The macro `MAX` of `shared.h`. -/
def MAX (x y : Int) : Int := if x > y then x else y

/-- A division of `int` values: `none` for a division by zero, which is
undefined in C, else the quotient truncated toward zero. -/
def c_div (x y : Int) : Option Int := if y = 0 then none else some (Int.tdiv x y)

/-- The type `struct effect`: type, value and requirement list. -/
structure struct_effect where
  type : effect_type
  value : Int
  reqs : List struct_requirement

/-- A unit class as `daieffects.c` reads it: `index` is `uclass_index`,
`has_flag` is `uclass_has_flag`, `byclass` is
`ai->stats.units.byclass[uclass_index(pclass)]`, `sea_move` and `land_move`
say that `pclass->adv.sea_move` and `pclass->adv.land_move` are not
`MOVE_NONE`. -/
structure dai_unit_class where
  index : Nat
  has_flag : Nat → Bool
  byclass : Int
  sea_move : Bool
  land_move : Bool

/-- A player as the loops `players_iterate(aplayer)` read it: `cities` is
`city_list_size(aplayer->cities)`, `same_team` is
`players_on_same_team(aplayer, pplayer)`. -/
structure dai_player where
  bulbs_last_turn : Int
  cities : Int
  same_team : Bool
  ai_controlled : Bool

/-- What `dai_effect_value` and `dai_content_effect_value` read from their
arguments `pplayer`, `ai` and `pcity`, from `game` and from headers that are
not in the snapshot.

* Constants: `FEELING_EFFECT`, `FEELING_FINAL`, `MORT`,
  `TRAIT_DEFAULT_VALUE`; `pow` is the function of `math.h`.
* Game: `happy_cost`, `freecost`, `illness_on`, `sciencebox`,
  `spacerace_enabled` (`victory_enabled(VC_SPACERACE)`), the players and
  the unit classes in the order of their iterators.
* Player: `player_cities` (`city_list_size(pplayer->cities)`),
  `player_bonus` (`get_player_bonus`), `handicap_defensive`
  (`has_handicap(pplayer, H_DEFENSIVE)`), `wants_science`
  (`adv_wants_science`), `trait_trader` (`ai_trait_get_value(TRAIT_TRADER,
  pplayer)`), `can_change_to_goal_government`, `unknown_techs_for_goal`
  (`num_unknown_techs_for_goal(pplayer, ai->goal.govt.req)`).
* Advisor data `ai`: `food_priority`, `airliftable`, `missiles`,
  `upgradeable`, `goal_govt_val`, `production_leader_is_player`,
  `spacerace_leader` (the pointer is not `NULL`), `threats_nuclear` (the
  value is not zero), `threats_invasions`, `threats_igwall`,
  `threats_continent` and `threats_ocean` (the entries for the continent of
  the city tile), `explore_land_done`, `explore_sea_done`.
* City: `specialists` (for each specialist type its luxury output in the
  city and `pcity->specialists[i]`), `feel_unhappy i`
  (`pcity->feel[CITIZEN_UNHAPPY][i]`), `city_bonus` (`get_city_bonus`),
  `units_supported`, `food_surplus` (`pcity->surplus[O_FOOD]`), `illness`,
  `city_size`, `granary_size` (`city_granary_size`), `food_stock`,
  `can_grow` (`city_can_grow_to(pcity, city_size_get(pcity) + 1)`),
  `tile_units` (`unit_list_size(pcity->tile->units)`), `city_on_ocean`,
  `adjacent_tiles` (for each tile of `adjc_iterate`: is it ocean, and the
  entry of `ai->threats.ocean` for it), `ocean_near`
  (`is_terrain_class_near_tile(pcity->tile, TC_OCEAN)`),
  `foreign_cities_near` (the number of tiles of `iterate_outward` with a
  city of another player), `num_trade_routes`, `max_trade_routes`,
  `trade_routes` (`trade_between_cities` for each trade route). -/
structure DaiContext (F : DoubleOps) where
  FEELING_EFFECT : Nat
  FEELING_FINAL : Nat
  MORT : Int
  TRAIT_DEFAULT_VALUE : Int
  pow : F.D → F.D → F.D
  happy_cost : Int
  freecost : Int
  illness_on : Bool
  sciencebox : Int
  spacerace_enabled : Bool
  players : List dai_player
  unit_classes : List dai_unit_class
  player_cities : Int
  player_bonus : effect_type → Int
  handicap_defensive : Bool
  wants_science : Bool
  trait_trader : Int
  can_change_to_goal_government : Bool
  unknown_techs_for_goal : Int
  food_priority : Int
  airliftable : Int
  missiles : Int
  upgradeable : Int
  goal_govt_val : Int
  production_leader_is_player : Bool
  spacerace_leader : Bool
  threats_nuclear : Bool
  threats_invasions : Int
  threats_igwall : Bool
  threats_continent : Bool
  threats_ocean : Bool
  explore_land_done : Bool
  explore_sea_done : Bool
  specialists : List (Int × Int)
  feel_unhappy : Nat → Int
  city_bonus : effect_type → Int
  units_supported : Int
  food_surplus : Int
  illness : Int
  city_size : Int
  granary_size : Int → Int
  food_stock : Int
  can_grow : Bool
  tile_units : Int
  city_on_ocean : Bool
  adjacent_tiles : List (Bool × Bool)
  ocean_near : Bool
  foreign_cities_near : Int
  num_trade_routes : Int
  max_trade_routes : Int
  trade_routes : List Int

/-- The function `get_entertainers`. -/
def get_entertainers (ctx : DaiContext F) : Int :=
  ctx.specialists.foldl
    (fun providers s => if s.1 ≥ ctx.happy_cost then providers + s.2 else providers) 0

/-- The function `dai_content_effect_value`; `none` for a division by
zero. -/
def dai_content_effect_value (ctx : DaiContext F) (amount num_cities : Int)
    (happiness_step : Nat) : Option Int :=
  let v : Int :=
    if ctx.city_bonus EFT_NO_UNHAPPY ≤ 0 then
      let max_converted : Int :=
        (List.range' happiness_step (ctx.FEELING_FINAL - happiness_step)).foldl
          (fun m i => MIN m (ctx.feel_unhappy i)) (ctx.feel_unhappy ctx.FEELING_FINAL)
      MIN amount (max_converted + get_entertainers ctx) * 35
    else 0
  if num_cities > 1 then
    let factor : Option Int :=
      if ctx.player_cities > ctx.player_bonus EFT_EMPIRE_SIZE_BASE then
        (if ctx.player_bonus EFT_EMPIRE_SIZE_BASE > 0 then
          (c_div ctx.player_cities (MAX (ctx.player_bonus EFT_EMPIRE_SIZE_STEP) 1)).map
            (fun q => 2 + q)
        else some 2).map (fun factor => factor + 2)
      else some 2
    factor.map (fun factor => v + factor * num_cities * amount)
  else some v

/-- The function `is_unit_class_affected_by`. -/
def is_unit_class_affected_by (pclass : dai_unit_class) (peffect : struct_effect) : Bool :=
  !peffect.reqs.any (fun preq =>
    (decide (preq.source.kind = VUT_UCLASS)
      && ((decide (preq.source.value ≠ pclass.index) && preq.present)
        || (decide (preq.source.value = pclass.index) && !preq.present)))
    || (decide (preq.source.kind = VUT_UCFLAG)
      && ((pclass.has_flag preq.source.value && !preq.present)
        || (!pclass.has_flag preq.source.value && preq.present))))

/-- The function `num_affected_units`. -/
def num_affected_units (ctx : DaiContext F) (peffect : struct_effect) : Int :=
  ctx.unit_classes.foldl
    (fun unit_count pclass =>
      if is_unit_class_affected_by pclass peffect then unit_count + pclass.byclass
      else unit_count)
    0

/-- The case `EFT_TECH_PARASITE` of `dai_effect_value`. -/
def tech_parasite_value (ctx : DaiContext F) (turns amount nplayers v : Int) : Option Int :=
  if nplayers ≤ amount then some v
  else
    let bulbs : Int :=
      ctx.players.foldl
        (fun bulbs aplayer =>
          if aplayer.same_team then bulbs
          else bulbs + (aplayer.bulbs_last_turn + aplayer.cities + 1))
        0
    let value : Int :=
      F.toInt (F.mul
        (F.mul (F.ofInt bulbs)
          (F.sub (F.ofInt 1)
            (ctx.pow (F.sub (F.ofInt 1) (F.div (F.ofInt 1) (F.ofInt ctx.MORT)))
              (F.ofInt turns))))
        (F.ofInt ctx.MORT))
    match c_div (value * (100 - ctx.freecost) * (nplayers - amount))
        (nplayers * amount * 100) with
    | none => none
    | some value => some (v + Int.tdiv value 3)

/-- The case `EFT_SIZE_ADJ` of `dai_effect_value`, which the case
`EFT_SIZE_UNLIMIT` falls through to; `amount` is the local variable. -/
def size_adj_value (ctx : DaiContext F) (amount c v : Int) : Option Int :=
  if ctx.city_bonus EFT_SIZE_UNLIMIT ≤ 0 then
    let aqueduct_size : Int := ctx.city_bonus EFT_SIZE_ADJ
    let extra_food : Int := ctx.food_surplus
    let extra_food : Int :=
      if ctx.granary_size ctx.city_size = ctx.food_stock then
        extra_food + (ctx.food_stock - ctx.granary_size (ctx.city_size - 1))
      else extra_food
    let v : Int :=
      if amount > 0 ∧ ctx.can_grow = false then
        let v : Int := v + extra_food * ctx.food_priority * amount
        if ctx.city_size = aqueduct_size then v + 30 * extra_food else v
      else v
    match c_div (c * amount * 4) aqueduct_size with
    | none => none
    | some q => some (v + q)
  else some v

/-- The case `EFT_DEFEND_BONUS` of `dai_effect_value`. -/
def defend_bonus_value (ctx : DaiContext F) (capital : Bool) (peffect : struct_effect)
    (amount c v : Int) : Int :=
  let v : Int := if ctx.handicap_defensive then v + Int.tdiv amount 10 else v
  let affects_sea_capable_units : Bool :=
    ctx.unit_classes.any (fun pclass =>
      is_unit_class_affected_by pclass peffect && pclass.sea_move)
  let affects_land_capable_units : Bool :=
    ctx.unit_classes.any (fun pclass =>
      is_unit_class_affected_by pclass peffect && pclass.land_move)
  let v : Int :=
    if affects_sea_capable_units then
      if ctx.city_on_ocean then
        v + (if ctx.threats_ocean then Int.tdiv amount 5 else Int.tdiv amount 20)
      else if ctx.adjacent_tiles.any (fun tile2 => tile2.1 && tile2.2) then
        v + Int.tdiv amount 5
      else v
    else v
  let v : Int := v + (Int.tdiv amount 20 + ctx.threats_invasions - 1) * c
  let capital_int : Int := if capital then 1 else 0
  if capital = true ∨ affects_land_capable_units = true then
    if ctx.threats_continent = true ∨ capital = true
        ∨ (ctx.threats_invasions ≠ 0 ∧ ctx.ocean_near = true) then
      if ctx.threats_continent then v + amount
      else v + Int.tdiv amount (if ctx.threats_igwall = false then 15 - capital_int * 5 else 15)
    else v
  else v

/-- The case `EFT_MAX_TRADE_ROUTES` of `dai_effect_value`; the first `+=`
is computed in `double` and converted back to `int`. -/
def max_trade_routes_value (ctx : DaiContext F) (amount c v : Int) : Int :=
  let trait : Int := ctx.trait_trader
  let v : Int :=
    F.toInt (F.add (F.ofInt v)
      (F.div
        (F.mul
          (F.mul (F.ofInt amount)
            (F.add
              (ctx.pow (F.ofInt 2)
                (F.div (F.ofInt (ctx.city_bonus EFT_TRADE_REVENUE_BONUS)) (F.ofInt 1000)))
              (F.ofInt c)))
          (F.ofInt trait))
        (F.ofInt ctx.TRAIT_DEFAULT_VALUE)))
  if ctx.num_trade_routes ≥ ctx.max_trade_routes ∧ amount > 0 then v + trait else v

/-- The case `EFT_TRADEROUTE_PCT` of `dai_effect_value`. -/
def traderoute_pct_value (ctx : DaiContext F) (amount v : Int) : Int :=
  let trait : Int := ctx.trait_trader
  let trade : Int := ctx.trade_routes.foldl (fun trade t => trade + t) 0
  let v : Int :=
    v + Int.tdiv (Int.tdiv (trade * amount * trait) 100) ctx.TRAIT_DEFAULT_VALUE
  if ctx.num_trade_routes < ctx.max_trade_routes ∧ amount > 0 then
    v + Int.tdiv (trait * 5) ctx.TRAIT_DEFAULT_VALUE
  else v

/-- The function `dai_effect_value`, with the arguments `capital`, `turns`,
`peffect`, `c`, `nplayers` and `v` of the source; the argument `gov` is not
used, and `pplayer`, `ai` and `pcity` enter through `ctx`.  The result is
`none` for a division by zero. -/
def dai_effect_value (ctx : DaiContext F) (capital : Bool) (turns : Int)
    (peffect : struct_effect) (c nplayers v : Int) : Option Int :=
  let amount : Int := peffect.value
  if amount = 0 then some 0
  else
    match peffect.type with
    | EFT_CAPITAL_CITY | EFT_GOV_CENTER | EFT_UPKEEP_FREE | EFT_TECH_UPKEEP_FREE
    | EFT_POLLU_POP_PCT | EFT_POLLU_PROD_PCT | EFT_OUTPUT_BONUS | EFT_OUTPUT_BONUS_2
    | EFT_OUTPUT_ADD_TILE | EFT_OUTPUT_INC_TILE | EFT_OUTPUT_PER_TILE | EFT_OUTPUT_WASTE
    | EFT_OUTPUT_WASTE_BY_DISTANCE | EFT_OUTPUT_WASTE_PCT | EFT_SPECIALIST_OUTPUT
    | EFT_ENEMY_CITIZEN_UNHAPPY_PCT | EFT_IRRIGATION_PCT | EFT_MINING_PCT
    | EFT_OUTPUT_TILE_PUNISH_PCT => some v
    | EFT_CITY_VISION_RADIUS_SQ | EFT_UNIT_VISION_RADIUS_SQ => some (v + c * amount)
    | EFT_TURN_YEARS | EFT_SLOW_DOWN_TIMELINE => some v
    | EFT_INCITE_COST_PCT => some (v + Int.tdiv (c * amount) 100)
    | EFT_MAKE_HAPPY =>
      let v : Int :=
        v + (get_entertainers ctx + ctx.feel_unhappy ctx.FEELING_FINAL) * 5 * amount
      let v : Int :=
        if ctx.player_cities > ctx.player_bonus EFT_EMPIRE_SIZE_BASE then v + c * amount
        else v
      some (v + c * amount)
    | EFT_UNIT_RECOVER => some v
    | EFT_NO_UNHAPPY =>
      some (v + (get_entertainers ctx + ctx.feel_unhappy ctx.FEELING_FINAL) * 30)
    | EFT_FORCE_CONTENT =>
      (dai_content_effect_value ctx amount c ctx.FEELING_FINAL).map (fun x => v + x)
    | EFT_MAKE_CONTENT =>
      (dai_content_effect_value ctx amount c ctx.FEELING_EFFECT).map (fun x => v + x)
    | EFT_MAKE_CONTENT_MIL_PER =>
      if ctx.city_bonus EFT_NO_UNHAPPY ≤ 0 then
        let v : Int :=
          v + MIN (ctx.feel_unhappy ctx.FEELING_FINAL + get_entertainers ctx) amount * 25
        some (v + MIN amount 5 * c)
      else some v
    | EFT_MAKE_CONTENT_MIL =>
      if ctx.city_bonus EFT_NO_UNHAPPY ≤ 0 then
        let v : Int :=
          v + ctx.feel_unhappy ctx.FEELING_FINAL * amount * MAX ctx.units_supported 0 * 2
        some (v + c * MAX (amount + 2) 1)
      else some v
    | EFT_TECH_PARASITE => tech_parasite_value ctx turns amount nplayers v
    | EFT_GROWTH_FOOD => some (v + (c * 4 + Int.tdiv amount 7 * ctx.food_surplus))
    | EFT_HEALTH_PCT =>
      if ctx.illness_on then some (v + (c * 5 + Int.tdiv amount 5 * ctx.illness)) else some v
    | EFT_AIRLIFT => some (v + (c + MIN ctx.airliftable 13))
    | EFT_ANY_GOVERNMENT =>
      if ctx.can_change_to_goal_government = false then
        some (v + MIN (MIN ctx.goal_govt_val 65) (ctx.unknown_techs_for_goal * 10))
      else some v
    | EFT_ENABLE_NUKE => some (v + (20 + ctx.missiles * 5))
    | EFT_ENABLE_SPACE =>
      if ctx.spacerace_enabled then
        let v : Int := v + 5
        if ctx.production_leader_is_player then some (v + 100) else some v
      else some v
    | EFT_VICTORY => some (v + 250)
    | EFT_GIVE_IMM_TECH =>
      if ctx.wants_science then some (v + amount * (ctx.sciencebox + 1)) else some v
    | EFT_HAVE_EMBASSIES => some (v + 5 * nplayers)
    | EFT_REVEAL_CITIES | EFT_NO_ANARCHY => some v
    | EFT_NUKE_PROOF =>
      if ctx.threats_nuclear then
        some (v + Int.tdiv
          (ctx.city_size * ctx.tile_units * ((if capital then 1 else 0) + 1) * amount) 100)
      else some v
    | EFT_REVEAL_MAP =>
      if ctx.explore_land_done = false ∨ ctx.explore_sea_done = false then some (v + 10)
      else some v
    | EFT_SIZE_UNLIMIT =>
      if amount > 0 then
        size_adj_value ctx (if ctx.city_bonus EFT_SIZE_UNLIMIT ≤ 0 then 20 else amount) c v
      else some (v - 30 * c * ctx.food_priority)
    | EFT_SIZE_ADJ => size_adj_value ctx amount c v
    | EFT_SS_STRUCTURAL | EFT_SS_COMPONENT | EFT_SS_MODULE =>
      if ctx.spacerace_enabled = true
          ∧ (ctx.spacerace_leader = true ∨ ctx.production_leader_is_player = true) then
        some (v + 95)
      else some v
    | EFT_SPY_RESISTANT => some v
    | EFT_MOVE_BONUS => some (v + (8 * v * amount + num_affected_units ctx peffect))
    | EFT_UNIT_NO_LOSE_POP => some (v + ctx.tile_units * 2)
    | EFT_HP_REGEN => some (v + (5 * c + num_affected_units ctx peffect))
    | EFT_VETERAN_COMBAT => some (v + (2 * c + num_affected_units ctx peffect))
    | EFT_VETERAN_BUILD => some (v + amount * (3 * c + num_affected_units ctx peffect))
    | EFT_UPGRADE_UNIT =>
      if amount = 1 then some (v + ctx.upgradeable * 2)
      else if amount = 2 then some (v + ctx.upgradeable * 3)
      else some (v + ctx.upgradeable * 4)
    | EFT_UNIT_BRIBE_COST_PCT =>
      some (v + Int.tdiv ((2 * c + num_affected_units ctx peffect) * amount) 400)
    | EFT_DEFEND_BONUS => some (defend_bonus_value ctx capital peffect amount c v)
    | EFT_GAIN_AI_LOVE =>
      some (ctx.players.foldl
        (fun v aplayer =>
          if aplayer.ai_controlled then
            if ctx.handicap_defensive then v + Int.tdiv amount 10 else v + Int.tdiv amount 20
          else v)
        v)
    | EFT_UPGRADE_PRICE_PCT => some (v - Int.tdiv (ctx.upgradeable * amount) 2)
    | EFT_CITY_UNHAPPY_SIZE | EFT_UNHAPPY_FACTOR | EFT_UPKEEP_FACTOR
    | EFT_UNIT_UPKEEP_FREE_PER_CITY | EFT_CIVIL_WAR_CHANCE | EFT_EMPIRE_SIZE_BASE
    | EFT_EMPIRE_SIZE_STEP | EFT_MAX_RATES | EFT_MARTIAL_LAW_EACH | EFT_MARTIAL_LAW_MAX
    | EFT_RAPTURE_GROW | EFT_REVOLUTION_UNHAPPINESS | EFT_HAS_SENATE
    | EFT_INSPIRE_PARTISANS | EFT_HAPPINESS_TO_GOLD | EFT_FANATICS | EFT_NO_DIPLOMACY
    | EFT_NOT_TECH_SOURCE | EFT_OUTPUT_PENALTY_TILE | EFT_OUTPUT_INC_TILE_CELEBRATE
    | EFT_TRADE_REVENUE_BONUS | EFT_TILE_WORKABLE | EFT_IRRIG_POSSIBLE
    | EFT_TRANSFORM_POSSIBLE | EFT_MINING_POSSIBLE | EFT_IRRIG_TF_POSSIBLE
    | EFT_MINING_TF_POSSIBLE | EFT_PERFORMANCE | EFT_HISTORY => some v
    | EFT_VISIBLE_WALLS | EFT_CITY_IMAGE | EFT_SHIELD2GOLD_FACTOR => some v
    | EFT_TECH_COST_FACTOR => some (v - amount * 50)
    | EFT_CITY_RADIUS_SQ => some (v + amount * 10)
    | EFT_CITY_BUILD_SLOTS => some (v + amount * 10)
    | EFT_MIGRATION_PCT => some (v + ctx.foreign_cities_near * amount)
    | EFT_MAX_TRADE_ROUTES => some (max_trade_routes_value ctx amount c v)
    | EFT_TRADEROUTE_PCT => some (traderoute_pct_value ctx amount v)
    | EFT_COUNT => some v

/-- The effect types whose case in `dai_effect_value` is a bare `break`
under one of the comments "These effects have already been evaluated in
base_want()", "Currently not supported for building AI", "Useless for AI" and
"This has no effect for AI". -/
def unscored_effect_types : List effect_type :=
  [EFT_CAPITAL_CITY, EFT_GOV_CENTER, EFT_UPKEEP_FREE, EFT_TECH_UPKEEP_FREE,
    EFT_POLLU_POP_PCT, EFT_POLLU_PROD_PCT, EFT_OUTPUT_BONUS, EFT_OUTPUT_BONUS_2,
    EFT_OUTPUT_ADD_TILE, EFT_OUTPUT_INC_TILE, EFT_OUTPUT_PER_TILE, EFT_OUTPUT_WASTE,
    EFT_OUTPUT_WASTE_BY_DISTANCE, EFT_OUTPUT_WASTE_PCT, EFT_SPECIALIST_OUTPUT,
    EFT_ENEMY_CITIZEN_UNHAPPY_PCT, EFT_IRRIGATION_PCT, EFT_MINING_PCT,
    EFT_OUTPUT_TILE_PUNISH_PCT,
    EFT_CITY_UNHAPPY_SIZE, EFT_UNHAPPY_FACTOR, EFT_UPKEEP_FACTOR,
    EFT_UNIT_UPKEEP_FREE_PER_CITY, EFT_CIVIL_WAR_CHANCE, EFT_EMPIRE_SIZE_BASE,
    EFT_EMPIRE_SIZE_STEP, EFT_MAX_RATES, EFT_MARTIAL_LAW_EACH, EFT_MARTIAL_LAW_MAX,
    EFT_RAPTURE_GROW, EFT_REVOLUTION_UNHAPPINESS, EFT_HAS_SENATE, EFT_INSPIRE_PARTISANS,
    EFT_HAPPINESS_TO_GOLD, EFT_FANATICS, EFT_NO_DIPLOMACY, EFT_NOT_TECH_SOURCE,
    EFT_OUTPUT_PENALTY_TILE, EFT_OUTPUT_INC_TILE_CELEBRATE, EFT_TRADE_REVENUE_BONUS,
    EFT_TILE_WORKABLE, EFT_IRRIG_POSSIBLE, EFT_TRANSFORM_POSSIBLE, EFT_MINING_POSSIBLE,
    EFT_IRRIG_TF_POSSIBLE, EFT_MINING_TF_POSSIBLE, EFT_PERFORMANCE, EFT_HISTORY,
    EFT_REVEAL_CITIES, EFT_NO_ANARCHY,
    EFT_VISIBLE_WALLS, EFT_CITY_IMAGE, EFT_SHIELD2GOLD_FACTOR]

/-! ### A context for the examples -/

/-- A city of size 5 with two unhappy citizens in a game of three players,
in exact arithmetic; `pow` is not used by the examples and gives 1. -/
def sample_dai_context : DaiContext exactDouble where
  FEELING_EFFECT := 2
  FEELING_FINAL := 5
  MORT := 24
  TRAIT_DEFAULT_VALUE := 100
  pow := fun _ _ => Frac.ofInt 1
  happy_cost := 2
  freecost := 0
  illness_on := false
  sciencebox := 100
  spacerace_enabled := true
  players := []
  unit_classes := []
  player_cities := 4
  player_bonus := fun _ => 0
  handicap_defensive := false
  wants_science := true
  trait_trader := 100
  can_change_to_goal_government := true
  unknown_techs_for_goal := 0
  food_priority := 1
  airliftable := 0
  missiles := 0
  upgradeable := 0
  goal_govt_val := 0
  production_leader_is_player := false
  spacerace_leader := false
  threats_nuclear := false
  threats_invasions := 0
  threats_igwall := false
  threats_continent := false
  threats_ocean := false
  explore_land_done := true
  explore_sea_done := true
  specialists := [(2, 1)]
  feel_unhappy := fun _ => 2
  city_bonus := fun _ => 0
  units_supported := 1
  food_surplus := 2
  illness := 0
  city_size := 5
  granary_size := fun s => 10 * s
  food_stock := 7
  can_grow := true
  tile_units := 1
  city_on_ocean := false
  adjacent_tiles := []
  ocean_near := false
  foreign_cities_near := 0
  num_trade_routes := 0
  max_trade_routes := 2
  trade_routes := []

/-- The context `sample_dai_context` for a city whose bonus `EFT_SIZE_ADJ` is
8; every other city bonus is 0. -/
def aqueduct_context : DaiContext exactDouble :=
  { sample_dai_context with
    city_bonus := fun e => if e = EFT_SIZE_ADJ then 8 else 0 }

/-- The ruleset `plain_ruleset` with an upgrade loop: unit type 0 is
obsoleted by unit type 1 and unit type 1 by unit type 0. -/
def upgrade_loop_ruleset : Ruleset :=
  { plain_ruleset with
    unit_types := [{ land_unit with obsoleted_by := some 1 },
      { ferry_unit with obsoleted_by := some 0 }] }

/-- The ruleset `plain_ruleset` with an upgrade chain without loop: unit type
0 is obsoleted by unit type 1. -/
def upgrade_line_ruleset : Ruleset :=
  { plain_ruleset with
    unit_types := [{ land_unit with obsoleted_by := some 1 }, ferry_unit] }

/-- The game `classic_game` with research pooled by team. -/
def pooled_game : Game exactDouble :=
  { classic_game with info := { classic_game.info with team_pooled_research := true } }

/-- The environment `sample_env` where every action has one enabler without
requirements. -/
def steal_env : ActionEnv :=
  { sample_env with
    action_enablers_for_action := fun a => [{ action := a, actor_reqs := [], target_reqs := [] }] }

/-- A spy of player `owner`, who is in team 5. -/
def team_spy (owner : Nat) : unit :=
  { sample_unit owner spy_type with owner := { sample_player owner with team := 5 } }

/-! ## `settings.c`: the validation callbacks of `allowtake`, `timeout` and
`unitwaittime` -/

/-- The part of `struct connection` read by the callbacks: the access level,
a value of `enum cmdlevel`. -/
structure connection where
  access_level : Int
deriving DecidableEq, Repr

/-- The C library function `strchr` as a test for a non-`NULL` result: the
terminator `'\0'` counts as a character of the string `s`. -/
def strchr (s : List Char) (c : Char) : Bool :=
  s.contains c || c == Char.ofNat 0

/-- The characters of the string "HhAadbOo". -/
def primary_labels : List Char := ['H', 'h', 'A', 'a', 'd', 'b', 'O', 'o']

/-- The characters of the string "1234". -/
def modifiers : List Char := ['1', '2', '3', '4']

/-- The `for` loop of `allowtake_callback` over the characters that are left,
with the value of `havecharacter_state`. -/
def allowtake_loop : List Char → Bool → Bool
  | [], _ => true
  | ch :: rest, havecharacter_state =>
    if strchr primary_labels ch then allowtake_loop rest true
    else if havecharacter_state && strchr modifiers ch then allowtake_loop rest false
    else false

/-- The function `allowtake_callback`; `value` lists the `strlen(value)`
characters before the terminator. -/
def allowtake_callback (value : List Char) (_caller : Option connection) : Bool :=
  allowtake_loop value false

/-- The two settings read by `timeout_callback` and `unitwaittime_callback`:
`game.info.timeout` and `game.server.unitwaittime`. -/
structure server_settings where
  timeout : Int
  unitwaittime : Int
deriving DecidableEq, Repr

/-- The function `timeout_callback`; the constant `ALLOW_HACK` of
`enum cmdlevel` is an argument. -/
def timeout_callback (ALLOW_HACK : Int) (game : server_settings) (value : Int)
    (caller : Option connection) : Bool :=
  if (match caller with
      | none => false
      | some c => decide (c.access_level < ALLOW_HACK)) && decide (value < 30) then false
  else if value = -1 ∧ game.unitwaittime ≠ 0 then false
  else if value ≠ -1 ∧ value < Int.tdiv (game.unitwaittime * 3) 2 then false
  else true

/-- The function `unitwaittime_callback`. -/
def unitwaittime_callback (game : server_settings) (value : Int)
    (_caller : Option connection) : Bool :=
  if game.timeout = -1 ∧ value ≠ 0 then false
  else if value > Int.tdiv (game.timeout * 2) 3 then false
  else true

/-- A change of one of the two settings, asked for by `caller`. -/
inductive setting_change where
  | set_timeout (value : Int) (caller : Option connection)
  | set_unitwaittime (value : Int) (caller : Option connection)
deriving DecidableEq, Repr

/-- The callback of the setting accepts the change. -/
def change_accepted (ALLOW_HACK : Int) (game : server_settings) : setting_change → Bool
  | setting_change.set_timeout value caller => timeout_callback ALLOW_HACK game value caller
  | setting_change.set_unitwaittime value caller => unitwaittime_callback game value caller

/-- The assignment `*pset->integer.pvalue = val` of `setting_int_set` for a
change that the callback accepted; `none` for a change that it rejected. -/
def apply_change (ALLOW_HACK : Int) (game : server_settings) (ch : setting_change) :
    Option server_settings :=
  if change_accepted ALLOW_HACK game ch then
    match ch with
    | setting_change.set_timeout value _ => some { game with timeout := value }
    | setting_change.set_unitwaittime value _ => some { game with unitwaittime := value }
  else none

/-- A sequence of changes, every one of them accepted; `none` when one of
them is rejected. -/
def apply_changes (ALLOW_HACK : Int) : server_settings → List setting_change →
    Option server_settings
  | game, [] => some game
  | game, ch :: rest =>
    match apply_change ALLOW_HACK game ch with
    | none => none
    | some game1 => apply_changes ALLOW_HACK game1 rest

/-- The limit of the help text of `unitwaittime`: at most 2/3 of `timeout`
in integer arithmetic when `timeout` is not -1, and 0 when `timeout` is
-1. -/
def unitwaittime_limited (game : server_settings) : Prop :=
  (game.timeout ≠ -1 → game.unitwaittime ≤ Int.tdiv (game.timeout * 2) 3)
    ∧ (game.timeout = -1 → game.unitwaittime = 0)

instance (game : server_settings) : Decidable (unitwaittime_limited game) := by
  unfold unitwaittime_limited
  infer_instance

/-- The test of `timeout_callback` as a property of the state: `timeout` is
-1 with `unitwaittime` 0, or at least `unitwaittime * 3 / 2`. -/
def timeout_covers_unitwaittime (game : server_settings) : Prop :=
  (game.timeout = -1 → game.unitwaittime = 0)
    ∧ (game.timeout ≠ -1 → Int.tdiv (game.unitwaittime * 3) 2 ≤ game.timeout)

instance (game : server_settings) : Decidable (timeout_covers_unitwaittime game) := by
  unfold timeout_covers_unitwaittime
  infer_instance

/-- The game `classic_game` with every entry of `global_advances` cleared,
after `researches_init`, for a `TECH_UNKNOWN` of value 0. -/
def fresh_game : Game exactDouble :=
  researches_init TECH_UNKNOWN
    { classic_game with info := { classic_game.info with global_advances := fun _ => false } }

/-! ## Scenarios in binary64 arithmetic -/

/-- The tech tree of `classic_advances` in binary64 arithmetic. -/
def binary64_advances : Advances ieeeDouble where
  num_tech_types := 4
  removed := fun _ => false
  required := fun t r =>
    match t, r with
    | 3, AR_ONE => 1
    | 3, AR_TWO => 2
    | _, _ => 0
  cost := fun _ => ieeeDouble.ofInt 10
  reqs := fun t =>
    match t with
    | 3 => [3, 1, 2]
    | t => [t]
  has_flag := fun _ _ => false
  tech_flag_id_max := 0

/-- A game in binary64 arithmetic with cost style 0, no leakage and the
given `base_tech_cost` and `sciencebox`: research 0 knows `A_NONE`, tech 1
and tech 2 (`techs_researched` is 3) and belongs to one alive player, human
or AI with `science_cost` 100, whose bonus `EFT_TECH_COST_FACTOR` is 1. -/
def sciencebox_game (base_tech_cost sciencebox : Int) (ai_controlled : Bool) :
    Game ieeeDouble where
  info :=
    { tech_cost_style := 0
      base_tech_cost := base_tech_cost
      tech_leakage := 0
      sciencebox := sciencebox
      team_pooled_research := false
      tech_steal_allow_holes := false
      global_advances := fun t => decide (t ≤ 2) }
  advances := binary64_advances
  players :=
    [{ number := 0, team := 0, is_alive := true, ai_controlled := ai_controlled,
       science_cost := 100, is_barbarian := false, tech_cost_factor := 1 }]
  has_embassy := fun _ _ => false
  research_array := fun _ => classic_research

/-- The player of `sciencebox_game`. -/
def sciencebox_player (ai_controlled : Bool) : player :=
  { number := 0, team := 0, is_alive := true, ai_controlled := ai_controlled,
    science_cost := 100, is_barbarian := false, tech_cost_factor := 1 }

/-- A NaN. -/
def nan_value : Frac := ⟨0, 0⟩
/-! # Theorems -/

/-! ## Reachability -/

theorem reachable_fuel_succ (g : Game F) (p : Option Nat) (n : Nat) (t : Nat) :
    reachable_fuel g p (n + 1) t =
      if valid_advance_by_number g t = true then
        if A_NONE ≠ advance_required g t AR_ROOT then
          if advance_required g t AR_ROOT = t then
            some (decide (some TECH_KNOWN = research_invention_state g p t))
          else
            match reachable_fuel g p n (advance_required g t AR_ROOT) with
            | none => none
            | some false => some false
            | some true =>
              match reachable_fuel g p n (advance_required g t AR_ONE) with
              | none => none
              | some false => some false
              | some true => reachable_fuel g p n (advance_required g t AR_TWO)
        else some true
      else some false := by
  rw [reachable_fuel]
  cases valid_advance_by_number g t <;> rfl

theorem reachable_fuel_isSome (g : Game F) (p : Option Nat) (rank : Nat → Nat)
    (hrank : ∀ t, valid_advance_by_number g t = true →
      advance_required g t AR_ROOT ≠ A_NONE → advance_required g t AR_ROOT ≠ t →
      rank (advance_required g t AR_ROOT) < rank t
      ∧ rank (advance_required g t AR_ONE) < rank t
      ∧ rank (advance_required g t AR_TWO) < rank t) :
    ∀ fuel t, rank t < fuel → ∃ b, reachable_fuel g p fuel t = some b := by
  intro fuel
  induction fuel with
  | zero => intro t h; omega
  | succ n ih =>
    intro t h
    rw [reachable_fuel_succ]
    by_cases hv : valid_advance_by_number g t = true
    · rw [if_pos hv]
      by_cases hroot : A_NONE ≠ advance_required g t AR_ROOT
      · rw [if_pos hroot]
        by_cases hself : advance_required g t AR_ROOT = t
        · rw [if_pos hself]
          exact ⟨_, rfl⟩
        · rw [if_neg hself]
          obtain ⟨h1, h2, h3⟩ := hrank t hv (Ne.symm hroot) hself
          obtain ⟨b1, e1⟩ := ih (advance_required g t AR_ROOT) (by omega)
          obtain ⟨b2, e2⟩ := ih (advance_required g t AR_ONE) (by omega)
          obtain ⟨b3, e3⟩ := ih (advance_required g t AR_TWO) (by omega)
          rw [e1, e2, e3]
          cases b1 <;> cases b2 <;> exact ⟨_, rfl⟩
      · rw [if_neg hroot]
        exact ⟨_, rfl⟩
    · rw [if_neg hv]
      exact ⟨_, rfl⟩

/-- In an acyclic graph the rank can be chosen below the number of techs:
the rank of a valid tech is one more than the number of valid techs of
smaller rank. -/
theorem acyclic_bounded (g : Game F) (h : Acyclic g) :
    ∃ rank : Nat → Nat, (∀ t, rank t ≤ advance_count g) ∧
      ∀ t, valid_advance_by_number g t = true →
        advance_required g t AR_ROOT ≠ A_NONE → advance_required g t AR_ROOT ≠ t →
        rank (advance_required g t AR_ROOT) < rank t
        ∧ rank (advance_required g t AR_ONE) < rank t
        ∧ rank (advance_required g t AR_TWO) < rank t := by
  obtain ⟨rank, hrank⟩ := h
  have hmem : ∀ t, valid_advance_by_number g t = true →
      t ∈ (Finset.range (advance_count g)).filter
        (fun s => valid_advance_by_number g s = true) := by
    intro t hv
    rw [Finset.mem_filter, Finset.mem_range]
    refine ⟨?_, hv⟩
    simp only [valid_advance_by_number, Bool.and_eq_true, decide_eq_true_eq] at hv
    exact hv.1
  have hlt : ∀ t u, valid_advance_by_number g t = true → rank u < rank t →
      (if valid_advance_by_number g u = true then
          1 + (((Finset.range (advance_count g)).filter
            (fun s => valid_advance_by_number g s = true)).filter
              (fun s => rank s < rank u)).card
        else 0)
      < (if valid_advance_by_number g t = true then
          1 + (((Finset.range (advance_count g)).filter
            (fun s => valid_advance_by_number g s = true)).filter
              (fun s => rank s < rank t)).card
        else 0) := by
    intro t u hvt hut
    rw [if_pos hvt]
    by_cases hvu : valid_advance_by_number g u = true
    · rw [if_pos hvu]
      apply Nat.add_lt_add_left
      apply Finset.card_lt_card
      rw [Finset.ssubset_iff_of_subset]
      · refine ⟨u, ?_, ?_⟩
        · rw [Finset.mem_filter]
          exact ⟨hmem u hvu, hut⟩
        · rw [Finset.mem_filter]
          intro hh
          exact absurd hh.2 (lt_irrefl _)
      · intro s hs
        rw [Finset.mem_filter] at hs ⊢
        exact ⟨hs.1, lt_trans hs.2 hut⟩
    · rw [if_neg hvu]
      omega
  refine ⟨fun t => if valid_advance_by_number g t = true then
      1 + (((Finset.range (advance_count g)).filter
        (fun s => valid_advance_by_number g s = true)).filter
          (fun s => rank s < rank t)).card
    else 0, ?_, ?_⟩
  · intro t
    show (if valid_advance_by_number g t = true then _ else 0) ≤ advance_count g
    by_cases hv : valid_advance_by_number g t = true
    · rw [if_pos hv]
      have h1 : (((Finset.range (advance_count g)).filter
          (fun s => valid_advance_by_number g s = true)).filter
            (fun s => rank s < rank t)).card
          < ((Finset.range (advance_count g)).filter
            (fun s => valid_advance_by_number g s = true)).card := by
        apply Finset.card_lt_card
        rw [Finset.ssubset_iff_of_subset (Finset.filter_subset _ _)]
        refine ⟨t, hmem t hv, ?_⟩
        rw [Finset.mem_filter]
        intro hh
        exact absurd hh.2 (lt_irrefl _)
      have h2 : ((Finset.range (advance_count g)).filter
          (fun s => valid_advance_by_number g s = true)).card ≤ advance_count g := by
        calc ((Finset.range (advance_count g)).filter
              (fun s => valid_advance_by_number g s = true)).card
            ≤ (Finset.range (advance_count g)).card := Finset.card_filter_le _ _
          _ = advance_count g := Finset.card_range _
      omega
    · rw [if_neg hv]
      exact Nat.zero_le _
  · intro t hv hroot hself
    obtain ⟨h1, h2, h3⟩ := hrank t hv hroot hself
    exact ⟨hlt t _ hv h1, hlt t _ hv h2, hlt t _ hv h3⟩

theorem reachable_isSome (g : Game F) (p : Option Nat) (h : Acyclic g) (t : Nat) :
    ∃ b, research_invention_reachable g p t = some b := by
  obtain ⟨rank, hb, hrank⟩ := acyclic_bounded g h
  exact reachable_fuel_isSome g p rank hrank _ t (Nat.lt_succ_of_le (hb t))

theorem scenario_acyclic : Acyclic scenario_game := by
  refine ⟨scenario_rank, ?_⟩
  intro t hv
  have ht : t < 4 := by
    simp only [valid_advance_by_number, advance_count, Bool.and_eq_true,
      decide_eq_true_eq] at hv
    exact hv.1
  interval_cases t <;> decide

/-! ## The cost formula -/

theorem count_players_isSome (test : player → Option Bool) (l : List player)
    (h : ∀ p, ∃ b, test p = some b) : ∃ n, count_players test l = some n := by
  induction l with
  | nil => exact ⟨0, rfl⟩
  | cons p ps ih =>
    obtain ⟨b, hb⟩ := h p
    obtain ⟨n, hn⟩ := ih
    exact ⟨_, by rw [count_players, hb, hn]⟩

theorem research_get_some (g : Game F) (p : player) :
    ∃ k, research_get g (some p) = some k := by
  unfold research_get
  by_cases h : g.info.team_pooled_research = true
  · exact ⟨p.team, by simp [h]⟩
  · exact ⟨p.number, by simp [h]⟩

theorem leakage1_counts_isSome (g : Game F) (presearch : Option Nat) (tech : Nat)
    (h : presearch ≠ none ∨ tech ≠ A_FUTURE) (p : player) :
    ∃ b, leakage1_counts g presearch tech p = some b := by
  obtain ⟨k, hk⟩ := research_get_some g p
  unfold leakage1_counts
  rw [hk]
  by_cases h1 : some k = presearch
  · simp [h1]
  · by_cases h2 : A_FUTURE = tech
    · cases presearch with
      | none => exact absurd h2.symm (h.resolve_left (by simp))
      | some r => simp [h1, h2, future_tech_of]
    · simp [h1, h2]

theorem leakage_has_tech_isSome (g : Game F) (presearch : Option Nat) (tech : Nat)
    (h : presearch ≠ none ∨ tech ≠ A_FUTURE) (p : player) :
    ∃ b, leakage_has_tech g presearch tech p = some b := by
  obtain ⟨k, hk⟩ := research_get_some g p
  unfold leakage_has_tech
  rw [hk]
  by_cases h2 : A_FUTURE = tech
  · cases presearch with
    | none => exact absurd h2.symm (h.resolve_left (by simp))
    | some r => simp [h2, future_tech_of]
  · simp [h2]

theorem apply_leakage_isSome (g : Game F) (presearch : Option Nat) (tech : Nat)
    (base_cost : F.D)
    (h : presearch = none → tech = A_FUTURE → g.info.tech_leakage = 0) :
    ∃ d, apply_leakage g presearch tech base_cost = some d := by
  unfold apply_leakage
  by_cases h0 : g.info.tech_leakage = 0
  · exact ⟨_, by rw [if_pos h0]⟩
  · have h' : presearch ≠ none ∨ tech ≠ A_FUTURE := by
      by_cases hp : presearch = none
      · by_cases ht : tech = A_FUTURE
        · exact absurd (h hp ht) h0
        · exact Or.inr ht
      · exact Or.inl hp
    rw [if_neg h0]
    by_cases h1 : g.info.tech_leakage = 1
    · rw [if_pos h1]
      obtain ⟨n, hn⟩ := count_players_isSome (leakage1_counts g presearch tech)
        (players_alive g) (leakage1_counts_isSome g presearch tech h')
      exact ⟨_, by rw [hn]; rfl⟩
    · rw [if_neg h1]
      by_cases h2 : g.info.tech_leakage = 2
      · rw [if_pos h2]
        obtain ⟨n, hn⟩ := count_players_isSome (leakage_has_tech g presearch tech)
          (players_alive g) (leakage_has_tech_isSome g presearch tech h')
        exact ⟨_, by rw [hn]; rfl⟩
      · rw [if_neg h2]
        by_cases h3 : g.info.tech_leakage = 3
        · rw [if_pos h3]
          obtain ⟨n, hn⟩ := count_players_isSome (leakage_has_tech g presearch tech)
            ((players_alive g).filter (fun p => !p.is_barbarian))
            (leakage_has_tech_isSome g presearch tech h')
          exact ⟨_, by rw [hn]; rfl⟩
        · rw [if_neg h3]
          exact ⟨_, rfl⟩

theorem sciencebox_and_floor_ge_one (g : Game F) (base_cost : F.D)
    (hrange : F.gt (F.mul base_cost (F.div (F.ofInt g.info.sciencebox) (F.ofInt 100)))
        (F.ofInt 1) = true →
      F.int_range (F.mul base_cost (F.div (F.ofInt g.info.sciencebox) (F.ofInt 100)))
        = true) :
    1 ≤ sciencebox_and_floor g base_cost := by
  unfold sciencebox_and_floor
  dsimp only
  by_cases h : F.gt (F.mul base_cost (F.div (F.ofInt g.info.sciencebox) (F.ofInt 100)))
      (F.ofInt 1) = true
  · rw [if_pos h]
    exact F.toInt_of_gt_one _ h (hrange h)
  · rw [if_neg h, F.toInt_one]

theorem known_tech_guard_isSome (g : Game F) (presearch : Option Nat) (tech : Nat)
    (loss_value : Bool) (h : Acyclic g) :
    ∃ b, known_tech_guard g presearch tech loss_value = some b := by
  unfold known_tech_guard
  obtain ⟨b, hb⟩ := reachable_isSome g presearch h tech
  rw [hb]
  split <;> exact ⟨_, rfl⟩

/-- The value of `research_total_bulbs_required` when it returns: `0` when the
first `if` fires, else at least `1` when the scaled cost, if it is above
`1.0`, is in the range of `int`. -/
theorem research_total_bulbs_required_value (g : Game F) (presearch : Option Nat)
    (tech : Nat) (loss_value : Bool) (hacyc : Acyclic g)
    (hnull : presearch = none → tech = A_FUTURE → g.info.tech_leakage = 0) :
    ∃ b v, known_tech_guard g presearch tech loss_value = some b
      ∧ research_total_bulbs_required g presearch tech loss_value = some v
      ∧ (b = true → v = 0)
      ∧ (b = false →
          (∀ d, scaled_base_cost g presearch tech = some d → F.gt d (F.ofInt 1) = true →
            F.int_range d = true) → 1 ≤ v) := by
  obtain ⟨b, hb⟩ := known_tech_guard_isSome g presearch tech loss_value hacyc
  obtain ⟨d, hd⟩ := apply_leakage_isSome g presearch tech
    (apply_cost_factor g presearch (base_cost_of_style g presearch tech)) hnull
  cases b with
  | true =>
    refine ⟨true, 0, hb, by rw [research_total_bulbs_required, hb], ?_, ?_⟩
    · intro _
      rfl
    · intro h
      cases h
  | false =>
    refine ⟨false, _, hb, by rw [research_total_bulbs_required, hb, hd], ?_, ?_⟩
    · intro h
      cases h
    · intro _ hrange
      exact sciencebox_and_floor_ge_one g _
        (hrange _ (by rw [scaled_base_cost, hd]; rfl))

theorem known_tech_guard_false (g : Game F) (presearch : Option Nat) (tech : Nat)
    (loss_value : Bool) (b : Bool)
    (hb : known_tech_guard g presearch tech loss_value = some b)
    (h : loss_value = true ∨ presearch = none ∨ tech = A_FUTURE
      ∨ research_invention_state g presearch tech ≠ some TECH_KNOWN) : b = false := by
  unfold known_tech_guard at hb
  split at hb
  · rename_i hc
    simp only [Bool.and_eq_true, Bool.not_eq_true', is_future_tech, beq_eq_false_iff_ne,
      ne_eq] at hc
    obtain ⟨⟨hl, hp⟩, ht⟩ := hc
    rcases h with h | h | h | h
    · rw [hl] at h
      cases h
    · rw [h] at hp
      cases hp
    · exact absurd h ht
    · cases hr : research_invention_reachable g presearch tech with
      | none =>
        rw [hr] at hb
        cases hb
      | some reach =>
        rw [hr] at hb
        simp only [Option.map_some', Option.some.injEq] at hb
        rw [← hb]
        simp [h]
  · exact (Option.some.inj hb).symm

theorem known_tech_guard_true (g : Game F) (presearch : Option Nat) (tech : Nat)
    (loss_value : Bool) (b : Bool)
    (hb : known_tech_guard g presearch tech loss_value = some b)
    (h : loss_value = false ∧ presearch ≠ none ∧ tech ≠ A_FUTURE
      ∧ research_invention_state g presearch tech = some TECH_KNOWN
      ∧ research_invention_reachable g presearch tech = some false) : b = true := by
  obtain ⟨hl, hp, ht, hs, hr⟩ := h
  unfold known_tech_guard at hb
  have hc : (!loss_value && presearch.isSome && !is_future_tech tech) = true := by
    cases presearch with
    | none => exact absurd rfl hp
    | some r => simp [hl, is_future_tech, ht]
  rw [if_pos hc, hr] at hb
  simp only [Option.map_some', Option.some.injEq] at hb
  rw [← hb]
  simp [hs]

/-- C1 (amended).  With an acyclic requirement graph (and, for a `NULL`
research with `A_FUTURE`, `tech_leakage` 0), `research_total_bulbs_required`
returns; the value is at least 1 whenever `loss_value` is set, the research
is `NULL`, the tech is `A_FUTURE` or the tech is not `TECH_KNOWN` in the
research, provided that the scaled cost, when it is above `1.0`, is in the
range of `int`, where the conversion of the `return` is defined; for a
non-future tech that is `TECH_KNOWN` and not reachable, with `loss_value`
clear, the value is 0. -/
theorem research_total_bulbs_required_floor (g : Game F) (presearch : Option Nat)
    (tech : Nat) (loss_value : Bool) (hacyc : Acyclic g)
    (hnull : presearch = none → tech = A_FUTURE → g.info.tech_leakage = 0) :
    ∃ v, research_total_bulbs_required g presearch tech loss_value = some v
      ∧ ((loss_value = true ∨ presearch = none ∨ tech = A_FUTURE
            ∨ research_invention_state g presearch tech ≠ some TECH_KNOWN) →
          (∀ d, scaled_base_cost g presearch tech = some d → F.gt d (F.ofInt 1) = true →
            F.int_range d = true) → 1 ≤ v)
      ∧ ((loss_value = false ∧ presearch ≠ none ∧ tech ≠ A_FUTURE
            ∧ research_invention_state g presearch tech = some TECH_KNOWN
            ∧ research_invention_reachable g presearch tech = some false) → v = 0) := by
  obtain ⟨b, v, hb, hv, h1, h0⟩ :=
    research_total_bulbs_required_value g presearch tech loss_value hacyc hnull
  exact ⟨v, hv,
    fun h hrange => h0 (known_tech_guard_false g presearch tech loss_value b hb h) hrange,
    fun h => h1 (known_tech_guard_true g presearch tech loss_value b hb h)⟩

theorem option_all_elim {α : Type} (o : Option α) (p : α → Bool) (h : o.all p = true) :
    ∀ d, o = some d → p d = true := by
  intro d hd
  rw [hd] at h
  exact h

/-- Witness for C1: tech 1 of `scenario_game` is not known in research 0, its
scaled cost is in the range of `int`, and it costs at least 1. -/
theorem research_total_bulbs_required_floor_witness :
    Acyclic scenario_game
      ∧ research_invention_state scenario_game (some 0) 1 ≠ some TECH_KNOWN
      ∧ (∀ d, scaled_base_cost scenario_game (some 0) 1 = some d →
          exactDouble.gt d (exactDouble.ofInt 1) = true → exactDouble.int_range d = true)
      ∧ ∃ v, research_total_bulbs_required scenario_game (some 0) 1 false = some v
        ∧ 1 ≤ v :=
  ⟨scenario_acyclic, by decide,
    fun d hd _ => option_all_elim _ exactDouble.int_range (by decide) d hd,
    (match research_total_bulbs_required_floor scenario_game (some 0) 1 false
        scenario_acyclic (fun h => Option.noConfusion h) with
      | ⟨v, hv, h1, _⟩ =>
        ⟨v, hv, h1 (Or.inr (Or.inr (Or.inr (by decide))))
          (fun d hd _ => option_all_elim _ exactDouble.int_range (by decide) d hd)⟩)⟩

/-- Counterexample to C1 as stated: tech 2 of `scenario_game` is a valid tech,
`TECH_KNOWN` in research 0 and not reachable, and
`research_total_bulbs_required(presearch, 2, FALSE)` returns 0.  With leakage
style 2 and an alive player, the call with a `NULL` research and `A_FUTURE`
reads `presearch->future_tech` and returns no value.  In binary64 arithmetic
with `base_tech_cost` 10000000, three techs researched and `sciencebox`
10000 the scaled cost of the unknown tech 3 is 3000000000.0, outside the
range of `int`, and the value that x86-64 returns is `INT_MIN`. -/
theorem research_total_bulbs_required_zero :
    valid_advance_by_number scenario_game 2 = true
      ∧ research_invention_state scenario_game (some 0) 2 = some TECH_KNOWN
      ∧ research_invention_reachable scenario_game (some 0) 2 = some false
      ∧ research_total_bulbs_required scenario_game (some 0) 2 false = some 0
      ∧ research_total_bulbs_required scenario_game_leakage none A_FUTURE false = none
      ∧ research_invention_state (sciencebox_game 10000000 10000 false) (some 0) 3
        = some TECH_UNKNOWN
      ∧ (scaled_base_cost (sciencebox_game 10000000 10000 false) (some 0) 3).map
          Frac.toInt = some 3000000000
      ∧ research_total_bulbs_required (sciencebox_game 10000000 10000 false) (some 0) 3 false
        = some (-2147483648) := by
  decide

/-! ## Gettable techs -/

/-- C3.  In a research where `A_NONE` is `TECH_KNOWN`, for a valid tech whose
root requirement is `A_NONE`: if `research_invention_gettable` with
`reachable_ok = FALSE` is true, both requirements `AR_ONE` and `AR_TWO` of the
tech are `TECH_KNOWN`. -/
theorem gettable_prereqs_known (g : Game F) (presearch : Option Nat) (tech : Nat)
    (hnone : research_invention_state g presearch A_NONE = some TECH_KNOWN)
    (hvalid : valid_advance_by_number g tech = true)
    (hroot : advance_required g tech AR_ROOT = A_NONE)
    (hget : research_invention_gettable g presearch tech false = true) :
    research_invention_state g presearch (advance_required g tech AR_ONE) = some TECH_KNOWN
      ∧ research_invention_state g presearch (advance_required g tech AR_TWO)
        = some TECH_KNOWN := by
  unfold research_invention_gettable at hget
  simp only [hvalid, hroot, Bool.not_true, Bool.false_eq_true, if_false, ne_eq,
    not_true_eq_false, false_and, Bool.false_eq_true] at hget
  constructor
  · by_cases h1 : advance_required g tech AR_ONE = A_NONE
    · rw [h1]
      exact hnone
    · by_contra hk
      simp [h1, hk] at hget
  · by_cases h2 : advance_required g tech AR_TWO = A_NONE
    · rw [h2]
      exact hnone
    · by_contra hk
      by_cases h1 : advance_required g tech AR_ONE ≠ A_NONE
          ∧ research_invention_state g presearch (advance_required g tech AR_ONE)
            ≠ some TECH_KNOWN
      · simp [h1] at hget
      · simp [h1, h2, hk] at hget

/-- Witness for C3: tech 3 of `classic_game`, whose requirements 1 and 2 are
known. -/
theorem gettable_prereqs_known_witness :
    research_invention_gettable classic_game (some 0) 3 false = true
      ∧ research_invention_state classic_game (some 0)
          (advance_required classic_game 3 AR_ONE) = some TECH_KNOWN
      ∧ research_invention_state classic_game (some 0)
          (advance_required classic_game 3 AR_TWO) = some TECH_KNOWN :=
  ⟨by decide,
    gettable_prereqs_known classic_game (some 0) 3 (by decide) (by decide) (by decide)
      (by decide)⟩

/-! ## Normal form of the states that `research_update` goes through -/

theorem with_invention_self (g : Game F) (r : Nat) (i : Nat) :
    with_invention g r i ((g.research_array r).inventions i)
      (g.research_array r).techs_researched = g := by
  unfold with_invention modify_research
  simp only [Function.update_eq_self]

theorem with_invention_research (g : Game F) (r : Nat) (i : Nat)
    (inv : research_invention) (n : Int) :
    (with_invention g r i inv n).research_array r =
      { g.research_array r with
        techs_researched := n
        inventions := Function.update (g.research_array r).inventions i inv } := by
  simp [with_invention, modify_research]

theorem with_invention_other (g : Game F) (r : Nat) (i : Nat)
    (inv : research_invention) (n : Int) (k : Nat) (hk : k ≠ r) :
    (with_invention g r i inv n).research_array k = g.research_array k := by
  simp [with_invention, modify_research, hk]

theorem with_invention_with_invention (g : Game F) (r : Nat) (i : Nat)
    (inv inv' : research_invention) (n n' : Int) :
    with_invention (with_invention g r i inv n) r i inv' n' = with_invention g r i inv' n' := by
  simp [with_invention, modify_research]

theorem modify_invention_with_invention (g : Game F) (r : Nat) (i : Nat)
    (inv : research_invention) (n : Int) (f : research_invention → research_invention) :
    modify_invention (with_invention g r i inv n) r i f = with_invention g r i (f inv) n := by
  simp [with_invention, modify_invention, modify_research]

theorem modify_techs_with_invention (g : Game F) (r : Nat) (i : Nat)
    (inv : research_invention) (n : Int) (f : Int → Int) :
    modify_research (with_invention g r i inv n) r
        (fun res => { res with techs_researched := f res.techs_researched })
      = with_invention g r i inv (f n) := by
  simp [with_invention, modify_research]

theorem set_state_with_invention (g : Game F) (r : Nat) (i : Nat)
    (inv : research_invention) (n : Int) (s : tech_state) :
    set_state (with_invention g r i inv n) r i s
      = with_invention g r i { inv with state := s } n := by
  simp [with_invention, set_state, modify_research]

theorem set_state_self (g : Game F) (r : Nat) (i : Nat) :
    set_state g r i ((g.research_array r).inventions i).state = g := by
  unfold set_state
  simp only [Function.update_eq_self]

theorem set_state_set_state (g : Game F) (r : Nat) (i : Nat) (a b : tech_state) :
    set_state (set_state g r i a) r i b = set_state g r i b := by
  simp [set_state]

theorem set_state_state (g : Game F) (r : Nat) (i : Nat) (a : tech_state) :
    (((set_state g r i a).research_array r).inventions i).state = a := by
  simp [set_state]

theorem valid_set_state (g : Game F) (r : Nat) (i : Nat) (a : tech_state)
    (t : Nat) :
    valid_advance_by_number (set_state g r i a) t = valid_advance_by_number g t := rfl

/-- What `research_invention_set` does to the game when the new state is not
`TECH_KNOWN`: it writes the state of a valid tech and nothing else. -/
theorem research_invention_set_game (g : Game F) (r : Nat) (i : Nat)
    (v : tech_state) (hv : v ≠ TECH_KNOWN) :
    (research_invention_set g r i v).2 =
      set_state g r i (if valid_advance_by_number g i = true then v
        else ((g.research_array r).inventions i).state) := by
  unfold research_invention_set
  by_cases hval : valid_advance_by_number g i = true
  · by_cases hold : ((g.research_array r).inventions i).state = v
    · simp only [hval, Bool.not_true, Bool.false_eq_true, if_false, hold, if_true]
      rw [← hold, set_state_self]
    · simp only [hval, Bool.not_true, Bool.false_eq_true, if_false, hold, hv, if_true]
  · simp only [hval, Bool.not_eq_true] at hval ⊢
    simp only [hval, Bool.not_false, if_true, Bool.false_eq_true, if_false]
    rw [set_state_self]

theorem research_invention_state_some (g : Game F) (r : Nat) (t : Nat) :
    research_invention_state g (some r) t
      = if valid_advance_by_number g t = true
        then some ((g.research_array r).inventions t).state else none := by
  unfold research_invention_state
  cases valid_advance_by_number g t <;> rfl

theorem research_invention_state_known (g : Game F) (r : Nat) (t : Nat) :
    research_invention_state g (some r) t = some TECH_KNOWN
      ↔ valid_advance_by_number g t = true
        ∧ ((g.research_array r).inventions t).state = TECH_KNOWN := by
  rw [research_invention_state_some]
  cases valid_advance_by_number g t <;> simp

/-- The state of tech `i` after the first part of the loop body of
`research_update`: the tech stays `TECH_KNOWN` exactly when it was known and,
if valid, reachable; nothing else in the game changes. -/
theorem update_tech_state_spec (g : Game F) (r : Nat) (i : Nat) (reach : Bool) :
    ∃ s, update_tech_state g r i reach = set_state g r i s
      ∧ (s = TECH_KNOWN ↔ (((g.research_array r).inventions i).state = TECH_KNOWN
          ∧ (valid_advance_by_number g i = true → reach = true)))
      ∧ (valid_advance_by_number g i = false → s = ((g.research_array r).inventions i).state)
      ∧ (valid_advance_by_number g i = true → reach = false → s = TECH_UNKNOWN) := by
  have hU : TECH_UNKNOWN ≠ TECH_KNOWN := by decide
  have hP : TECH_PREREQS_KNOWN ≠ TECH_KNOWN := by decide
  unfold update_tech_state
  by_cases hval : valid_advance_by_number g i = true
  · cases reach with
    | false =>
      refine ⟨TECH_UNKNOWN, ?_, ?_, ?_, ?_⟩
      · simp only [Bool.not_false, if_true]
        rw [research_invention_set_game g r i _ hU, if_pos hval]
      · simp [hval]
      · intro h
        simp [hval] at h
      · intro _ _
        rfl
    | true =>
      simp only [Bool.not_true, Bool.false_eq_true, if_false]
      rw [research_invention_set_game g r i _ hU, if_pos hval]
      rw [research_invention_state_some g r i, if_pos hval]
      cases hold : ((g.research_array r).inventions i).state with
      | TECH_KNOWN =>
        refine ⟨TECH_KNOWN, ?_, ?_, ?_, ?_⟩
        · simp only [Option.some.injEq, reduceCtorEq, if_false]
          rw [research_invention_state_some g r i, if_pos hval, hold]
          simp only [Option.some.injEq, reduceCtorEq, false_and, if_false]
          rw [← hold, set_state_self]
        · simp
        · intro h
          simp [hval] at h
        · intro _ h
          cases h
      | TECH_PREREQS_KNOWN =>
        simp only [if_true]
        split
        · refine ⟨TECH_PREREQS_KNOWN, ?_, ?_, ?_, ?_⟩
          · rw [research_invention_set_game _ r i _ hP, valid_set_state, if_pos hval,
              set_state_set_state]
          · simp
          · intro h
            simp [hval] at h
          · intro _ h
            cases h
        · refine ⟨TECH_UNKNOWN, rfl, ?_, ?_, ?_⟩
          · simp
          · intro h
            simp [hval] at h
          · intro _ _
            rfl
      | TECH_UNKNOWN =>
        simp only [Option.some.injEq, reduceCtorEq, if_false]
        split
        · refine ⟨TECH_PREREQS_KNOWN, ?_, ?_, ?_, ?_⟩
          · rw [research_invention_set_game _ r i _ hP, if_pos hval]
          · simp
          · intro h
            simp [hval] at h
          · intro _ h
            cases h
        · refine ⟨TECH_UNKNOWN, ?_, ?_, ?_, ?_⟩
          · rw [← hold, set_state_self]
          · simp
          · intro h
            simp [hval] at h
          · intro _ h
            cases h
  · have hval' : valid_advance_by_number g i = false := by
      simpa using hval
    refine ⟨((g.research_array r).inventions i).state, ?_, ?_, ?_, ?_⟩
    · rw [set_state_self]
      have hs : research_invention_state g (some r) i = none := by
        rw [research_invention_state_some, if_neg hval]
      cases reach with
      | false =>
        simp only [Bool.not_false, if_true]
        rw [research_invention_set_game g r i _ hU, if_neg hval, set_state_self]
      | true =>
        simp only [Bool.not_true, Bool.false_eq_true, if_false, hs, reduceCtorEq, if_false,
          false_and]
    · simp [hval']
    · intro _
      rfl
    · intro h
      exact absurd h hval

theorem set_state_eq_with_invention (g : Game F) (r : Nat) (i : Nat) (s : tech_state) :
    set_state g r i s
      = with_invention g r i { (g.research_array r).inventions i with state := s }
          (g.research_array r).techs_researched := by
  simp [set_state, with_invention, modify_research]

theorem research_invention_state_with_invention_same (g : Game F) (r : Nat)
    (i : Nat) (inv : research_invention) (n : Int) :
    research_invention_state (with_invention g r i inv n) (some r) i
      = if valid_advance_by_number g i = true then some inv.state else none := by
  rw [research_invention_state_some, with_invention_research]
  simp only [Function.update_same]
  rfl

theorem acyclic_with_invention (g : Game F) (r : Nat) (i : Nat)
    (inv : research_invention) (n : Int) (h : Acyclic g) :
    Acyclic (with_invention g r i inv n) := h

theorem add_requirement_nf (g : Game F) (r : Nat) (i j : Nat)
    (inv : research_invention) (n : Int) :
    add_requirement (with_invention g r i inv n) r i j =
      match research_total_bulbs_required
          (with_invention g r i (note_requirement i j inv) n) (some r) j false with
      | none => none
      | some cost =>
        some (with_invention g r i
          { note_requirement i j inv with
            bulbs_required := (note_requirement i j inv).bulbs_required + cost } (n + 1)) := by
  unfold add_requirement note_requirement
  by_cases hj : j ≠ i
  · simp only [hj, if_true, not_false_eq_true, modify_invention_with_invention,
      modify_techs_with_invention g r i _ n (fun x => x + 1), ne_eq]
  · simp only [hj, if_false, modify_invention_with_invention,
      modify_techs_with_invention g r i _ n (fun x => x + 1)]

/-- The `advance_req_iterate` loop returns, and changes only the derived
fields of `inventions[i]` and `techs_researched`. -/
theorem add_requirements_nf (g : Game F) (r : Nat) (i : Nat) (hacyc : Acyclic g)
    (js : List Nat) :
    ∀ (inv : research_invention) (n : Int),
      ∃ inv', add_requirements r i (with_invention g r i inv n) js
            = some (with_invention g r i inv' (n + js.length))
        ∧ inv'.state = inv.state := by
  induction js with
  | nil =>
    intro inv n
    exact ⟨inv, by simp [add_requirements], rfl⟩
  | cons j js ih =>
    intro inv n
    obtain ⟨b, cost, _, hcost, _, _⟩ := research_total_bulbs_required_value
      (with_invention g r i (note_requirement i j inv) n) (some r) j false
      (acyclic_with_invention g r i _ n hacyc) (fun h => Option.noConfusion h)
    obtain ⟨inv', h1, h2⟩ := ih
      { note_requirement i j inv with
        bulbs_required := (note_requirement i j inv).bulbs_required + cost } (n + 1)
    refine ⟨inv', ?_, ?_⟩
    · rw [add_requirements, add_requirement_nf, hcost]
      simp only
      rw [h1]
      congr 2
      simp only [List.length_cons, Nat.cast_add, Nat.cast_one]
      ring
    · rw [h2]
      unfold note_requirement
      split <;> rfl

/-- The second part of the loop body returns and changes only the derived
fields of `inventions[i]`. -/
theorem update_derived_nf (g : Game F) (r : Nat) (i : Nat) (hacyc : Acyclic g)
    (inv : research_invention) (n : Int) :
    ∃ inv', update_derived (with_invention g r i inv n) r i
          = some (with_invention g r i inv' n)
      ∧ inv'.state = inv.state := by
  unfold update_derived clear_derived
  simp only [modify_invention_with_invention]
  by_cases hk : some TECH_KNOWN = research_invention_state
      (with_invention g r i (cleared_invention inv) n) (some r) i
  · rw [if_pos hk]
    exact ⟨_, rfl, rfl⟩
  · rw [if_neg hk]
    obtain ⟨inv', h1, h2⟩ := add_requirements_nf g r i hacyc (g.advances.reqs i)
      (cleared_invention inv) n
    refine ⟨inv', ?_, h2⟩
    have hreqs : (with_invention g r i (cleared_invention inv) n).advances.reqs i
        = g.advances.reqs i := rfl
    rw [hreqs, h1]
    simp only
    rw [modify_techs_with_invention g r i inv' _ (fun _ =>
      ((with_invention g r i (cleared_invention inv) n).research_array r).techs_researched)]
    rw [with_invention_research]

/-- One pass of the loop body of `research_update` returns; it changes only
`inventions[i]` of the research, and the tech stays `TECH_KNOWN` exactly when it
was known and, if valid, reachable. -/
theorem research_update_tech_spec (g : Game F) (r : Nat) (i : Nat)
    (hacyc : Acyclic g) :
    ∃ reach inv', research_invention_reachable g (some r) i = some reach
      ∧ research_update_tech g r i
        = some (with_invention g r i inv' (g.research_array r).techs_researched)
      ∧ (inv'.state = TECH_KNOWN ↔ (((g.research_array r).inventions i).state = TECH_KNOWN
          ∧ (valid_advance_by_number g i = true → reach = true)))
      ∧ (valid_advance_by_number g i = false
          → inv'.state = ((g.research_array r).inventions i).state)
      ∧ (valid_advance_by_number g i = true → reach = false → inv'.state = TECH_UNKNOWN) := by
  obtain ⟨reach, hreach⟩ := reachable_isSome g (some r) hacyc i
  obtain ⟨s, hs, hk, hinv, hunk⟩ := update_tech_state_spec g r i reach
  obtain ⟨inv', h1, h2⟩ := update_derived_nf g r i hacyc
    { (g.research_array r).inventions i with state := s }
    (g.research_array r).techs_researched
  refine ⟨reach, inv', hreach, ?_, ?_, ?_, ?_⟩
  · unfold research_update_tech
    rw [hreach]
    simp only
    rw [hs, set_state_eq_with_invention, h1]
  · rw [h2]
    exact hk
  · rw [h2]
    exact hinv
  · rw [h2]
    exact hunk

/-! ## Reachability depends only on the tech table and on which self-rooted techs are known -/

theorem valid_congr (g g' : Game F) (hadv : g'.advances = g.advances) (t : Nat) :
    valid_advance_by_number g' t = valid_advance_by_number g t := by
  unfold valid_advance_by_number advance_count
  rw [hadv]

theorem advance_required_congr (g g' : Game F) (hadv : g'.advances = g.advances)
    (t : Nat) (q : tech_req) :
    advance_required g' t q = advance_required g t q := by
  unfold advance_required
  rw [hadv]

theorem reachable_fuel_congr (g g' : Game F) (p : Option Nat)
    (hadv : g'.advances = g.advances)
    (hk : ∀ t, advance_required g t AR_ROOT = t → A_NONE ≠ t →
      (some TECH_KNOWN = research_invention_state g' p t
        ↔ some TECH_KNOWN = research_invention_state g p t)) :
    ∀ n t, reachable_fuel g' p n t = reachable_fuel g p n t := by
  intro n
  induction n with
  | zero =>
    intro t
    rfl
  | succ n ih =>
    intro t
    rw [reachable_fuel_succ, reachable_fuel_succ, valid_congr g g' hadv,
      advance_required_congr g g' hadv, advance_required_congr g g' hadv,
      advance_required_congr g g' hadv, ih, ih, ih]
    by_cases hv : valid_advance_by_number g t = true
    · rw [if_pos hv, if_pos hv]
      by_cases hroot : A_NONE ≠ advance_required g t AR_ROOT
      · rw [if_pos hroot, if_pos hroot]
        by_cases hself : advance_required g t AR_ROOT = t
        · rw [if_pos hself, if_pos hself]
          have := hk t hself (by rw [hself] at hroot; exact hroot)
          simp only [this]
        · rw [if_neg hself, if_neg hself]
      · rw [if_neg hroot, if_neg hroot]
    · rw [if_neg hv, if_neg hv]

theorem reachable_congr (g g' : Game F) (p : Option Nat)
    (hadv : g'.advances = g.advances)
    (hk : ∀ t, advance_required g t AR_ROOT = t → A_NONE ≠ t →
      (some TECH_KNOWN = research_invention_state g' p t
        ↔ some TECH_KNOWN = research_invention_state g p t)) (t : Nat) :
    research_invention_reachable g' p t = research_invention_reachable g p t := by
  unfold research_invention_reachable advance_count
  rw [hadv]
  exact reachable_fuel_congr g g' p hadv hk _ t

/-- A self-rooted valid tech other than `A_NONE` is reachable exactly when it
is known. -/
theorem reachable_self_root (g : Game F) (p : Option Nat) (t : Nat)
    (hv : valid_advance_by_number g t = true) (hself : advance_required g t AR_ROOT = t)
    (hne : A_NONE ≠ t) :
    research_invention_reachable g p t
      = some (decide (some TECH_KNOWN = research_invention_state g p t)) := by
  unfold research_invention_reachable
  rw [reachable_fuel_succ, if_pos hv, if_pos (by rw [hself]; exact hne), if_pos hself]

theorem research_invention_state_with_invention_other (g : Game F) (r : Nat)
    (i : Nat) (inv : research_invention) (n : Int) (t : Nat) (ht : t ≠ i) :
    research_invention_state (with_invention g r i inv n) (some r) t
      = research_invention_state g (some r) t := by
  rw [research_invention_state_some, research_invention_state_some, with_invention_research]
  simp only [Function.update_noteq ht]
  rfl

/-- Replacing `inventions[i]` keeps every reachability answer when it keeps
the answer to "is tech `i` known" in case `i` is its own root. -/
theorem reachable_with_invention (g : Game F) (r : Nat) (i : Nat)
    (inv : research_invention) (n : Int)
    (hk : advance_required g i AR_ROOT = i → A_NONE ≠ i → valid_advance_by_number g i = true →
      (inv.state = TECH_KNOWN ↔ ((g.research_array r).inventions i).state = TECH_KNOWN))
    (t : Nat) :
    research_invention_reachable (with_invention g r i inv n) (some r) t
      = research_invention_reachable g (some r) t := by
  refine reachable_congr g (with_invention g r i inv n) (some r) rfl ?_ t
  intro t hself hne
  by_cases hti : t = i
  · subst hti
    rw [research_invention_state_with_invention_same, research_invention_state_some]
    by_cases hv : valid_advance_by_number g t = true
    · rw [if_pos hv, if_pos hv]
      have := hk hself hne hv
      constructor
      · intro h
        rw [this.1 (Option.some.inj h).symm]
      · intro h
        rw [this.2 (Option.some.inj h).symm]
    · rw [if_neg hv, if_neg hv]
  · rw [research_invention_state_with_invention_other g r i inv n t hti]

/-! ## `research_update`: known techs are reachable afterwards -/

/-- One pass of the loop body keeps every reachability answer. -/
theorem reachable_after_update_tech (g : Game F) (r : Nat) (i : Nat)
    (reach : Bool) (inv' : research_invention) (n : Int)
    (hreach : research_invention_reachable g (some r) i = some reach)
    (hk : inv'.state = TECH_KNOWN ↔ (((g.research_array r).inventions i).state = TECH_KNOWN
          ∧ (valid_advance_by_number g i = true → reach = true)))
    (t : Nat) :
    research_invention_reachable (with_invention g r i inv' n) (some r) t
      = research_invention_reachable g (some r) t := by
  apply reachable_with_invention
  intro hself hne hv
  rw [hk]
  constructor
  · intro h
    exact h.1
  · intro h
    refine ⟨h, fun _ => ?_⟩
    rw [reachable_self_root g (some r) i hv hself hne, research_invention_state_some,
      if_pos hv, h] at hreach
    simpa using hreach.symm

theorem research_update_techs_spec (r : Nat) (is : List Nat) :
    ∀ g : Game F, Acyclic g → is.Nodup →
      ∃ g', research_update_techs r g is = some g'
        ∧ g'.advances = g.advances
        ∧ (∀ t, t ∉ is →
            (g'.research_array r).inventions t = (g.research_array r).inventions t)
        ∧ (∀ t, research_invention_reachable g' (some r) t
            = research_invention_reachable g (some r) t)
        ∧ (∀ t, t ∈ is → research_invention_state g' (some r) t = some TECH_KNOWN →
            research_invention_reachable g (some r) t = some true) := by
  induction is with
  | nil =>
    intro g _ _
    exact ⟨g, rfl, rfl, fun _ _ => rfl, fun _ => rfl, fun t ht => by cases ht⟩
  | cons i rest ih =>
    intro g hacyc hnd
    obtain ⟨reach, inv', hreach, hstep, hk, _, _⟩ := research_update_tech_spec g r i hacyc
    have hnd' := List.nodup_cons.1 hnd
    obtain ⟨g', h1, hadv, hframe, hre, hD⟩ :=
      ih (with_invention g r i inv' (g.research_array r).techs_researched)
        (acyclic_with_invention g r i _ _ hacyc) hnd'.2
    have hre1 := reachable_after_update_tech g r i reach inv'
      (g.research_array r).techs_researched hreach hk
    refine ⟨g', ?_, ?_, ?_, ?_, ?_⟩
    · rw [research_update_techs, hstep]
      exact h1
    · rw [hadv]
      rfl
    · intro t ht
      have hti : t ≠ i := fun h => ht (by rw [h]; exact List.mem_cons_self _ _)
      have htr : t ∉ rest := fun h => ht (List.mem_cons_of_mem _ h)
      rw [hframe t htr, with_invention_research]
      simp only [Function.update_noteq hti]
    · intro t
      rw [hre t, hre1 t]
    · intro t ht hkn
      rcases List.mem_cons.1 ht with hti | htr
      · subst hti
        rw [research_invention_state_known] at hkn
        obtain ⟨hv, hs⟩ := hkn
        rw [hframe t hnd'.1, with_invention_research] at hs
        simp only [Function.update_same] at hs
        have hv' : valid_advance_by_number g t = true := by
          rw [← valid_congr g g' (by rw [hadv]; rfl) t]
          exact hv
        rw [hreach, (hk.1 hs).2 hv']
      · rw [← hre1 t]
        exact hD t htr hkn

theorem update_flag_counts_inventions (g : Game F) (r : Nat) :
    ((update_flag_counts g r).research_array r).inventions
      = (g.research_array r).inventions := by
  simp [update_flag_counts, modify_research]

theorem research_invention_state_update_flag_counts (g : Game F) (r : Nat)
    (t : Nat) :
    research_invention_state (update_flag_counts g r) (some r) t
      = research_invention_state g (some r) t := by
  rw [research_invention_state_some, research_invention_state_some,
    update_flag_counts_inventions]
  rfl

theorem reachable_update_flag_counts (g : Game F) (r : Nat) (t : Nat) :
    research_invention_reachable (update_flag_counts g r) (some r) t
      = research_invention_reachable g (some r) t := by
  refine reachable_congr g (update_flag_counts g r) (some r) rfl ?_ t
  intro t _ _
  rw [research_invention_state_update_flag_counts]

theorem mem_tech_range (count t : Nat) (h1 : A_FIRST ≤ t) (h2 : t < count) :
    t ∈ List.range' A_FIRST (count - A_FIRST) := by
  have e : A_FIRST = 1 := rfl
  rw [List.mem_range'_1, e]
  rw [e] at h1
  omega

/-- C2.  With an acyclic requirement graph `research_update` returns, and in
the resulting research every tech from `A_FIRST` upward whose
`research_invention_state` is `TECH_KNOWN` has `research_invention_reachable`
true. -/
theorem research_update_known_reachable (g : Game F) (r : Nat) (hacyc : Acyclic g) :
    ∃ g', research_update g r = some g'
      ∧ ∀ t, A_FIRST ≤ t → research_invention_state g' (some r) t = some TECH_KNOWN →
          research_invention_reachable g' (some r) t = some true := by
  obtain ⟨g1, h1, hadv, _, hre, hD⟩ := research_update_techs_spec r
    (List.range' A_FIRST (advance_count g - A_FIRST)) g hacyc (List.nodup_range' _ _)
  refine ⟨update_flag_counts g1 r, by rw [research_update, h1], ?_⟩
  intro t ht hk
  rw [research_invention_state_update_flag_counts] at hk
  rw [reachable_update_flag_counts, hre]
  apply hD t _ hk
  have hv := ((research_invention_state_known g1 r t).1 hk).1
  rw [valid_congr g g1 hadv] at hv
  simp only [valid_advance_by_number, Bool.and_eq_true, decide_eq_true_eq] at hv
  exact mem_tech_range _ _ ht hv.1

/-- Witness for C2: the theorem at `scenario_game`, where tech 2 is known and
not reachable before the update. -/
theorem research_update_known_reachable_witness :
    Acyclic scenario_game
      ∧ ∃ g', research_update scenario_game 0 = some g'
        ∧ ∀ t, A_FIRST ≤ t → research_invention_state g' (some 0) t = some TECH_KNOWN →
            research_invention_reachable g' (some 0) t = some true :=
  ⟨scenario_acyclic, research_update_known_reachable scenario_game 0 scenario_acyclic⟩

/-! ## The cost formula reads a research only through its known techs and counters -/

theorem SameKnowledge.refl (g : Game F) : SameKnowledge g g :=
  ⟨rfl, rfl, rfl, rfl, fun _ => rfl, fun _ => rfl, fun _ _ => Iff.rfl⟩

theorem SameKnowledge.symm {g g' : Game F} (h : SameKnowledge g g') : SameKnowledge g' g :=
  ⟨h.info.symm, h.advances.symm, h.players.symm, h.has_embassy.symm,
    fun k => (h.techs_researched k).symm, fun k => (h.future_tech k).symm,
    fun k t => (h.known k t).symm⟩

theorem SameKnowledge.trans {g g' g'' : Game F} (h : SameKnowledge g g')
    (h' : SameKnowledge g' g'') : SameKnowledge g g'' :=
  ⟨h'.info.trans h.info, h'.advances.trans h.advances, h'.players.trans h.players,
    h'.has_embassy.trans h.has_embassy,
    fun k => (h'.techs_researched k).trans (h.techs_researched k),
    fun k => (h'.future_tech k).trans (h.future_tech k),
    fun k t => (h'.known k t).trans (h.known k t)⟩

theorem SameKnowledge.valid {g g' : Game F} (h : SameKnowledge g g') (t : Nat) :
    valid_advance_by_number g' t = valid_advance_by_number g t :=
  valid_congr g g' h.advances t

theorem SameKnowledge.state_known {g g' : Game F} (h : SameKnowledge g g')
    (p : Option Nat) (t : Nat) :
    research_invention_state g' p t = some TECH_KNOWN
      ↔ research_invention_state g p t = some TECH_KNOWN := by
  cases p with
  | some r =>
    rw [research_invention_state_known, research_invention_state_known, h.valid, h.known]
  | none =>
    unfold research_invention_state
    rw [h.valid, h.info]

theorem SameKnowledge.known_eq {g g' : Game F} (h : SameKnowledge g g')
    (p : Option Nat) (t : Nat) :
    (some TECH_KNOWN = research_invention_state g' p t)
      ↔ (some TECH_KNOWN = research_invention_state g p t) := by
  rw [eq_comm, h.state_known p t, eq_comm]

theorem SameKnowledge.reachable {g g' : Game F} (h : SameKnowledge g g')
    (p : Option Nat) (t : Nat) :
    research_invention_reachable g' p t = research_invention_reachable g p t :=
  reachable_congr g g' p h.advances (fun t _ _ => h.known_eq p t) t

theorem SameKnowledge.acyclic {g g' : Game F} (h : SameKnowledge g g') (ha : Acyclic g) :
    Acyclic g' := by
  obtain ⟨rank, hr⟩ := ha
  refine ⟨rank, ?_⟩
  intro t
  rw [h.valid, advance_required_congr g g' h.advances, advance_required_congr g g' h.advances,
    advance_required_congr g g' h.advances]
  exact hr t

theorem SameKnowledge.known_tech_guard {g g' : Game F} (h : SameKnowledge g g')
    (p : Option Nat) (t : Nat) (l : Bool) :
    known_tech_guard g' p t l = known_tech_guard g p t l := by
  unfold Freeciv.known_tech_guard
  rw [h.reachable]
  simp only [h.state_known p t]

theorem SameKnowledge.base_cost_of_style {g g' : Game F} (h : SameKnowledge g g')
    (p : Option Nat) (t : Nat) :
    base_cost_of_style g' p t = base_cost_of_style g p t := by
  unfold Freeciv.base_cost_of_style
  simp only [h.info, h.valid, h.advances, h.techs_researched]

theorem SameKnowledge.research_players {g g' : Game F} (h : SameKnowledge g g')
    (p : Option Nat) : research_players g' p = research_players g p := by
  unfold Freeciv.research_players player_by_number
  simp only [h.info, h.players]

theorem SameKnowledge.apply_cost_factor {g g' : Game F} (h : SameKnowledge g g')
    (p : Option Nat) (c : F.D) : apply_cost_factor g' p c = apply_cost_factor g p c := by
  unfold Freeciv.apply_cost_factor
  simp only [h.research_players]

theorem SameKnowledge.future_tech_of {g g' : Game F} (h : SameKnowledge g g')
    (p : Option Nat) : future_tech_of g' p = future_tech_of g p := by
  unfold Freeciv.future_tech_of
  simp only [h.future_tech]

theorem SameKnowledge.research_get {g g' : Game F} (h : SameKnowledge g g')
    (pl : Option player) : research_get g' pl = research_get g pl := by
  unfold Freeciv.research_get
  simp only [h.info]

theorem SameKnowledge.leakage1_counts {g g' : Game F} (h : SameKnowledge g g')
    (p : Option Nat) (t : Nat) :
    leakage1_counts g' p t = leakage1_counts g p t := by
  funext aplayer
  unfold Freeciv.leakage1_counts
  simp only [h.research_get, h.future_tech_of, h.research_players, h.has_embassy, ne_eq,
    h.known_eq]

theorem SameKnowledge.leakage_has_tech {g g' : Game F} (h : SameKnowledge g g')
    (p : Option Nat) (t : Nat) :
    leakage_has_tech g' p t = leakage_has_tech g p t := by
  funext aplayer
  unfold Freeciv.leakage_has_tech
  simp only [h.research_get, h.future_tech_of, h.known_eq]

theorem SameKnowledge.apply_leakage {g g' : Game F} (h : SameKnowledge g g')
    (p : Option Nat) (t : Nat) (c : F.D) :
    apply_leakage g' p t c = apply_leakage g p t c := by
  unfold Freeciv.apply_leakage players_alive
  simp only [h.info, h.players, h.leakage1_counts, h.leakage_has_tech]

theorem SameKnowledge.apply_ai_science_cost {g g' : Game F} (h : SameKnowledge g g')
    (p : Option Nat) (c : F.D) :
    apply_ai_science_cost g' p c = apply_ai_science_cost g p c := by
  unfold Freeciv.apply_ai_science_cost
  simp only [h.research_players]

theorem SameKnowledge.sciencebox_and_floor {g g' : Game F} (h : SameKnowledge g g')
    (c : F.D) : sciencebox_and_floor g' c = sciencebox_and_floor g c := by
  unfold Freeciv.sciencebox_and_floor
  simp only [h.info]

/-- Two games with the same knowledge give the same cost for every tech. -/
theorem SameKnowledge.research_total_bulbs_required {g g' : Game F}
    (h : SameKnowledge g g') (p : Option Nat) (t : Nat) (l : Bool) :
    research_total_bulbs_required g' p t l = research_total_bulbs_required g p t l := by
  unfold Freeciv.research_total_bulbs_required
  simp only [h.known_tech_guard, h.base_cost_of_style, h.apply_cost_factor, h.apply_leakage,
    h.apply_ai_science_cost, h.sciencebox_and_floor]

theorem SameKnowledge.with_invention {a b : Game F} (h : SameKnowledge a b) (r i : Nat)
    (invA invB : research_invention) (n : Int)
    (hs : invB.state = TECH_KNOWN ↔ invA.state = TECH_KNOWN) :
    SameKnowledge (with_invention a r i invA n) (with_invention b r i invB n) := by
  refine ⟨h.info, h.advances, h.players, h.has_embassy, ?_, ?_, ?_⟩
  · intro k
    by_cases hk : k = r
    · subst hk
      rw [with_invention_research, with_invention_research]
    · rw [with_invention_other _ _ _ _ _ _ hk, with_invention_other _ _ _ _ _ _ hk]
      exact h.techs_researched k
  · intro k
    by_cases hk : k = r
    · subst hk
      rw [with_invention_research, with_invention_research]
      exact h.future_tech k
    · rw [with_invention_other _ _ _ _ _ _ hk, with_invention_other _ _ _ _ _ _ hk]
      exact h.future_tech k
  · intro k t
    by_cases hk : k = r
    · subst hk
      rw [with_invention_research, with_invention_research]
      by_cases ht : t = i
      · subst ht
        simp only [Function.update_same]
        exact hs
      · simp only [Function.update_noteq ht]
        exact h.known k t
    · rw [with_invention_other _ _ _ _ _ _ hk, with_invention_other _ _ _ _ _ _ hk]
      exact h.known k t

/-! ## Two runs of `research_update` from states with the same knowledge -/

theorem note_requirement_state (i j : Nat) (inv : research_invention) :
    (note_requirement i j inv).state = inv.state := by
  unfold note_requirement
  split <;> rfl

theorem note_requirement_derived (i j : Nat) (x y : research_invention)
    (h : SameDerived x y) : SameDerived (note_requirement i j x) (note_requirement i j y) := by
  obtain ⟨h1, h2, h3⟩ := h
  unfold note_requirement SameDerived
  by_cases hj : j ≠ i
  · simp only [hj, if_true, ne_eq, not_false_eq_true, h1, h2, h3, and_self]
  · simp only [hj, if_false, h1, h2, h3, and_self]

theorem add_requirements_congr (a b : Game F) (h : SameKnowledge a b) (r i : Nat)
    (hacyc : Acyclic a) (js : List Nat) :
    ∀ (invA invB : research_invention) (n : Int),
      (invB.state = TECH_KNOWN ↔ invA.state = TECH_KNOWN) → SameDerived invA invB →
      ∃ invA' invB',
        add_requirements r i (with_invention a r i invA n) js
            = some (with_invention a r i invA' (n + js.length))
        ∧ add_requirements r i (with_invention b r i invB n) js
            = some (with_invention b r i invB' (n + js.length))
        ∧ invA'.state = invA.state ∧ invB'.state = invB.state
        ∧ SameDerived invA' invB' := by
  induction js with
  | nil =>
    intro invA invB n _ hd
    exact ⟨invA, invB, by simp [add_requirements], by simp [add_requirements], rfl, rfl, hd⟩
  | cons j js ih =>
    intro invA invB n hs hd
    have hs' : (note_requirement i j invB).state = TECH_KNOWN
        ↔ (note_requirement i j invA).state = TECH_KNOWN := by
      rw [note_requirement_state, note_requirement_state]
      exact hs
    have hsk := h.with_invention r i (note_requirement i j invA) (note_requirement i j invB)
      n hs'
    obtain ⟨_, cost, _, hcost, _, _⟩ := research_total_bulbs_required_value
      (with_invention a r i (note_requirement i j invA) n) (some r) j false
      (acyclic_with_invention a r i _ n hacyc) (fun h => Option.noConfusion h)
    have hcost' := hsk.research_total_bulbs_required (some r) j false
    rw [hcost] at hcost'
    have hd' := note_requirement_derived i j invA invB hd
    obtain ⟨invA', invB', hA, hB, hsA, hsB, hdd⟩ := ih
      { note_requirement i j invA with
        bulbs_required := (note_requirement i j invA).bulbs_required + cost }
      { note_requirement i j invB with
        bulbs_required := (note_requirement i j invB).bulbs_required + cost } (n + 1)
      hs' ⟨hd'.1, hd'.2.1, by simp only [hd'.2.2]⟩
    have hlen : n + 1 + (js.length : Int) = n + ((j :: js).length : Int) := by
      simp only [List.length_cons, Nat.cast_add, Nat.cast_one]
      ring
    rw [hlen] at hA hB
    refine ⟨invA', invB', ?_, ?_, ?_, ?_, hdd⟩
    · rw [add_requirements, add_requirement_nf, hcost]
      exact hA
    · rw [add_requirements, add_requirement_nf, hcost']
      exact hB
    · rw [hsA]
      exact note_requirement_state i j invA
    · rw [hsB]
      exact note_requirement_state i j invB

theorem update_derived_congr (a b : Game F) (h : SameKnowledge a b) (r i : Nat)
    (hacyc : Acyclic a) (invA invB : research_invention) (n : Int)
    (hs : invB.state = TECH_KNOWN ↔ invA.state = TECH_KNOWN) :
    ∃ invA' invB',
      update_derived (with_invention a r i invA n) r i = some (with_invention a r i invA' n)
      ∧ update_derived (with_invention b r i invB n) r i = some (with_invention b r i invB' n)
      ∧ invA'.state = invA.state ∧ invB'.state = invB.state
      ∧ SameDerived invA' invB' := by
  have hcl : SameDerived (cleared_invention invA) (cleared_invention invB) := ⟨rfl, rfl, rfl⟩
  have hs' : (cleared_invention invB).state = TECH_KNOWN
      ↔ (cleared_invention invA).state = TECH_KNOWN := hs
  have hsk := h.with_invention r i (cleared_invention invA) (cleared_invention invB) n hs'
  have hk := hsk.known_eq (some r) i
  unfold update_derived clear_derived
  simp only [modify_invention_with_invention]
  by_cases hkA : some TECH_KNOWN = research_invention_state
      (with_invention a r i (cleared_invention invA) n) (some r) i
  · rw [if_pos hkA, if_pos (hk.2 hkA)]
    exact ⟨_, _, rfl, rfl, rfl, rfl, hcl⟩
  · rw [if_neg hkA, if_neg (fun hb => hkA (hk.1 hb))]
    obtain ⟨invA', invB', hA, hB, hsA, hsB, hdd⟩ := add_requirements_congr a b h r i hacyc
      (a.advances.reqs i) (cleared_invention invA) (cleared_invention invB) n hs' hcl
    refine ⟨invA', invB', ?_, ?_, hsA, hsB, hdd⟩
    · have hreqs : (with_invention a r i (cleared_invention invA) n).advances.reqs i
          = a.advances.reqs i := rfl
      rw [hreqs, hA]
      simp only
      rw [modify_techs_with_invention a r i invA' _ (fun _ =>
        ((with_invention a r i (cleared_invention invA) n).research_array r).techs_researched)]
      rw [with_invention_research]
    · have hreqs : (with_invention b r i (cleared_invention invB) n).advances.reqs i
          = a.advances.reqs i := by
        show b.advances.reqs i = a.advances.reqs i
        rw [h.advances]
      rw [hreqs, hB]
      simp only
      rw [modify_techs_with_invention b r i invB' _ (fun _ =>
        ((with_invention b r i (cleared_invention invB) n).research_array r).techs_researched)]
      rw [with_invention_research]

/-- The loop body of `research_update` on two games with the same knowledge:
both runs return, leave the same derived fields in `inventions[i]`, and agree
on whether tech `i` is known afterwards. -/
theorem research_update_tech_congr (a b : Game F) (h : SameKnowledge a b) (r i : Nat)
    (hacyc : Acyclic a) :
    ∃ reach invA' invB',
      research_invention_reachable a (some r) i = some reach
      ∧ research_update_tech a r i
          = some (with_invention a r i invA' (a.research_array r).techs_researched)
      ∧ research_update_tech b r i
          = some (with_invention b r i invB' (b.research_array r).techs_researched)
      ∧ (invA'.state = TECH_KNOWN ↔ (((a.research_array r).inventions i).state = TECH_KNOWN
          ∧ (valid_advance_by_number a i = true → reach = true)))
      ∧ (invB'.state = TECH_KNOWN ↔ invA'.state = TECH_KNOWN)
      ∧ SameDerived invA' invB' := by
  obtain ⟨reach, hreach⟩ := reachable_isSome a (some r) hacyc i
  have hreachB : research_invention_reachable b (some r) i = some reach := by
    rw [h.reachable]
    exact hreach
  obtain ⟨sA, hsA, hkA, _, _⟩ := update_tech_state_spec a r i reach
  obtain ⟨sB, hsB, hkB, _, _⟩ := update_tech_state_spec b r i reach
  have hss : sB = TECH_KNOWN ↔ sA = TECH_KNOWN := by
    rw [hkA, hkB, h.valid, h.known]
  have hn : (b.research_array r).techs_researched = (a.research_array r).techs_researched :=
    h.techs_researched r
  obtain ⟨invA', invB', hA, hB, hstA, hstB, hdd⟩ := update_derived_congr a b h r i hacyc
    { (a.research_array r).inventions i with state := sA }
    { (b.research_array r).inventions i with state := sB }
    (a.research_array r).techs_researched hss
  refine ⟨reach, invA', invB', hreach, ?_, ?_, ?_, ?_, hdd⟩
  · unfold research_update_tech
    rw [hreach]
    simp only
    rw [hsA, set_state_eq_with_invention, hA]
  · unfold research_update_tech
    rw [hreachB]
    simp only
    rw [hsB, set_state_eq_with_invention, hn, hB]
  · rw [hstA]
    exact hkA
  · rw [hstA, hstB]
    exact hss

theorem sameKnowledge_with_invention_self (a : Game F) (r i : Nat) (inv : research_invention)
    (hs : inv.state = TECH_KNOWN ↔ ((a.research_array r).inventions i).state = TECH_KNOWN) :
    SameKnowledge a (with_invention a r i inv (a.research_array r).techs_researched) := by
  have h := (SameKnowledge.refl a).with_invention r i ((a.research_array r).inventions i) inv
    (a.research_array r).techs_researched hs
  rw [with_invention_self] at h
  exact h

theorem sameKnowledge_update_flag_counts (g : Game F) (r : Nat) :
    SameKnowledge g (update_flag_counts g r) := by
  refine ⟨rfl, rfl, rfl, rfl, ?_, ?_, ?_⟩
  · intro k
    by_cases hk : k = r <;> simp [update_flag_counts, modify_research, hk]
  · intro k
    by_cases hk : k = r <;> simp [update_flag_counts, modify_research, hk]
  · intro k t
    by_cases hk : k = r <;> simp [update_flag_counts, modify_research, hk]

theorem research_update_techs_congr (r : Nat) (is : List Nat) :
    ∀ a b : Game F, SameKnowledge a b → Acyclic a → is.Nodup →
      (∀ t, t ∈ is → research_invention_state a (some r) t = some TECH_KNOWN →
        research_invention_reachable a (some r) t = some true) →
      ∃ a' b', research_update_techs r a is = some a'
        ∧ research_update_techs r b is = some b'
        ∧ SameKnowledge a a' ∧ SameKnowledge b b'
        ∧ (∀ t, t ∈ is → SameDerived ((a'.research_array r).inventions t)
            ((b'.research_array r).inventions t))
        ∧ (∀ t, t ∉ is →
            (a'.research_array r).inventions t = (a.research_array r).inventions t
            ∧ (b'.research_array r).inventions t = (b.research_array r).inventions t) := by
  induction is with
  | nil =>
    intro a b _ _ _ _
    refine ⟨a, b, rfl, rfl, SameKnowledge.refl a, SameKnowledge.refl b, ?_, ?_⟩
    · intro t ht
      cases ht
    · intro _ _
      exact ⟨rfl, rfl⟩
  | cons i rest ih =>
    intro a b h hacyc hnd hcons
    have hnd' := List.nodup_cons.1 hnd
    obtain ⟨reach, invA', invB', hreach, hA, hB, hkA, hkAB, hdd⟩ :=
      research_update_tech_congr a b h r i hacyc
    have hkA' : invA'.state = TECH_KNOWN
        ↔ ((a.research_array r).inventions i).state = TECH_KNOWN := by
      rw [hkA]
      constructor
      · intro hh
        exact hh.1
      · intro hh
        refine ⟨hh, fun hv => ?_⟩
        have := hcons i (List.mem_cons_self _ _) ((research_invention_state_known a r i).2 ⟨hv, hh⟩)
        rw [hreach] at this
        exact Option.some.inj this
    have hkB' : invB'.state = TECH_KNOWN
        ↔ ((b.research_array r).inventions i).state = TECH_KNOWN := by
      rw [hkAB, hkA', h.known]
    have ha1 := sameKnowledge_with_invention_self a r i invA' hkA'
    have hb1 := sameKnowledge_with_invention_self b r i invB' hkB'
    have hab1 := (ha1.symm.trans h).trans hb1
    obtain ⟨a', b', hA', hB', haa, hbb, hder, hframe⟩ := ih _ _ hab1 (ha1.acyclic hacyc) hnd'.2
      (by
        intro t ht hk
        rw [ha1.reachable]
        exact hcons t (List.mem_cons_of_mem _ ht) ((ha1.state_known (some r) t).1 hk))
    refine ⟨a', b', ?_, ?_, ha1.trans haa, hb1.trans hbb, ?_, ?_⟩
    · rw [research_update_techs, hA]
      exact hA'
    · rw [research_update_techs, hB]
      exact hB'
    · intro t ht
      rcases List.mem_cons.1 ht with hti | htr
      · subst hti
        obtain ⟨e1, e2⟩ := hframe t hnd'.1
        rw [e1, e2, with_invention_research, with_invention_research]
        simp only [Function.update_same]
        exact hdd
      · exact hder t htr
    · intro t ht
      have hti : t ≠ i := fun hh => ht (by rw [hh]; exact List.mem_cons_self _ _)
      have htr : t ∉ rest := fun hh => ht (List.mem_cons_of_mem _ hh)
      obtain ⟨e1, e2⟩ := hframe t htr
      rw [e1, e2, with_invention_research, with_invention_research]
      simp only [Function.update_noteq hti, and_self]

/-- C4 (amended).  With an acyclic requirement graph, in a research where
every `TECH_KNOWN` tech from `A_FIRST` upward is reachable (as it is after any
`research_update`), `research_update` returns both times when run twice in
succession, and after the second run every tech has the same `required_techs`
and the same `bulbs_required` as after the first. -/
theorem research_update_idempotent (g : Game F) (r : Nat) (hacyc : Acyclic g)
    (hcons : KnownReachable g r) :
    ∃ g1 g2, research_update g r = some g1 ∧ research_update g1 r = some g2
      ∧ ∀ t, ((g2.research_array r).inventions t).required_techs
            = ((g1.research_array r).inventions t).required_techs
          ∧ ((g2.research_array r).inventions t).bulbs_required
            = ((g1.research_array r).inventions t).bulbs_required := by
  have hcons' : ∀ t, t ∈ List.range' A_FIRST (advance_count g - A_FIRST) →
      research_invention_state g (some r) t = some TECH_KNOWN →
      research_invention_reachable g (some r) t = some true := by
    intro t ht hk
    exact hcons t (List.mem_range'_1.1 ht).1 hk
  obtain ⟨a', _, hA, _, hka, _, _, _⟩ := research_update_techs_congr r _ g g
    (SameKnowledge.refl g) hacyc (List.nodup_range' _ _) hcons'
  have hg1 : SameKnowledge g (update_flag_counts a' r) :=
    hka.trans (sameKnowledge_update_flag_counts a' r)
  obtain ⟨a'', b', hA', hB', _, _, hder, hframe⟩ := research_update_techs_congr r _ g
    (update_flag_counts a' r) hg1 hacyc (List.nodup_range' _ _) hcons'
  have hsame : a'' = a' := by
    rw [hA] at hA'
    exact (Option.some.inj hA').symm
  subst hsame
  have hcount : advance_count (update_flag_counts a'' r) = advance_count g := by
    unfold advance_count
    rw [hg1.advances]
  refine ⟨update_flag_counts a'' r, update_flag_counts b' r, ?_, ?_, ?_⟩
  · rw [research_update, hA]
  · rw [research_update, hcount, hB']
  · intro t
    rw [update_flag_counts_inventions, update_flag_counts_inventions]
    by_cases ht : t ∈ List.range' A_FIRST (advance_count g - A_FIRST)
    · obtain ⟨h1, _, h3⟩ := hder t ht
      exact ⟨h1.symm, h3.symm⟩
    · obtain ⟨_, e2⟩ := hframe t ht
      rw [e2, update_flag_counts_inventions]
      exact ⟨rfl, rfl⟩

theorem classic_acyclic : Acyclic classic_game := by
  refine ⟨fun _ => 0, ?_⟩
  intro t hv
  have ht : t < 4 := by
    simp only [valid_advance_by_number, advance_count, Bool.and_eq_true,
      decide_eq_true_eq] at hv
    exact hv.1
  interval_cases t <;> decide

theorem classic_known_reachable : KnownReachable classic_game 0 := by
  intro t _ hk
  have hv := ((research_invention_state_known classic_game 0 t).1 hk).1
  have ht : t < 4 := by
    simp only [valid_advance_by_number, advance_count, Bool.and_eq_true,
      decide_eq_true_eq] at hv
    exact hv.1
  interval_cases t <;> decide

/-- Witness for C4: the theorem at `classic_game`, whose known techs have no
root requirement. -/
theorem research_update_idempotent_witness :
    Acyclic classic_game ∧ KnownReachable classic_game 0
      ∧ ∃ g1 g2, research_update classic_game 0 = some g1 ∧ research_update g1 0 = some g2
        ∧ ∀ t, ((g2.research_array 0).inventions t).required_techs
              = ((g1.research_array 0).inventions t).required_techs
            ∧ ((g2.research_array 0).inventions t).bulbs_required
              = ((g1.research_array 0).inventions t).bulbs_required :=
  ⟨classic_acyclic, classic_known_reachable,
    research_update_idempotent classic_game 0 classic_acyclic classic_known_reachable⟩

/-- Counterexample to C4 as stated: in `scenario_game` (acyclic; tech 2 is
known but its root tech 3 is not) the first `research_update` leaves
`bulbs_required` 20 for tech 1 and a second run in succession leaves 30. -/
theorem research_update_not_idempotent :
    (research_update scenario_game 0).map
        (fun g => ((g.research_array 0).inventions 1).bulbs_required) = some 20
      ∧ ((research_update scenario_game 0).bind (fun g => research_update g 0)).map
        (fun g => ((g.research_array 0).inventions 1).bulbs_required) = some 30 := by
  decide

/-! ## Action enablers -/

theorem is_action_enabled_loop_iff (env : ActionEnv) (c : action_context)
    (l : List action_enabler) :
    is_action_enabled_loop env c l = true ↔ ∃ e, e ∈ l ∧ is_enabler_active env e c = true := by
  induction l with
  | nil => simp [is_action_enabled_loop]
  | cons e rest ih =>
    rw [is_action_enabled_loop]
    by_cases he : is_enabler_active env e c = true
    · rw [if_pos he]
      exact ⟨fun _ => ⟨e, List.mem_cons_self _ _, he⟩, fun _ => rfl⟩
    · rw [if_neg he, ih]
      constructor
      · rintro ⟨x, hx, hxa⟩
        exact ⟨x, List.mem_cons_of_mem _ hx, hxa⟩
      · rintro ⟨x, hx, hxa⟩
        rcases List.mem_cons.1 hx with h | h
        · rw [h] at hxa
          exact absurd hxa he
        · exact ⟨x, h, hxa⟩

/-- C6.  `is_action_enabled` is true exactly when some enabler registered for
the action has its actor-side and its target-side requirement vector active
under `RPT_CERTAIN`; an enabler list `[A, B]` with A's actor side false and B
fully true gives true; and reordering the enablers of the action does not
change the result. -/
theorem is_action_enabled_iff (env : ActionEnv) (wanted_action : gen_action)
    (c : action_context) :
    (is_action_enabled env wanted_action c = true ↔
      ∃ e, e ∈ env.action_enablers_for_action wanted_action
        ∧ env.are_reqs_active c.actor_player c.target_player c.actor_city c.actor_building
            c.actor_tile c.actor_unit c.actor_unittype c.actor_output c.actor_specialist
            e.actor_reqs RPT_CERTAIN = true
        ∧ env.are_reqs_active c.target_player c.actor_player c.target_city c.target_building
            c.target_tile c.target_unit c.target_unittype c.target_output c.target_specialist
            e.target_reqs RPT_CERTAIN = true)
    ∧ (∀ A B : action_enabler, env.action_enablers_for_action wanted_action = [A, B] →
        env.are_reqs_active c.actor_player c.target_player c.actor_city c.actor_building
            c.actor_tile c.actor_unit c.actor_unittype c.actor_output c.actor_specialist
            A.actor_reqs RPT_CERTAIN = false →
        is_enabler_active env B c = true →
        is_action_enabled env wanted_action c = true)
    ∧ (∀ enablers : gen_action → List action_enabler,
        (enablers wanted_action).Perm (env.action_enablers_for_action wanted_action) →
        is_action_enabled { env with action_enablers_for_action := enablers } wanted_action c
          = is_action_enabled env wanted_action c) := by
  have key : ∀ (l : List action_enabler), is_action_enabled_loop env c l = true ↔
      ∃ e, e ∈ l
        ∧ env.are_reqs_active c.actor_player c.target_player c.actor_city c.actor_building
            c.actor_tile c.actor_unit c.actor_unittype c.actor_output c.actor_specialist
            e.actor_reqs RPT_CERTAIN = true
        ∧ env.are_reqs_active c.target_player c.actor_player c.target_city c.target_building
            c.target_tile c.target_unit c.target_unittype c.target_output c.target_specialist
            e.target_reqs RPT_CERTAIN = true := by
    intro l
    rw [is_action_enabled_loop_iff]
    simp only [is_enabler_active, Bool.and_eq_true]
  refine ⟨key _, ?_, ?_⟩
  · intro A B hl _ hB
    unfold is_action_enabled
    rw [is_action_enabled_loop_iff, hl]
    exact ⟨B, by simp, hB⟩
  · intro enablers hperm
    have h1 : ∀ l l' : List action_enabler, l.Perm l' →
        (is_action_enabled_loop env c l = true ↔ is_action_enabled_loop env c l' = true) := by
      intro l l' hp
      rw [is_action_enabled_loop_iff, is_action_enabled_loop_iff]
      constructor
      · rintro ⟨e, he, ha⟩
        exact ⟨e, hp.mem_iff.1 he, ha⟩
      · rintro ⟨e, he, ha⟩
        exact ⟨e, hp.mem_iff.2 he, ha⟩
    have h2 : ∀ l : List action_enabler,
        is_action_enabled_loop { env with action_enablers_for_action := enablers } c l
          = is_action_enabled_loop env c l := by
      intro l
      induction l with
      | nil => rfl
      | cons e rest ih =>
        rw [is_action_enabled_loop, is_action_enabled_loop, ih]
        rfl
    unfold is_action_enabled
    rw [h2]
    exact Bool.eq_iff_iff.2 (h1 _ _ hperm)

/-- Witness for C6: establish embassy in `sample_env`, whose enablers are
`[enabler_a, enabler_b]`, is enabled, also with the enablers in the other
order. -/
theorem is_action_enabled_iff_witness :
    is_action_enabled sample_env ACTION_ESTABLISH_EMBASSY
        (sample_context (sample_unit 0 diplomat_type) (sample_unit 1 plain_type)) = true
      ∧ is_action_enabled
          { sample_env with action_enablers_for_action := fun _ => [enabler_b, enabler_a] }
          ACTION_ESTABLISH_EMBASSY
          (sample_context (sample_unit 0 diplomat_type) (sample_unit 1 plain_type))
        = is_action_enabled sample_env ACTION_ESTABLISH_EMBASSY
          (sample_context (sample_unit 0 diplomat_type) (sample_unit 1 plain_type)) :=
  ⟨(is_action_enabled_iff sample_env ACTION_ESTABLISH_EMBASSY
      (sample_context (sample_unit 0 diplomat_type) (sample_unit 1 plain_type))).2.1
      enabler_a enabler_b rfl (by decide) (by decide),
    (is_action_enabled_iff sample_env ACTION_ESTABLISH_EMBASSY
      (sample_context (sample_unit 0 diplomat_type) (sample_unit 1 plain_type))).2.2
      (fun _ => [enabler_b, enabler_a]) (List.Perm.swap _ _ _)⟩

theorem action_enabled_local_loop_yes (env : ActionEnv) (c : action_context)
    (l : List action_enabler) :
    ∀ result, (∃ e, e ∈ l ∧ enabler_local_eval env c e = TRI_YES) →
      action_enabled_local_loop env c result l = TRI_YES := by
  induction l with
  | nil =>
    rintro _ ⟨e, he, _⟩
    cases he
  | cons x rest ih =>
    rintro result ⟨e, he, hy⟩
    rw [action_enabled_local_loop]
    by_cases hx : enabler_local_eval env c x = TRI_YES
    · rw [if_pos hx]
    · have hrest : ∃ e, e ∈ rest ∧ enabler_local_eval env c e = TRI_YES := by
        rcases List.mem_cons.1 he with h | h
        · rw [h] at hy
          exact absurd hy hx
        · exact ⟨e, h, hy⟩
      rw [if_neg hx, ih _ hrest, ih _ hrest, ite_self]

theorem action_enabled_local_loop_no_yes (env : ActionEnv) (c : action_context)
    (l : List action_enabler) :
    ∀ result, (∀ e, e ∈ l → enabler_local_eval env c e ≠ TRI_YES) →
      action_enabled_local_loop env c result l
        = if ∃ e, e ∈ l ∧ enabler_local_eval env c e = TRI_MAYBE then TRI_MAYBE else result := by
  induction l with
  | nil =>
    intro result _
    simp [action_enabled_local_loop]
  | cons x rest ih =>
    intro result hno
    have hx : enabler_local_eval env c x ≠ TRI_YES := hno x (List.mem_cons_self _ _)
    have hrest : ∀ e, e ∈ rest → enabler_local_eval env c e ≠ TRI_YES :=
      fun e he => hno e (List.mem_cons_of_mem _ he)
    rw [action_enabled_local_loop, if_neg hx, ih _ hrest, ih _ hrest]
    by_cases hm : enabler_local_eval env c x = TRI_MAYBE
    · rw [if_pos hm, ite_self, if_pos ⟨x, List.mem_cons_self _ _, hm⟩]
    · rw [if_neg hm]
      by_cases hr : ∃ e, e ∈ rest ∧ enabler_local_eval env c e = TRI_MAYBE
      · obtain ⟨e, he, hem⟩ := hr
        rw [if_pos ⟨e, he, hem⟩, if_pos ⟨e, List.mem_cons_of_mem _ he, hem⟩]
      · have hr' : ¬ ∃ e, e ∈ x :: rest ∧ enabler_local_eval env c e = TRI_MAYBE := by
          rintro ⟨e, he, hem⟩
          rcases List.mem_cons.1 he with h | h
          · rw [h] at hem
            exact hm hem
          · exact hr ⟨e, h, hem⟩
        rw [if_neg hr, if_neg hr']

/-- The value of `action_enabled_local` in closed form. -/
theorem action_enabled_local_eq (env : ActionEnv) (wanted_action : gen_action)
    (c : action_context) :
    action_enabled_local env wanted_action c =
      if ∃ e, e ∈ env.action_enablers_for_action wanted_action
          ∧ enabler_local_eval env c e = TRI_YES then TRI_YES
      else if ∃ e, e ∈ env.action_enablers_for_action wanted_action
          ∧ enabler_local_eval env c e = TRI_MAYBE then TRI_MAYBE
      else TRI_NO := by
  unfold action_enabled_local
  by_cases hy : ∃ e, e ∈ env.action_enablers_for_action wanted_action
      ∧ enabler_local_eval env c e = TRI_YES
  · rw [if_pos hy]
    exact action_enabled_local_loop_yes env c _ _ hy
  · rw [if_neg hy]
    exact action_enabled_local_loop_no_yes env c _ _ (fun e he h => hy ⟨e, he, h⟩)

/-- C7.  `action_enabled_local` is `TRI_YES` exactly when the combined
evaluation `tri_and(actor side, target side)` of some enabler is `TRI_YES`;
otherwise it is `TRI_MAYBE` exactly when the combined evaluation of some
enabler is `TRI_MAYBE`; otherwise it is `TRI_NO`.  A `TRI_MAYBE` of an earlier
enabler is kept when all later enablers evaluate to `TRI_NO`. -/
theorem action_enabled_local_fold (env : ActionEnv) (wanted_action : gen_action)
    (c : action_context) :
    (action_enabled_local env wanted_action c = TRI_YES ↔
      ∃ e, e ∈ env.action_enablers_for_action wanted_action
        ∧ tri_and
          (env.mke_eval_reqs c.actor_player c.actor_player c.target_player c.actor_city
            c.actor_building c.actor_tile c.actor_unit c.actor_output c.actor_specialist
            e.actor_reqs)
          (env.mke_eval_reqs c.actor_player c.target_player c.actor_player c.target_city
            c.target_building c.target_tile c.target_unit c.target_output
            c.target_specialist e.target_reqs) = TRI_YES)
    ∧ (action_enabled_local env wanted_action c = TRI_MAYBE ↔
      (¬ ∃ e, e ∈ env.action_enablers_for_action wanted_action
        ∧ enabler_local_eval env c e = TRI_YES)
      ∧ ∃ e, e ∈ env.action_enablers_for_action wanted_action
        ∧ tri_and
          (env.mke_eval_reqs c.actor_player c.actor_player c.target_player c.actor_city
            c.actor_building c.actor_tile c.actor_unit c.actor_output c.actor_specialist
            e.actor_reqs)
          (env.mke_eval_reqs c.actor_player c.target_player c.actor_player c.target_city
            c.target_building c.target_tile c.target_unit c.target_output
            c.target_specialist e.target_reqs) = TRI_MAYBE)
    ∧ (action_enabled_local env wanted_action c = TRI_NO ↔
      ∀ e, e ∈ env.action_enablers_for_action wanted_action →
        enabler_local_eval env c e = TRI_NO)
    ∧ (∀ (before after : List action_enabler) (m : action_enabler),
        env.action_enablers_for_action wanted_action = before ++ m :: after →
        (∀ e, e ∈ before → enabler_local_eval env c e ≠ TRI_YES) →
        enabler_local_eval env c m = TRI_MAYBE →
        (∀ e, e ∈ after → enabler_local_eval env c e = TRI_NO) →
        action_enabled_local env wanted_action c = TRI_MAYBE) := by
  have hne : ∀ x : fc_tristate, x ≠ TRI_YES → x ≠ TRI_MAYBE → x = TRI_NO := by
    intro x h1 h2
    cases x
    · rfl
    · exact absurd rfl h1
    · exact absurd rfl h2
  rw [action_enabled_local_eq]
  refine ⟨?_, ?_, ?_, ?_⟩
  · change _ ↔ ∃ e, e ∈ env.action_enablers_for_action wanted_action
        ∧ enabler_local_eval env c e = TRI_YES
    constructor
    · intro h
      by_contra hy
      rw [if_neg hy] at h
      split at h <;> cases h
    · intro hy
      rw [if_pos hy]
  · change _ ↔ _ ∧ ∃ e, e ∈ env.action_enablers_for_action wanted_action
        ∧ enabler_local_eval env c e = TRI_MAYBE
    constructor
    · intro h
      by_cases hy : ∃ e, e ∈ env.action_enablers_for_action wanted_action
          ∧ enabler_local_eval env c e = TRI_YES
      · rw [if_pos hy] at h
        cases h
      · refine ⟨hy, ?_⟩
        rw [if_neg hy] at h
        by_contra hm
        rw [if_neg hm] at h
        cases h
    · rintro ⟨hy, hm⟩
      rw [if_neg hy, if_pos hm]
  · constructor
    · intro h e he
      by_cases hy : ∃ e, e ∈ env.action_enablers_for_action wanted_action
          ∧ enabler_local_eval env c e = TRI_YES
      · rw [if_pos hy] at h
        cases h
      · rw [if_neg hy] at h
        by_cases hm : ∃ e, e ∈ env.action_enablers_for_action wanted_action
            ∧ enabler_local_eval env c e = TRI_MAYBE
        · rw [if_pos hm] at h
          cases h
        · exact hne _ (fun h1 => hy ⟨e, he, h1⟩) (fun h2 => hm ⟨e, he, h2⟩)
    · intro h
      have hy : ¬ ∃ e, e ∈ env.action_enablers_for_action wanted_action
          ∧ enabler_local_eval env c e = TRI_YES := by
        rintro ⟨e, he, h1⟩
        rw [h e he] at h1
        cases h1
      have hm : ¬ ∃ e, e ∈ env.action_enablers_for_action wanted_action
          ∧ enabler_local_eval env c e = TRI_MAYBE := by
        rintro ⟨e, he, h1⟩
        rw [h e he] at h1
        cases h1
      rw [if_neg hy, if_neg hm]
  · intro before after m hl hb hm ha
    have hy : ¬ ∃ e, e ∈ env.action_enablers_for_action wanted_action
        ∧ enabler_local_eval env c e = TRI_YES := by
      rintro ⟨e, he, h1⟩
      rw [hl] at he
      rcases List.mem_append.1 he with h | h
      · exact hb e h h1
      · rcases List.mem_cons.1 h with h | h
        · rw [h, hm] at h1
          cases h1
        · rw [ha e h] at h1
          cases h1
    rw [if_neg hy, if_pos ⟨m, by rw [hl]; simp, hm⟩]

/-- Witness for C7: poison city in `sample_env` has the enablers
`[enabler_m, enabler_n]`, which evaluate to `TRI_MAYBE` and `TRI_NO`; the
result is `TRI_MAYBE`. -/
theorem action_enabled_local_fold_witness :
    action_enabled_local sample_env ACTION_SPY_POISON
      (sample_context (sample_unit 0 diplomat_type) (sample_unit 1 plain_type)) = TRI_MAYBE :=
  (action_enabled_local_fold sample_env ACTION_SPY_POISON
    (sample_context (sample_unit 0 diplomat_type) (sample_unit 1 plain_type))).2.2.2
    [] [enabler_n] enabler_m rfl (fun e he => by cases he) (by decide)
    (fun e he => by
      rw [List.mem_singleton.1 he]
      decide)

/-! ## Diplomatic battles and action probabilities -/

/-- C8 (amended).  For an attacker without the SuperSpy flag and a defender
without the SuperSpy flag: `ap_diplomat_battle` returns 200 when the defender
lacks the Diplomat flag; it returns 100 when the defender has the Diplomat
flag, neither unit has the Spy flag, the veteran power factors are equal,
there is no city on the defender's tile and no diplomat-defense base. -/
theorem ap_diplomat_battle_base_chance (env : ActionEnv) (pattacker pdefender : unit)
    (ha : unit_has_type_flag pattacker UTYF_SUPERSPY = false)
    (hd : unit_has_type_flag pdefender UTYF_SUPERSPY = false) :
    (unit_has_type_flag pdefender UTYF_DIPLOMAT = false →
      ap_diplomat_battle env pattacker pdefender = 200)
    ∧ (unit_has_type_flag pdefender UTYF_DIPLOMAT = true →
      unit_has_type_flag pattacker UTYF_SPY = false →
      unit_has_type_flag pdefender UTYF_SPY = false →
      pattacker.utype.power_fact pattacker.veteran
        = pdefender.utype.power_fact pdefender.veteran →
      env.tile_city pdefender.tile = none →
      env.tile_has_diplomat_defense_base pdefender.tile pdefender.utype = false →
      ap_diplomat_battle env pattacker pdefender = 100) := by
  constructor
  · intro hdip
    unfold ap_diplomat_battle
    simp [ha, hd, hdip]
  · intro hdip hspa hspd hvet hcity hbase
    unfold ap_diplomat_battle
    simp [ha, hd, hdip, hspa, hspd, hvet, hcity, hbase]

/-- Witness for C8: a flagless attacker against a flagless defender gives
200, against a plain diplomat 100 (in `sample_env`: no city, no base). -/
theorem ap_diplomat_battle_base_chance_witness :
    ap_diplomat_battle sample_env (sample_unit 0 plain_type) (sample_unit 1 plain_type) = 200
      ∧ ap_diplomat_battle sample_env (sample_unit 0 plain_type) (sample_unit 1 diplomat_type)
        = 100 :=
  ⟨(ap_diplomat_battle_base_chance sample_env (sample_unit 0 plain_type)
      (sample_unit 1 plain_type) rfl rfl).1 rfl,
    (ap_diplomat_battle_base_chance sample_env (sample_unit 0 plain_type)
      (sample_unit 1 diplomat_type) rfl rfl).2 rfl rfl rfl rfl rfl rfl⟩

/-- Counterexample to C8 as stated: attacker without SuperSpy and Spy,
defender without SuperSpy, Spy and Diplomat, equal power factors, no city on
the defender's tile, no diplomat-defense base: the result is 200, not 100. -/
theorem ap_diplomat_battle_defenseless :
    unit_has_type_flag (sample_unit 0 plain_type) UTYF_SUPERSPY = false
      ∧ unit_has_type_flag (sample_unit 0 plain_type) UTYF_SPY = false
      ∧ unit_has_type_flag (sample_unit 1 plain_type) UTYF_SUPERSPY = false
      ∧ unit_has_type_flag (sample_unit 1 plain_type) UTYF_SPY = false
      ∧ unit_has_type_flag (sample_unit 1 plain_type) UTYF_DIPLOMAT = false
      ∧ (sample_unit 0 plain_type).utype.power_fact (sample_unit 0 plain_type).veteran
        = (sample_unit 1 plain_type).utype.power_fact (sample_unit 1 plain_type).veteran
      ∧ sample_env.tile_city (sample_unit 1 plain_type).tile = none
      ∧ sample_env.tile_has_diplomat_defense_base (sample_unit 1 plain_type).tile
          (sample_unit 1 plain_type).utype = false
      ∧ ap_diplomat_battle sample_env (sample_unit 0 plain_type) (sample_unit 1 plain_type)
        = 200 :=
  ⟨by decide, by decide, by decide, by decide, by decide, by decide, rfl, by decide,
    by decide⟩

/-- C9.  `ap_diplomat_battle` returns 200 whenever the attacker has the
SuperSpy flag, whatever the defender, and `ACTPROB_IMPOSSIBLE` whenever the
attacker lacks it and the defender has it; in both cases for every veteran
level, city and base of the environment. -/
theorem ap_diplomat_battle_superspy (env : ActionEnv) (pattacker pdefender : unit) :
    (unit_has_type_flag pattacker UTYF_SUPERSPY = true →
      ap_diplomat_battle env pattacker pdefender = 200)
    ∧ (unit_has_type_flag pattacker UTYF_SUPERSPY = false →
      unit_has_type_flag pdefender UTYF_SUPERSPY = true →
      ap_diplomat_battle env pattacker pdefender = ACTPROB_IMPOSSIBLE) := by
  constructor
  · intro ha
    unfold ap_diplomat_battle
    rw [if_pos ha]
  · intro ha hd
    unfold ap_diplomat_battle
    rw [if_neg (by rw [ha]; decide), if_pos hd]

/-- Witness for C9: a SuperSpy attacker wins against a SuperSpy defender, and
a plain diplomat cannot win against a SuperSpy. -/
theorem ap_diplomat_battle_superspy_witness :
    ap_diplomat_battle sample_env (sample_unit 0 superspy_type) (sample_unit 1 superspy_type)
        = 200
      ∧ ap_diplomat_battle sample_env (sample_unit 0 diplomat_type)
          (sample_unit 1 superspy_type) = ACTPROB_IMPOSSIBLE :=
  ⟨(ap_diplomat_battle_superspy sample_env (sample_unit 0 superspy_type)
      (sample_unit 1 superspy_type)).1 (by decide),
    (ap_diplomat_battle_superspy sample_env (sample_unit 0 diplomat_type)
      (sample_unit 1 superspy_type)).2 (by decide) (by decide)⟩

/-- C10.  For every action other than the two steal-tech actions,
`action_prob` returns `ACTPROB_IMPOSSIBLE` when `action_enabled_local` is
`TRI_NO`, `ACTPROB_NOT_KNOWN` when it is `TRI_MAYBE`, and the chance of the
action when it is `TRI_YES`: 200 for bribe unit, establish embassy and
investigate city, `ACTPROB_NOT_IMPLEMENTED` for the actions without a formula,
and, for sabotage unit with a target unit of at least 2 hit points, the
result of `ap_diplomat_battle`. -/
theorem action_prob_three_outcomes (env : ActionEnv) (g : Game F)
    (wanted_action : gen_action) (c : action_context)
    (h1 : wanted_action ≠ ACTION_SPY_STEAL_TECH)
    (h2 : wanted_action ≠ ACTION_SPY_TARGETED_STEAL_TECH) :
    (wanted_action ≠ ACTION_SPY_SABOTAGE_UNIT →
      (action_enabled_local env wanted_action c = TRI_NO →
        action_prob env g wanted_action c = some ACTPROB_IMPOSSIBLE)
      ∧ (action_enabled_local env wanted_action c = TRI_MAYBE →
        action_prob env g wanted_action c = some ACTPROB_NOT_KNOWN)
      ∧ (action_enabled_local env wanted_action c = TRI_YES →
        action_prob env g wanted_action c
          = some (if wanted_action = ACTION_SPY_BRIBE_UNIT
                ∨ wanted_action = ACTION_ESTABLISH_EMBASSY
                ∨ wanted_action = ACTION_SPY_INVESTIGATE_CITY then 200
              else ACTPROB_NOT_IMPLEMENTED)))
    ∧ (wanted_action = ACTION_SPY_SABOTAGE_UNIT →
      ∀ actor_unit target_unit, c.actor_unit = some actor_unit →
        c.target_unit = some target_unit → 2 ≤ target_unit.hp →
        (action_enabled_local env wanted_action c = TRI_NO →
          action_prob env g wanted_action c = some ACTPROB_IMPOSSIBLE)
        ∧ (action_enabled_local env wanted_action c = TRI_MAYBE →
          action_prob env g wanted_action c = some ACTPROB_NOT_KNOWN)
        ∧ (action_enabled_local env wanted_action c = TRI_YES →
          action_prob env g wanted_action c
            = some (ap_diplomat_battle env actor_unit target_unit))) := by
  constructor
  · intro h3
    cases wanted_action <;>
      first
      | exact absurd rfl h1
      | exact absurd rfl h2
      | exact absurd rfl h3
      | (refine ⟨?_, ?_, ?_⟩ <;> intro hk <;> simp [action_prob, hk, action_prob_of_known])
  · intro h3 actor_unit target_unit hau htu hhp
    subst h3
    have hhp' : ¬ target_unit.hp < 2 := by omega
    refine ⟨?_, ?_, ?_⟩ <;> intro hk <;>
      simp [action_prob, hk, action_prob_of_known, hau, htu, hhp']

/-- Witness for C10: sabotage unit in `sample_env` against a plain diplomat
with 10 hit points is enabled and has the chance of the diplomatic battle. -/
theorem action_prob_three_outcomes_witness :
    action_prob sample_env classic_game ACTION_SPY_SABOTAGE_UNIT
        (sample_context (sample_unit 0 diplomat_type) (sample_unit 1 diplomat_type))
      = some (ap_diplomat_battle sample_env (sample_unit 0 diplomat_type)
          (sample_unit 1 diplomat_type)) :=
  ((action_prob_three_outcomes sample_env classic_game ACTION_SPY_SABOTAGE_UNIT
      (sample_context (sample_unit 0 diplomat_type) (sample_unit 1 diplomat_type))
      (by decide) (by decide)).2 rfl (sample_unit 0 diplomat_type)
      (sample_unit 1 diplomat_type) rfl rfl (by decide)).2.2 (by decide)

/-! ## Action probabilities: sentinels, deterministic actions, range -/

/-- C11.  For the actions whose formula is marked TODO, `action_prob` returns
`ACTPROB_IMPOSSIBLE`, `ACTPROB_NOT_KNOWN` or `ACTPROB_NOT_IMPLEMENTED` for the
final knowledge value `TRI_NO`, `TRI_MAYBE` or `TRI_YES` (for the steal-tech
actions the final value is `tri_and` of the local value and
`tech_can_be_stolen`, else the local value); the result is never in 1..200,
and it is `ACTPROB_NOT_IMPLEMENTED` exactly when the final value is
`TRI_YES`. -/
theorem action_prob_not_implemented (env : ActionEnv) (g : Game F)
    (wanted_action : gen_action) (c : action_context)
    (h : wanted_action = ACTION_SPY_POISON ∨ wanted_action = ACTION_SPY_SABOTAGE_CITY
      ∨ wanted_action = ACTION_SPY_TARGETED_SABOTAGE_CITY
      ∨ wanted_action = ACTION_SPY_INCITE_CITY ∨ wanted_action = ACTION_SPY_STEAL_TECH
      ∨ wanted_action = ACTION_SPY_TARGETED_STEAL_TECH) :
    ∃ known prob,
      known = (if wanted_action = ACTION_SPY_STEAL_TECH
            ∨ wanted_action = ACTION_SPY_TARGETED_STEAL_TECH then
          tri_and (action_enabled_local env wanted_action c)
            (tech_can_be_stolen env g c.actor_player c.target_player)
        else action_enabled_local env wanted_action c)
      ∧ action_prob env g wanted_action c = some prob
      ∧ (known = TRI_NO → prob = ACTPROB_IMPOSSIBLE)
      ∧ (known = TRI_MAYBE → prob = ACTPROB_NOT_KNOWN)
      ∧ (known = TRI_YES → prob = ACTPROB_NOT_IMPLEMENTED)
      ∧ (prob = ACTPROB_NOT_IMPLEMENTED ↔ known = TRI_YES)
      ∧ ¬ (1 ≤ prob ∧ prob ≤ 200) := by
  have key : ∀ k : fc_tristate,
      (k = TRI_NO → action_prob_of_known k ACTPROB_NOT_IMPLEMENTED = ACTPROB_IMPOSSIBLE)
      ∧ (k = TRI_MAYBE → action_prob_of_known k ACTPROB_NOT_IMPLEMENTED = ACTPROB_NOT_KNOWN)
      ∧ (k = TRI_YES → action_prob_of_known k ACTPROB_NOT_IMPLEMENTED
          = ACTPROB_NOT_IMPLEMENTED)
      ∧ (action_prob_of_known k ACTPROB_NOT_IMPLEMENTED = ACTPROB_NOT_IMPLEMENTED
          ↔ k = TRI_YES)
      ∧ ¬ (1 ≤ action_prob_of_known k ACTPROB_NOT_IMPLEMENTED
          ∧ action_prob_of_known k ACTPROB_NOT_IMPLEMENTED ≤ 200) := by
    intro k
    cases k <;> decide
  rcases h with h | h | h | h | h | h <;> subst h
  · exact ⟨_, _, rfl, rfl, key _⟩
  · exact ⟨_, _, rfl, rfl, key _⟩
  · exact ⟨_, _, rfl, rfl, key _⟩
  · exact ⟨_, _, rfl, rfl, key _⟩
  · exact ⟨_, _, rfl, rfl, key _⟩
  · exact ⟨_, _, rfl, rfl, key _⟩

/-- Witness for C11: poison city in `sample_env`, where the local knowledge
is `TRI_MAYBE`. -/
theorem action_prob_not_implemented_witness :
    ∃ known prob,
      known = (if ACTION_SPY_POISON = ACTION_SPY_STEAL_TECH
            ∨ ACTION_SPY_POISON = ACTION_SPY_TARGETED_STEAL_TECH then
          tri_and (action_enabled_local sample_env ACTION_SPY_POISON
              (sample_context (sample_unit 0 diplomat_type) (sample_unit 1 plain_type)))
            (tech_can_be_stolen sample_env classic_game
              (sample_context (sample_unit 0 diplomat_type)
                (sample_unit 1 plain_type)).actor_player
              (sample_context (sample_unit 0 diplomat_type)
                (sample_unit 1 plain_type)).target_player)
        else action_enabled_local sample_env ACTION_SPY_POISON
          (sample_context (sample_unit 0 diplomat_type) (sample_unit 1 plain_type)))
      ∧ action_prob sample_env classic_game ACTION_SPY_POISON
          (sample_context (sample_unit 0 diplomat_type) (sample_unit 1 plain_type))
        = some prob
      ∧ (known = TRI_NO → prob = ACTPROB_IMPOSSIBLE)
      ∧ (known = TRI_MAYBE → prob = ACTPROB_NOT_KNOWN)
      ∧ (known = TRI_YES → prob = ACTPROB_NOT_IMPLEMENTED)
      ∧ (prob = ACTPROB_NOT_IMPLEMENTED ↔ known = TRI_YES)
      ∧ ¬ (1 ≤ prob ∧ prob ≤ 200) :=
  action_prob_not_implemented sample_env classic_game ACTION_SPY_POISON
    (sample_context (sample_unit 0 diplomat_type) (sample_unit 1 plain_type)) (Or.inl rfl)

/-- C12 (failing input).  A Spy attacker at veteran level 1 (power factor
150) against a Diplomat defender at level 0 (power factor 100), without
SuperSpy flags, city or base: the chance is 50 + 25 + 50 = 125 and
`ap_diplomat_battle` returns 250, which is neither a sentinel nor below 201;
with sabotage unit locally enabled `action_prob` returns this value. -/
theorem ap_diplomat_battle_out_of_range :
    ap_diplomat_battle sample_env (veteran_unit 0 spy_type 1) (sample_unit 1 diplomat_type)
        = 250
      ∧ ¬ ((250 : action_probability) < 201)
      ∧ (250 : action_probability) ≠ ACTPROB_NOT_KNOWN
      ∧ action_prob sample_env classic_game ACTION_SPY_SABOTAGE_UNIT
          (sample_context (veteran_unit 0 spy_type 1) (sample_unit 1 diplomat_type))
        = some 250 := by
  decide

theorem is_effect_val_known_loop_false (env : ActionEnv)
    (pow_player target_player other_player : Option player) (target_city : Option city)
    (target_building target_tile : Option Nat) (target_unit : Option unit)
    (target_output target_specialist : Option Nat) (l : List effect) :
    is_effect_val_known_loop env pow_player target_player other_player target_city
        target_building target_tile target_unit target_output target_specialist l = false
      ↔ ∃ e, e ∈ l ∧ env.mke_eval_reqs pow_player target_player other_player target_city
          target_building target_tile target_unit target_output target_specialist e.reqs
        = TRI_MAYBE := by
  induction l with
  | nil => simp [is_effect_val_known_loop]
  | cons x rest ih =>
    rw [is_effect_val_known_loop]
    by_cases hx : TRI_MAYBE = env.mke_eval_reqs pow_player target_player other_player
        target_city target_building target_tile target_unit target_output target_specialist
        x.reqs
    · rw [if_pos hx]
      exact ⟨fun _ => ⟨x, List.mem_cons_self _ _, hx.symm⟩, fun _ => rfl⟩
    · rw [if_neg hx, ih]
      constructor
      · rintro ⟨e, he, hm⟩
        exact ⟨e, List.mem_cons_of_mem _ he, hm⟩
      · rintro ⟨e, he, hm⟩
        rcases List.mem_cons.1 he with h | h
        · rw [h] at hm
          exact absurd hm.symm hx
        · exact ⟨e, h, hm⟩

/-- C13.  `is_effect_val_known` is false exactly when some effect of the
type has a requirement vector that `mke_eval_reqs` evaluates to `TRI_MAYBE`
for the querying player; and when neither unit has the SuperSpy flag, the
defender has the Diplomat flag and its tile has a city for which
`is_effect_val_known(EFT_SPY_RESISTANT, ...)` is false, `ap_diplomat_battle`
returns `ACTPROB_NOT_KNOWN`. -/
theorem is_effect_val_known_iff (env : ActionEnv) :
    (∀ (etype : effect_type) (pow_player target_player other_player : Option player)
        (target_city : Option city) (target_building target_tile : Option Nat)
        (target_unit : Option unit) (target_output target_specialist : Option Nat),
      is_effect_val_known env etype pow_player target_player other_player target_city
          target_building target_tile target_unit target_output target_specialist = false
        ↔ ∃ e, e ∈ env.get_effects etype
          ∧ env.mke_eval_reqs pow_player target_player other_player target_city
              target_building target_tile target_unit target_output target_specialist
              e.reqs = TRI_MAYBE)
    ∧ (∀ (pattacker pdefender : unit) (pcity : city),
      unit_has_type_flag pattacker UTYF_SUPERSPY = false →
      unit_has_type_flag pdefender UTYF_SUPERSPY = false →
      unit_has_type_flag pdefender UTYF_DIPLOMAT = true →
      env.tile_city pdefender.tile = some pcity →
      is_effect_val_known env EFT_SPY_RESISTANT (some pattacker.owner) (some pcity.owner)
          none (some pcity) none (some pcity.tile) none none none = false →
      ap_diplomat_battle env pattacker pdefender = ACTPROB_NOT_KNOWN) := by
  constructor
  · intro etype pow_player target_player other_player target_city target_building
      target_tile target_unit target_output target_specialist
    unfold is_effect_val_known
    exact is_effect_val_known_loop_false env _ _ _ _ _ _ _ _ _ _
  · intro pattacker pdefender pcity ha hd hdip hcity hknown
    unfold ap_diplomat_battle
    simp [ha, hd, hdip, hcity, hknown]

/-- Witness for C13: in `city_env` the value of `EFT_SPY_RESISTANT` is not
known, and a diplomat attacking a diplomat in the city on tile 1 gets
`ACTPROB_NOT_KNOWN`. -/
theorem is_effect_val_known_iff_witness :
    ap_diplomat_battle city_env (sample_unit 0 diplomat_type) (sample_unit 1 diplomat_type)
      = ACTPROB_NOT_KNOWN :=
  (is_effect_val_known_iff city_env).2 (sample_unit 0 diplomat_type)
    (sample_unit 1 diplomat_type) sample_city (by decide) (by decide) (by decide) rfl
    (by decide)

/-- C14.  For establish embassy, investigate city and bribe unit,
`action_prob` returns 200 in every context in which `action_enabled_local`
is `TRI_YES`, whatever the units and the environment are. -/
theorem action_prob_deterministic (env : ActionEnv) (g : Game F)
    (wanted_action : gen_action) (c : action_context)
    (h : wanted_action = ACTION_ESTABLISH_EMBASSY
      ∨ wanted_action = ACTION_SPY_INVESTIGATE_CITY
      ∨ wanted_action = ACTION_SPY_BRIBE_UNIT)
    (hk : action_enabled_local env wanted_action c = TRI_YES) :
    action_prob env g wanted_action c = some 200 := by
  rcases h with h | h | h <;> subst h <;> simp [action_prob, hk, action_prob_of_known]

/-- Witness for C14: establish embassy in `sample_env`. -/
theorem action_prob_deterministic_witness :
    action_enabled_local sample_env ACTION_ESTABLISH_EMBASSY
        (sample_context (sample_unit 0 diplomat_type) (sample_unit 1 plain_type)) = TRI_YES
      ∧ action_prob sample_env classic_game ACTION_ESTABLISH_EMBASSY
          (sample_context (sample_unit 0 diplomat_type) (sample_unit 1 plain_type))
        = some 200 :=
  ⟨by decide,
    action_prob_deterministic sample_env classic_game ACTION_ESTABLISH_EMBASSY
      (sample_context (sample_unit 0 diplomat_type) (sample_unit 1 plain_type))
      (Or.inl rfl) (by decide)⟩

/-! ## `research_invention_set` -/

theorem research_invention_set_fst (g : Game F) (r t : Nat) (s : tech_state)
    (hv : valid_advance_by_number g t = true) :
    (research_invention_set g r t s).1 = some ((g.research_array r).inventions t).state := by
  unfold research_invention_set
  simp only [hv, Bool.not_true, Bool.false_eq_true, if_false]
  split <;> rfl

/-- The research structures after `research_invention_set` on a valid tech
are those of `set_state`. -/
theorem research_invention_set_research_array (g : Game F) (r t : Nat) (s : tech_state)
    (hv : valid_advance_by_number g t = true) :
    (research_invention_set g r t s).2.research_array = (set_state g r t s).research_array := by
  unfold research_invention_set
  simp only [hv, Bool.not_true, Bool.false_eq_true, if_false]
  by_cases hold : ((g.research_array r).inventions t).state = s
  · rw [if_pos hold]
    show g.research_array = _
    conv_lhs => rw [← set_state_self g r t]
    rw [hold]
  · rw [if_neg hold]
    by_cases hs : s = TECH_KNOWN
    · simp only [hs, if_true]
    · simp only [hs, if_false]

/-- C15.  For a valid tech `t`, `research_invention_set(R, t, s)` returns the
state `t` had before, leaves `t` in state `s`, and changes nothing else in
the research: the other fields of `inventions[t]`, the entries of the other
techs, the other fields of the research and the other researches are the
same. -/
theorem research_invention_set_spec (g : Game F) (r t : Nat) (s : tech_state)
    (hv : valid_advance_by_number g t = true) :
    (research_invention_set g r t s).1 = some ((g.research_array r).inventions t).state
    ∧ ((((research_invention_set g r t s).2).research_array r).inventions t).state = s
    ∧ research_invention_state (research_invention_set g r t s).2 (some r) t = some s
    ∧ SameDerived ((((research_invention_set g r t s).2).research_array r).inventions t)
        ((g.research_array r).inventions t)
    ∧ (∀ t', t' ≠ t →
        (((research_invention_set g r t s).2).research_array r).inventions t'
          = (g.research_array r).inventions t')
    ∧ (((research_invention_set g r t s).2).research_array r).techs_researched
        = (g.research_array r).techs_researched
    ∧ (((research_invention_set g r t s).2).research_array r).future_tech
        = (g.research_array r).future_tech
    ∧ (((research_invention_set g r t s).2).research_array r).tech_goal
        = (g.research_array r).tech_goal
    ∧ (((research_invention_set g r t s).2).research_array r).researching
        = (g.research_array r).researching
    ∧ (((research_invention_set g r t s).2).research_array r).researching_saved
        = (g.research_array r).researching_saved
    ∧ (((research_invention_set g r t s).2).research_array r).num_known_tech_with_flag
        = (g.research_array r).num_known_tech_with_flag
    ∧ (∀ k, k ≠ r →
        ((research_invention_set g r t s).2).research_array k = g.research_array k) := by
  have hra := research_invention_set_research_array g r t s hv
  have hval : valid_advance_by_number (research_invention_set g r t s).2 t = true := by
    unfold research_invention_set
    simp only [hv, Bool.not_true, Bool.false_eq_true, if_false]
    split
    · exact hv
    · split <;> exact hv
  refine ⟨research_invention_set_fst g r t s hv, ?_, ?_, ?_, ?_, ?_, ?_, ?_, ?_, ?_, ?_, ?_⟩
  · rw [hra]
    simp [set_state]
  · rw [research_invention_state_some, if_pos hval, hra]
    simp [set_state]
  · rw [hra]
    simp [set_state, SameDerived]
  · intro t' ht'
    rw [hra]
    simp [set_state, Function.update_noteq ht']
  · rw [hra]
    simp [set_state]
  · rw [hra]
    simp [set_state]
  · rw [hra]
    simp [set_state]
  · rw [hra]
    simp [set_state]
  · rw [hra]
    simp [set_state]
  · rw [hra]
    simp [set_state]
  · intro k hk
    rw [hra]
    simp [set_state, Function.update_noteq hk]

/-- Witness for C15: setting tech 3 of `classic_game` to `TECH_KNOWN` returns
`TECH_UNKNOWN` and leaves the tech known. -/
theorem research_invention_set_spec_witness :
    (research_invention_set classic_game 0 3 TECH_KNOWN).1 = some TECH_UNKNOWN
      ∧ research_invention_state (research_invention_set classic_game 0 3 TECH_KNOWN).2
          (some 0) 3 = some TECH_KNOWN :=
  ⟨(research_invention_set_spec classic_game 0 3 TECH_KNOWN (by decide)).1,
    (research_invention_set_spec classic_game 0 3 TECH_KNOWN (by decide)).2.2.1⟩

/-! ## The global "known by someone" flags -/

theorem research_invention_set_global_mono (g : Game F) (r t : Nat) (s : tech_state)
    (u : Nat) (hu : g.info.global_advances u = true) :
    (research_invention_set g r t s).2.info.global_advances u = true := by
  unfold research_invention_set
  by_cases hv : valid_advance_by_number g t = true
  · simp only [hv, Bool.not_true, Bool.false_eq_true, if_false]
    by_cases hold : ((g.research_array r).inventions t).state = s
    · rw [if_pos hold]
      exact hu
    · rw [if_neg hold]
      by_cases hs : s = TECH_KNOWN
      · simp only [hs, if_true]
        show Function.update g.info.global_advances t true u = true
        by_cases hut : u = t
        · rw [hut, Function.update_same]
        · rw [Function.update_noteq hut]
          exact hu
      · simp only [hs, if_false]
        exact hu
  · have hv' : valid_advance_by_number g t = false := by
      simpa using hv
    simp only [hv', Bool.not_false, if_true]
    exact hu

theorem update_tech_state_info (g : Game F) (r i : Nat) (reach : Bool) :
    (update_tech_state g r i reach).info = g.info := by
  obtain ⟨s, hs, _⟩ := update_tech_state_spec g r i reach
  rw [hs]
  rfl

theorem add_requirement_info (g g' : Game F) (r i j : Nat)
    (h : add_requirement g r i j = some g') : g'.info = g.info := by
  unfold add_requirement at h
  simp only at h
  split at h
  · cases h
  · rw [← Option.some.inj h]
    split <;> rfl

theorem add_requirements_info (r i : Nat) (js : List Nat) :
    ∀ g g' : Game F, add_requirements r i g js = some g' → g'.info = g.info := by
  induction js with
  | nil =>
    intro g g' h
    rw [add_requirements] at h
    rw [← Option.some.inj h]
  | cons j js ih =>
    intro g g' h
    rw [add_requirements] at h
    split at h
    · cases h
    · rename_i g1 h1
      rw [ih g1 g' h, add_requirement_info g g1 r i j h1]

theorem update_derived_info (g g' : Game F) (r i : Nat)
    (h : update_derived g r i = some g') : g'.info = g.info := by
  unfold update_derived at h
  simp only at h
  split at h
  · rw [← Option.some.inj h]
    rfl
  · split at h
    · cases h
    · rename_i g2 h2
      rw [← Option.some.inj h]
      have h3 := add_requirements_info r i _ _ g2 h2
      exact h3

theorem research_update_tech_info (g g' : Game F) (r i : Nat)
    (h : research_update_tech g r i = some g') : g'.info = g.info := by
  unfold research_update_tech at h
  split at h
  · cases h
  · rw [update_derived_info _ g' r i h, update_tech_state_info]

theorem research_update_techs_info (r : Nat) (is : List Nat) :
    ∀ g g' : Game F, research_update_techs r g is = some g' → g'.info = g.info := by
  induction is with
  | nil =>
    intro g g' h
    rw [research_update_techs] at h
    rw [← Option.some.inj h]
  | cons i rest ih =>
    intro g g' h
    rw [research_update_techs] at h
    split at h
    · cases h
    · rename_i g1 h1
      rw [ih g1 g' h, research_update_tech_info g g1 r i h1]

/-- A call of `research_update` that returns leaves `game.info` unchanged. -/
theorem research_update_info (g g' : Game F) (r : Nat) (h : research_update g r = some g') :
    g'.info = g.info := by
  unfold research_update at h
  split at h
  · cases h
  · rename_i g1 h1
    rw [← Option.some.inj h]
    exact research_update_techs_info r _ g g1 h1

theorem research_invention_set_known_is_global (g : Game F) (r t : Nat) (s : tech_state)
    (hinv : KnownIsGlobal g) : KnownIsGlobal (research_invention_set g r t s).2 := by
  intro k u hk
  by_cases hv : valid_advance_by_number g t = true
  · have harr := research_invention_set_research_array g r t s hv
    rw [harr] at hk
    by_cases hsame : k = r ∧ u = t
    · obtain ⟨hkr, hut⟩ := hsame
      subst hkr
      subst hut
      rw [set_state_state] at hk
      subst hk
      unfold research_invention_set
      simp only [hv, Bool.not_true, Bool.false_eq_true, if_false]
      by_cases hold : ((g.research_array k).inventions u).state = TECH_KNOWN
      · rw [if_pos hold]
        exact hinv k u hold
      · rw [if_neg hold]
        simp only [if_true]
        show Function.update g.info.global_advances u true u = true
        rw [Function.update_same]
    · apply research_invention_set_global_mono
      apply hinv k u
      have hst : (((set_state g r t s).research_array k).inventions u).state
          = ((g.research_array k).inventions u).state := by
        unfold set_state
        by_cases hkr : k = r
        · subst hkr
          have hut : u ≠ t := fun e => hsame ⟨rfl, e⟩
          simp only [Function.update_same, Function.update_noteq hut]
        · simp only [Function.update_noteq hkr]
      rw [← hst]
      exact hk
  · have hv' : valid_advance_by_number g t = false := by
      simpa using hv
    have hg : (research_invention_set g r t s).2 = g := by
      unfold research_invention_set
      simp only [hv', Bool.not_false, if_true]
    rw [hg] at hk ⊢
    exact hinv k u hk

theorem research_update_techs_no_new_known (r : Nat) (is : List Nat) :
    ∀ g : Game F, Acyclic g →
      ∃ g', research_update_techs r g is = some g'
        ∧ g'.info = g.info
        ∧ ∀ k t, ((g'.research_array k).inventions t).state = TECH_KNOWN →
            ((g.research_array k).inventions t).state = TECH_KNOWN := by
  induction is with
  | nil =>
    intro g _
    exact ⟨g, rfl, rfl, fun _ _ h => h⟩
  | cons i rest ih =>
    intro g hacyc
    obtain ⟨reach, inv', _, h1, hk, _, _⟩ := research_update_tech_spec g r i hacyc
    obtain ⟨g', h2, hinfo, hsub⟩ :=
      ih (with_invention g r i inv' (g.research_array r).techs_researched)
        (acyclic_with_invention g r i inv' _ hacyc)
    refine ⟨g', by rw [research_update_techs, h1]; exact h2, hinfo, ?_⟩
    intro k t hK
    have h3 := hsub k t hK
    by_cases hkr : k = r
    · subst hkr
      rw [with_invention_research] at h3
      by_cases hti : t = i
      · subst hti
        simp only [Function.update_same] at h3
        exact (hk.1 h3).1
      · simp only [Function.update_noteq hti] at h3
        exact h3
    · rw [with_invention_other g r i inv' _ k hkr] at h3
      exact h3

theorem research_update_known_is_global (g : Game F) (r : Nat) (hacyc : Acyclic g)
    (hinv : KnownIsGlobal g) :
    ∃ g', research_update g r = some g' ∧ KnownIsGlobal g' := by
  obtain ⟨g1, h1, hinfo, hsub⟩ := research_update_techs_no_new_known r
    (List.range' A_FIRST (advance_count g - A_FIRST)) g hacyc
  refine ⟨update_flag_counts g1 r, by rw [research_update, h1], ?_⟩
  intro k t hK
  have hflag : (update_flag_counts g1 r).info = g.info := hinfo
  rw [hflag]
  apply hinv k t
  apply hsub k t
  by_cases hkr : k = r
  · subst hkr
    rw [update_flag_counts_inventions] at hK
    exact hK
  · have hother : (update_flag_counts g1 r).research_array k = g1.research_array k := by
      simp [update_flag_counts, modify_research, hkr]
    rw [hother] at hK
    exact hK

theorem researches_init_known_is_global (g : Game F) (state_zero : tech_state)
    (hzero : state_zero ≠ TECH_KNOWN) : KnownIsGlobal (researches_init state_zero g) := by
  intro k t hK
  unfold researches_init at hK ⊢
  by_cases ht : t = A_NONE
  · subst ht
    simp only [Function.update_same]
  · simp only [Function.update_noteq ht] at hK
    exact absurd hK hzero

/-- C16.  In a state in which every tech that is `TECH_KNOWN` in a research
has its entry of `global_advances` set, after a call
`research_invention_set(R, T, TECH_KNOWN)` on a valid tech `global_advances[T]`
is true; no call of `research_invention_set` changes an entry of
`global_advances` from true to false, and a call of `research_update` that
returns leaves `global_advances` as it was.  The states of the program are
such states: `researches_init` leaves one, whatever `game.info` held, when
the state with the value 0 is not `TECH_KNOWN`, every call of
`research_invention_set` leads from one to one, and so does `research_update`,
which returns when the requirement graph is acyclic. -/
theorem research_invention_set_global (g : Game F) (r : Nat) :
    (∀ T, valid_advance_by_number g T = true → KnownIsGlobal g →
      (research_invention_set g r T TECH_KNOWN).2.info.global_advances T = true)
    ∧ (∀ t s u, g.info.global_advances u = true →
      (research_invention_set g r t s).2.info.global_advances u = true)
    ∧ (∀ g', research_update g r = some g' →
      g'.info.global_advances = g.info.global_advances)
    ∧ (∀ state_zero, state_zero ≠ TECH_KNOWN →
      KnownIsGlobal (researches_init state_zero g))
    ∧ (∀ t s, KnownIsGlobal g → KnownIsGlobal (research_invention_set g r t s).2)
    ∧ (Acyclic g → KnownIsGlobal g →
      ∃ g', research_update g r = some g' ∧ KnownIsGlobal g') := by
  refine ⟨?_, ?_, ?_, ?_, ?_, ?_⟩
  · intro T hv hinv
    unfold research_invention_set
    simp only [hv, Bool.not_true, Bool.false_eq_true, if_false]
    by_cases hold : ((g.research_array r).inventions T).state = TECH_KNOWN
    · rw [if_pos hold]
      exact hinv r T hold
    · rw [if_neg hold]
      simp only [if_true]
      show Function.update g.info.global_advances T true T = true
      rw [Function.update_same]
  · intro t s u hu
    exact research_invention_set_global_mono g r t s u hu
  · intro g' h
    rw [research_update_info g g' r h]
  · intro state_zero hzero
    exact researches_init_known_is_global g state_zero hzero
  · intro t s hinv
    exact research_invention_set_known_is_global g r t s hinv
  · intro hacyc hinv
    exact research_update_known_is_global g r hacyc hinv

/-- Witness for C16: in `fresh_game`, the state `researches_init` leaves, tech
3 is made known in research 0, which sets its flag; a second call with
`TECH_KNOWN`, which finds the tech known and changes nothing, leaves the
flag set. -/
theorem research_invention_set_global_witness :
    KnownIsGlobal fresh_game
      ∧ fresh_game.info.global_advances 3 = false
      ∧ (research_invention_set fresh_game 0 3 TECH_KNOWN).2.info.global_advances 3 = true
      ∧ ((research_invention_set fresh_game 0 3 TECH_KNOWN).2.research_array 0).inventions 3
        = { state := TECH_KNOWN, required_techs := fun _ => false, num_required_techs := 0,
            bulbs_required := 0 }
      ∧ (research_invention_set (research_invention_set fresh_game 0 3 TECH_KNOWN).2
          0 3 TECH_KNOWN).2.info.global_advances 3 = true :=
  ⟨(research_invention_set_global _ 0).2.2.2.1 TECH_UNKNOWN (by decide),
    by decide,
    (research_invention_set_global fresh_game 0).1 3 (by decide)
      ((research_invention_set_global _ 0).2.2.2.1 TECH_UNKNOWN (by decide)),
    rfl,
    (research_invention_set_global (research_invention_set fresh_game 0 3 TECH_KNOWN).2 0).1
      3 (by decide)
      ((research_invention_set_global fresh_game 0).2.2.2.2.1 3 TECH_KNOWN
        ((research_invention_set_global _ 0).2.2.2.1 TECH_UNKNOWN (by decide)))⟩

/-! ## `research_invention_gettable` with `reachable_ok` -/

/-- C19.  With `reachable_ok = TRUE`, `research_invention_gettable` is true
exactly when the tech is valid and its root requirement is `A_NONE` or
`TECH_KNOWN` in the research, whatever the states of `AR_ONE` and `AR_TWO`
are; and when it is true with `reachable_ok = FALSE` it is true with
`reachable_ok = TRUE`. -/
theorem gettable_reachable_ok (g : Game F) (presearch : Option Nat) (tech : Nat) :
    research_invention_gettable g presearch tech true
      = (valid_advance_by_number g tech
        && (decide (advance_required g tech AR_ROOT = A_NONE)
          || decide (research_invention_state g presearch (advance_required g tech AR_ROOT)
              = some TECH_KNOWN)))
    ∧ (research_invention_gettable g presearch tech false = true →
        research_invention_gettable g presearch tech true = true) := by
  constructor
  · unfold research_invention_gettable
    by_cases hv : valid_advance_by_number g tech = true
    · by_cases hroot : advance_required g tech AR_ROOT = A_NONE
      · simp [hv, hroot]
      · by_cases hk : research_invention_state g presearch (advance_required g tech AR_ROOT)
            = some TECH_KNOWN
        · simp [hv, hroot, hk]
        · simp [hv, hroot, hk]
    · have hv' : valid_advance_by_number g tech = false := by
        simpa using hv
      simp [hv']
  · unfold research_invention_gettable
    by_cases hv : valid_advance_by_number g tech = true
    · by_cases hroot : advance_required g tech AR_ROOT ≠ A_NONE
          ∧ research_invention_state g presearch (advance_required g tech AR_ROOT)
            ≠ some TECH_KNOWN
      · simp [hv, hroot]
      · simp [hv, hroot]
    · have hv' : valid_advance_by_number g tech = false := by
        simpa using hv
      simp [hv']

/-- Witness for C19: in `holes_game` with tech 2 set to `TECH_UNKNOWN`, tech 1
requires the unknown tech 2 but has no root requirement; it is gettable with
`reachable_ok = TRUE` and not with `reachable_ok = FALSE`. -/
theorem gettable_reachable_ok_witness :
    research_invention_gettable (set_state holes_game 0 2 TECH_UNKNOWN) (some 0) 1 true = true
      ∧ research_invention_gettable (set_state holes_game 0 2 TECH_UNKNOWN) (some 0) 1 false
        = false
      ∧ (research_invention_gettable classic_game (some 0) 3 false = true →
        research_invention_gettable classic_game (some 0) 3 true = true) :=
  ⟨(gettable_reachable_ok (set_state holes_game 0 2 TECH_UNKNOWN) (some 0) 1).1.trans
      (by decide),
    by decide, (gettable_reachable_ok classic_game (some 0) 3).2⟩

/-! ## `research_invention_reachable`: structure and termination -/

theorem reachable_fuel_mono (g : Game F) (p : Option Nat) :
    ∀ n t b, reachable_fuel g p n t = some b → reachable_fuel g p (n + 1) t = some b := by
  intro n
  induction n with
  | zero =>
    intro t b h
    rw [reachable_fuel] at h
    cases h
  | succ n ih =>
    intro t b h
    rw [reachable_fuel_succ] at h ⊢
    by_cases hv : valid_advance_by_number g t = true
    · rw [if_pos hv] at h ⊢
      by_cases hroot : A_NONE ≠ advance_required g t AR_ROOT
      · rw [if_pos hroot] at h ⊢
        by_cases hself : advance_required g t AR_ROOT = t
        · rw [if_pos hself] at h ⊢
          exact h
        · rw [if_neg hself] at h ⊢
          cases h1 : reachable_fuel g p n (advance_required g t AR_ROOT) with
          | none =>
            rw [h1] at h
            cases h
          | some b1 =>
            rw [h1] at h
            rw [ih _ _ h1]
            cases b1 with
            | false => exact h
            | true =>
              simp only at h ⊢
              cases h2 : reachable_fuel g p n (advance_required g t AR_ONE) with
              | none =>
                rw [h2] at h
                cases h
              | some b2 =>
                rw [h2] at h
                rw [ih _ _ h2]
                cases b2 with
                | false => exact h
                | true =>
                  simp only at h ⊢
                  exact ih _ _ h
      · rw [if_neg hroot] at h ⊢
        exact h
    · rw [if_neg hv] at h ⊢
      exact h

theorem reachable_fuel_mono_le (g : Game F) (p : Option Nat) (t : Nat) (b : Bool) (n : Nat)
    (h : reachable_fuel g p n t = some b) :
    ∀ m, n ≤ m → reachable_fuel g p m t = some b := by
  intro m hm
  induction m with
  | zero =>
    have : n = 0 := by omega
    rw [this] at h
    exact h
  | succ m ih =>
    by_cases hn : n = m + 1
    · rw [hn] at h
      exact h
    · exact reachable_fuel_mono g p m t b (ih (by omega))

/-- C17 (amended).  For a valid tech `t`: if the root requirement of `t` is
neither `A_NONE` nor `t` itself, then `research_invention_reachable(R, t)`
true implies that the root requirement, `AR_ONE` of `t` and `AR_TWO` of `t` are
reachable; if `t` is its own root (and not `A_NONE`), `t` is reachable exactly
when it is `TECH_KNOWN`; if the root requirement is `A_NONE`, `t` is
reachable whatever its requirements are. -/
theorem reachable_requirements (g : Game F) (p : Option Nat) (t : Nat)
    (hv : valid_advance_by_number g t = true) :
    (advance_required g t AR_ROOT ≠ A_NONE → advance_required g t AR_ROOT ≠ t →
      research_invention_reachable g p t = some true →
      research_invention_reachable g p (advance_required g t AR_ROOT) = some true
      ∧ research_invention_reachable g p (advance_required g t AR_ONE) = some true
      ∧ research_invention_reachable g p (advance_required g t AR_TWO) = some true)
    ∧ (advance_required g t AR_ROOT ≠ A_NONE → advance_required g t AR_ROOT = t →
      (research_invention_reachable g p t = some true
        ↔ research_invention_state g p t = some TECH_KNOWN)
      ∧ (research_invention_reachable g p t = some false
        ↔ research_invention_state g p t ≠ some TECH_KNOWN))
    ∧ (advance_required g t AR_ROOT = A_NONE →
      research_invention_reachable g p t = some true) := by
  refine ⟨?_, ?_, ?_⟩
  · intro hroot hself h
    unfold research_invention_reachable at h ⊢
    rw [reachable_fuel_succ, if_pos hv, if_pos (Ne.symm hroot), if_neg hself] at h
    cases h1 : reachable_fuel g p (advance_count g) (advance_required g t AR_ROOT) with
    | none =>
      rw [h1] at h
      cases h
    | some b1 =>
      rw [h1] at h
      cases b1 with
      | false => cases h
      | true =>
        simp only at h
        cases h2 : reachable_fuel g p (advance_count g) (advance_required g t AR_ONE) with
        | none =>
          rw [h2] at h
          cases h
        | some b2 =>
          rw [h2] at h
          cases b2 with
          | false => cases h
          | true =>
            simp only at h
            exact ⟨reachable_fuel_mono g p _ _ _ h1, reachable_fuel_mono g p _ _ _ h2,
              reachable_fuel_mono g p _ _ _ h⟩
  · intro hroot hself
    have hne : A_NONE ≠ t := by
      rw [hself] at hroot
      exact Ne.symm hroot
    rw [reachable_self_root g p t hv hself hne]
    constructor
    · constructor
      · intro h
        have := Option.some.inj h
        simp only [decide_eq_true_eq] at this
        exact this.symm
      · intro h
        rw [h]
        rfl
    · constructor
      · intro h hk
        rw [hk] at h
        cases h
      · intro h
        have : ¬ (some TECH_KNOWN = research_invention_state g p t) := fun hh => h hh.symm
        simp [this]
  · intro hroot
    unfold research_invention_reachable
    rw [reachable_fuel_succ, if_pos hv, if_neg (by rw [hroot]; exact fun h => h rfl)]

/-- Witness for C17: in `holes_game` with tech 3 set to `TECH_KNOWN`, tech 2
(root requirement 3) is reachable and so are its root and its two
requirements; in `holes_game` tech 4 is its own root and known, hence
reachable, and tech 1 has no root requirement and is reachable. -/
theorem reachable_requirements_witness :
    research_invention_reachable (set_state holes_game 0 3 TECH_KNOWN) (some 0) 2 = some true
      ∧ (research_invention_reachable (set_state holes_game 0 3 TECH_KNOWN) (some 0)
            (advance_required (set_state holes_game 0 3 TECH_KNOWN) 2 AR_ROOT) = some true
        ∧ research_invention_reachable (set_state holes_game 0 3 TECH_KNOWN) (some 0)
            (advance_required (set_state holes_game 0 3 TECH_KNOWN) 2 AR_ONE) = some true
        ∧ research_invention_reachable (set_state holes_game 0 3 TECH_KNOWN) (some 0)
            (advance_required (set_state holes_game 0 3 TECH_KNOWN) 2 AR_TWO) = some true)
      ∧ (research_invention_reachable holes_game (some 0) 4 = some true
        ↔ research_invention_state holes_game (some 0) 4 = some TECH_KNOWN)
      ∧ research_invention_reachable holes_game (some 0) 1 = some true :=
  ⟨by decide,
    (reachable_requirements (set_state holes_game 0 3 TECH_KNOWN) (some 0) 2 (by decide)).1
      (by decide) (by decide) (by decide),
    ((reachable_requirements holes_game (some 0) 4 (by decide)).2.1 (by decide)
      (by decide)).1,
    (reachable_requirements holes_game (some 0) 1 (by decide)).2.2 (by decide)⟩

/-- Counterexample to C17 as stated, in `holes_game`: tech 1 (valid, no root
requirement) is reachable although its requirement `AR_ONE`, tech 2, is not;
tech 4 (valid, its own root, known) is reachable although its requirement
`AR_ONE`, tech 2, is not. -/
theorem reachable_with_unreachable_requirement :
    valid_advance_by_number holes_game 1 = true
      ∧ research_invention_reachable holes_game (some 0) 1 = some true
      ∧ research_invention_reachable holes_game (some 0)
          (advance_required holes_game 1 AR_ONE) = some false
      ∧ valid_advance_by_number holes_game 4 = true
      ∧ research_invention_reachable holes_game (some 0) 4 = some true
      ∧ research_invention_reachable holes_game (some 0)
          (advance_required holes_game 4 AR_ONE) = some false := by
  decide

/-- C18.  With an acyclic requirement graph `research_invention_reachable`
returns for every research and every tech number, with the same result for
every larger bound on the recursion depth; for an invalid tech number it
returns false at depth 1, without a recursive call. -/
theorem reachable_terminates (g : Game F) (p : Option Nat) :
    (Acyclic g → ∀ t, ∃ b, research_invention_reachable g p t = some b
      ∧ ∀ fuel, advance_count g + 1 ≤ fuel → reachable_fuel g p fuel t = some b)
    ∧ (∀ t, valid_advance_by_number g t = false →
      research_invention_reachable g p t = some false
      ∧ ∀ fuel, reachable_fuel g p (fuel + 1) t = some false) := by
  constructor
  · intro hacyc t
    obtain ⟨b, hb⟩ := reachable_isSome g p hacyc t
    exact ⟨b, hb, reachable_fuel_mono_le g p t b _ hb⟩
  · intro t hv
    have h : ∀ fuel, reachable_fuel g p (fuel + 1) t = some false := by
      intro fuel
      rw [reachable_fuel_succ, if_neg (by rw [hv]; exact Bool.false_ne_true)]
    exact ⟨h _, h⟩

/-- Witness for C18: the theorem at `scenario_game`, for tech 1 and for the
invalid tech number 7. -/
theorem reachable_terminates_witness :
    (∃ b, research_invention_reachable scenario_game (some 0) 1 = some b
        ∧ ∀ fuel, advance_count scenario_game + 1 ≤ fuel →
          reachable_fuel scenario_game (some 0) fuel 1 = some b)
      ∧ research_invention_reachable scenario_game (some 0) 7 = some false :=
  ⟨(reachable_terminates scenario_game (some 0)).1 scenario_acyclic 1,
    ((reachable_terminates scenario_game (some 0)).2 7 (by decide)).1⟩

/-! ## `research_update`: the resulting tech states -/

theorem research_invention_state_set_state_known (g : Game F) (r i : Nat) (s : tech_state)
    (hs : s ≠ TECH_KNOWN) (hold : ((g.research_array r).inventions i).state ≠ TECH_KNOWN)
    (j : Nat) :
    research_invention_state (set_state g r i s) (some r) j = some TECH_KNOWN
      ↔ research_invention_state g (some r) j = some TECH_KNOWN := by
  rw [set_state_eq_with_invention]
  by_cases hj : j = i
  · subst hj
    rw [research_invention_state_with_invention_same, research_invention_state_some]
    by_cases hv : valid_advance_by_number g j = true
    · rw [if_pos hv, if_pos hv]
      constructor
      · intro h
        exact absurd (Option.some.inj h) hs
      · intro h
        exact absurd (Option.some.inj h) hold
    · rw [if_neg hv, if_neg hv]
  · rw [research_invention_state_with_invention_other _ _ _ _ _ _ hj]

/-- When the first part of the loop body of `research_update` leaves a valid
tech in state `TECH_PREREQS_KNOWN`: the tech is reachable and not known, and
both its requirements are known. -/
theorem update_tech_state_prereqs (g : Game F) (r i : Nat) (reach : Bool)
    (hv : valid_advance_by_number g i = true) :
    (((update_tech_state g r i reach).research_array r).inventions i).state
        = TECH_PREREQS_KNOWN
      ↔ reach = true ∧ ((g.research_array r).inventions i).state ≠ TECH_KNOWN
        ∧ research_invention_state g (some r) (advance_required g i AR_ONE) = some TECH_KNOWN
        ∧ research_invention_state g (some r) (advance_required g i AR_TWO)
          = some TECH_KNOWN := by
  have hU : TECH_UNKNOWN ≠ TECH_KNOWN := by decide
  have hP : TECH_PREREQS_KNOWN ≠ TECH_KNOWN := by decide
  unfold update_tech_state
  cases reach with
  | false =>
    simp only [Bool.not_false, if_true]
    rw [research_invention_set_game g r i _ hU, if_pos hv, set_state_state]
    simp
  | true =>
    simp only [Bool.not_true, Bool.false_eq_true, if_false]
    rw [research_invention_set_game g r i _ hU, if_pos hv]
    rw [research_invention_state_some g r i, if_pos hv]
    cases hold : ((g.research_array r).inventions i).state with
    | TECH_KNOWN =>
      simp only [Option.some.injEq, reduceCtorEq, if_false]
      rw [research_invention_state_some g r i, if_pos hv, hold]
      simp only [Option.some.injEq, reduceCtorEq, false_and, if_false, hold]
      simp
    | TECH_PREREQS_KNOWN =>
      simp only [if_true]
      have hk := research_invention_state_set_state_known g r i TECH_UNKNOWN hU
        (by rw [hold]; exact hP)
      have hst : research_invention_state (set_state g r i TECH_UNKNOWN) (some r) i
          = some TECH_UNKNOWN := by
        rw [research_invention_state_some, valid_set_state, if_pos hv, set_state_state]
      have hadv : ∀ q, advance_required (set_state g r i TECH_UNKNOWN) i q
          = advance_required g i q := fun _ => rfl
      rw [hst, hadv, hadv]
      by_cases hc : some TECH_KNOWN = research_invention_state (set_state g r i TECH_UNKNOWN)
            (some r) (advance_required g i AR_ONE)
          ∧ some TECH_KNOWN = research_invention_state (set_state g r i TECH_UNKNOWN)
            (some r) (advance_required g i AR_TWO)
      · rw [if_pos ⟨rfl, hc⟩, research_invention_set_game _ r i _ hP, valid_set_state,
          if_pos hv, set_state_set_state, set_state_state]
        exact ⟨fun _ => ⟨trivial, hP, (hk _).1 hc.1.symm, (hk _).1 hc.2.symm⟩, fun _ => rfl⟩
      · rw [if_neg (fun h => hc h.2), set_state_state]
        simp only [reduceCtorEq, true_and, ne_eq, not_false_eq_true, false_iff, not_and]
        intro h1 h2
        exact hc ⟨((hk _).2 h1).symm, ((hk _).2 h2).symm⟩
    | TECH_UNKNOWN =>
      simp only [Option.some.injEq, reduceCtorEq, if_false]
      rw [research_invention_state_some g r i, if_pos hv, hold]
      by_cases hc : some TECH_KNOWN = research_invention_state g (some r)
            (advance_required g i AR_ONE)
          ∧ some TECH_KNOWN = research_invention_state g (some r)
            (advance_required g i AR_TWO)
      · rw [if_pos ⟨rfl, hc⟩, research_invention_set_game _ r i _ hP, if_pos hv,
          set_state_state]
        exact ⟨fun _ => ⟨trivial, hU, hc.1.symm, hc.2.symm⟩, fun _ => rfl⟩
      · rw [if_neg (fun h => hc h.2), hold]
        simp only [reduceCtorEq, true_and, ne_eq, not_false_eq_true, false_iff, not_and]
        intro h1 h2
        exact hc ⟨h1.symm, h2.symm⟩

theorem research_invention_state_congr_inv (g g' : Game F) (r t : Nat)
    (hadv : g'.advances = g.advances)
    (hinv : (g'.research_array r).inventions t = (g.research_array r).inventions t) :
    research_invention_state g' (some r) t = research_invention_state g (some r) t := by
  rw [research_invention_state_some, research_invention_state_some, valid_congr g g' hadv,
    hinv]

theorem reachable_invalid (g : Game F) (p : Option Nat) (t : Nat)
    (hv : ¬ valid_advance_by_number g t = true) :
    research_invention_reachable g p t = some false := by
  unfold research_invention_reachable
  rw [reachable_fuel_succ, if_neg hv]

/-- One pass of the loop body of `research_update`, with the resulting state
of tech `i`. -/
theorem research_update_tech_state (g : Game F) (r i : Nat) (hacyc : Acyclic g) :
    ∃ reach inv', research_invention_reachable g (some r) i = some reach
      ∧ research_update_tech g r i
        = some (with_invention g r i inv' (g.research_array r).techs_researched)
      ∧ (inv'.state = TECH_KNOWN ↔ (((g.research_array r).inventions i).state = TECH_KNOWN
          ∧ (valid_advance_by_number g i = true → reach = true)))
      ∧ (valid_advance_by_number g i = true →
          (inv'.state = TECH_PREREQS_KNOWN
            ↔ reach = true ∧ ((g.research_array r).inventions i).state ≠ TECH_KNOWN
              ∧ research_invention_state g (some r) (advance_required g i AR_ONE)
                = some TECH_KNOWN
              ∧ research_invention_state g (some r) (advance_required g i AR_TWO)
                = some TECH_KNOWN)) := by
  obtain ⟨reach, hreach⟩ := reachable_isSome g (some r) hacyc i
  obtain ⟨s, hs, hk, _, _⟩ := update_tech_state_spec g r i reach
  obtain ⟨inv', h1, h2⟩ := update_derived_nf g r i hacyc
    { (g.research_array r).inventions i with state := s }
    (g.research_array r).techs_researched
  refine ⟨reach, inv', hreach, ?_, ?_, ?_⟩
  · unfold research_update_tech
    rw [hreach]
    simp only
    rw [hs, set_state_eq_with_invention, h1]
  · rw [h2]
    exact hk
  · intro hv
    have hp := update_tech_state_prereqs g r i reach hv
    rw [hs, set_state_state] at hp
    rw [h2]
    exact hp

/-- The tech states after the first loop of `research_update` over an
increasing list of techs: a tech of the list is known afterwards exactly when
it was known and reachable, and it is `TECH_PREREQS_KNOWN` afterwards exactly
when it is reachable and not known and each of its two requirements was known
when the loop came to it: afterwards for a requirement with a lower number,
before the loop for the others. -/
theorem research_update_techs_states (r : Nat) (is : List Nat) :
    ∀ g : Game F, Acyclic g → is.Pairwise (fun a b => a < b) →
      ∃ g', research_update_techs r g is = some g'
        ∧ g'.advances = g.advances
        ∧ (∀ t, t ∉ is →
            (g'.research_array r).inventions t = (g.research_array r).inventions t)
        ∧ (∀ t, research_invention_reachable g' (some r) t
            = research_invention_reachable g (some r) t)
        ∧ (∀ t, t ∈ is →
            (research_invention_state g' (some r) t = some TECH_KNOWN
              ↔ research_invention_state g (some r) t = some TECH_KNOWN
                ∧ research_invention_reachable g (some r) t = some true))
        ∧ (∀ t, t ∈ is →
            (research_invention_state g' (some r) t = some TECH_PREREQS_KNOWN
              ↔ research_invention_reachable g (some r) t = some true
                ∧ research_invention_state g' (some r) t ≠ some TECH_KNOWN
                ∧ research_invention_state
                    (if advance_required g t AR_ONE < t then g' else g) (some r)
                    (advance_required g t AR_ONE) = some TECH_KNOWN
                ∧ research_invention_state
                    (if advance_required g t AR_TWO < t then g' else g) (some r)
                    (advance_required g t AR_TWO) = some TECH_KNOWN)) := by
  induction is with
  | nil =>
    intro g _ _
    refine ⟨g, rfl, rfl, fun _ _ => rfl, fun _ => rfl, ?_, ?_⟩
    · intro t ht
      cases ht
    · intro t ht
      cases ht
  | cons i rest ih =>
    intro g hacyc hpw
    have hpw' := List.pairwise_cons.1 hpw
    have hnot : i ∉ rest := fun h => Nat.lt_irrefl i (hpw'.1 i h)
    obtain ⟨reach, inv', hreach, hstep, hk, hp⟩ := research_update_tech_state g r i hacyc
    obtain ⟨g', h1, hadv, hframe, hre, hK, hP⟩ :=
      ih (with_invention g r i inv' (g.research_array r).techs_researched)
        (acyclic_with_invention g r i _ _ hacyc) hpw'.2
    have hre1 := reachable_after_update_tech g r i reach inv'
      (g.research_array r).techs_researched hreach hk
    have hadv' : g'.advances = g.advances := by
      rw [hadv]
      rfl
    -- the state of a tech other than `i` after the pass for `i`
    have hst1 : ∀ t, t ≠ i →
        research_invention_state
            (with_invention g r i inv' (g.research_array r).techs_researched) (some r) t
          = research_invention_state g (some r) t :=
      fun t ht => research_invention_state_with_invention_other g r i inv' _ t ht
    -- the state of tech `i` at the end
    have hsti : research_invention_state g' (some r) i
        = if valid_advance_by_number g i = true then some inv'.state else none := by
      rw [research_invention_state_congr_inv _ g' r i hadv (hframe i hnot)]
      exact research_invention_state_with_invention_same g r i inv' _
    -- a tech outside the list keeps its state
    have hout : ∀ t, t ∉ i :: rest →
        research_invention_state g' (some r) t = research_invention_state g (some r) t := by
      intro t ht
      have hti : t ≠ i := fun h => ht (by rw [h]; exact List.mem_cons_self _ _)
      have htr : t ∉ rest := fun h => ht (List.mem_cons_of_mem _ h)
      rw [research_invention_state_congr_inv _ g' r t hadv (hframe t htr)]
      exact hst1 t hti
    -- known afterwards: known before and reachable
    have hKall : ∀ t, t ∈ i :: rest →
        (research_invention_state g' (some r) t = some TECH_KNOWN
          ↔ research_invention_state g (some r) t = some TECH_KNOWN
            ∧ research_invention_reachable g (some r) t = some true) := by
      intro t ht
      rcases List.mem_cons.1 ht with hti | htr
      · subst hti
        rw [hsti, research_invention_state_known, hreach]
        by_cases hv : valid_advance_by_number g t = true
        · rw [if_pos hv]
          constructor
          · intro h
            have := hk.1 (Option.some.inj h)
            exact ⟨⟨hv, this.1⟩, by rw [this.2 hv]⟩
          · rintro ⟨⟨_, hold⟩, hr⟩
            rw [hk.2 ⟨hold, fun _ => Option.some.inj hr⟩]
        · rw [if_neg hv]
          constructor
          · intro h
            cases h
          · rintro ⟨⟨hv', _⟩, _⟩
            exact absurd hv' hv
      · have hti : t ≠ i := fun h => hnot (by rw [← h]; exact htr)
        rw [hK t htr, hst1 t hti, hre1 t]
    refine ⟨g', ?_, hadv', ?_, ?_, hKall, ?_⟩
    · rw [research_update_techs, hstep]
      exact h1
    · intro t ht
      have hti : t ≠ i := fun h => ht (by rw [h]; exact List.mem_cons_self _ _)
      have htr : t ∉ rest := fun h => ht (List.mem_cons_of_mem _ h)
      rw [hframe t htr, with_invention_research]
      simp only [Function.update_noteq hti]
    · intro t
      rw [hre t, hre1 t]
    · intro t ht
      rcases List.mem_cons.1 ht with hti | htr
      · subst hti
        -- a requirement of the head: its state when the loop came to the head
        have hW : ∀ j, research_invention_state (if j < t then g' else g) (some r) j
            = research_invention_state g (some r) j := by
          intro j
          by_cases hj : j < t
          · rw [if_pos hj]
            apply hout
            intro hmem
            rcases List.mem_cons.1 hmem with e | e
            · exact Nat.lt_irrefl t (by rw [e] at hj; exact hj)
            · exact Nat.lt_asymm hj (hpw'.1 j e)
          · rw [if_neg hj]
        rw [hW, hW]
        by_cases hv : valid_advance_by_number g t = true
        · rw [hsti, if_pos hv, hreach]
          constructor
          · intro h
            obtain ⟨hr, _, ho, ht2⟩ := (hp hv).1 (Option.some.inj h)
            refine ⟨by rw [hr], ?_, ho, ht2⟩
            rw [Option.some.inj h]
            intro hh
            cases hh
          · rintro ⟨hr, hnk', ho, ht2⟩
            have hr' : reach = true := Option.some.inj hr
            have hold : ((g.research_array r).inventions t).state ≠ TECH_KNOWN := by
              intro hold
              apply hnk'
              rw [hk.2 ⟨hold, fun _ => hr'⟩]
            rw [(hp hv).2 ⟨hr', hold, ho, ht2⟩]
        · rw [hsti, if_neg hv, reachable_invalid g (some r) t hv]
          constructor
          · intro h
            cases h
          · rintro ⟨h, _⟩
            cases h
      · have hit : i < t := hpw'.1 t htr
        have hW : ∀ j, research_invention_state
              (if j < t then g'
                else with_invention g r i inv' (g.research_array r).techs_researched)
              (some r) j
            = research_invention_state (if j < t then g' else g) (some r) j := by
          intro j
          by_cases hj : j < t
          · rw [if_pos hj, if_pos hj]
          · rw [if_neg hj, if_neg hj]
            apply hst1
            intro e
            rw [e] at hj
            exact hj hit
        have := hP t htr
        rw [hre1 t] at this
        rw [this]
        show _ ∧ _ ∧ research_invention_state
              (if advance_required g t AR_ONE < t then g'
                else with_invention g r i inv' (g.research_array r).techs_researched)
              (some r) (advance_required g t AR_ONE) = some TECH_KNOWN
            ∧ research_invention_state
              (if advance_required g t AR_TWO < t then g'
                else with_invention g r i inv' (g.research_array r).techs_researched)
              (some r) (advance_required g t AR_TWO) = some TECH_KNOWN ↔ _
        rw [hW, hW]

theorem knownReachable_prereqs (g : Game F) (r : Nat) (h : KnownReachable g r) :
    KnownPrereqsReachable g r := by
  intro i hi _ _ j hj _ hk
  exact h j (Nat.le_trans hi (Nat.le_of_lt hj)) hk

theorem classic_known_prereqs_reachable : KnownPrereqsReachable classic_game 0 :=
  knownReachable_prereqs classic_game 0 classic_known_reachable

/-- What `research_update` leaves in state `TECH_PREREQS_KNOWN`.  With an
acyclic requirement graph `research_update` returns, and in the resulting
research, for every tech `t` from `A_FIRST`
upward: `t` is `TECH_PREREQS_KNOWN` exactly when `t` is reachable, `t` is not
`TECH_KNOWN`, and each of its requirements `AR_ONE` and `AR_TWO` was
`TECH_KNOWN` when the loop came to `t` (in the resulting research for a
requirement with a lower number than `t`, before the call for the others).
When, before the call, every `TECH_KNOWN` requirement with a higher number
than a reachable tech that is not known is itself reachable, this is the same
as both requirements being `TECH_KNOWN` in the resulting research.  Every
valid tech that is neither `TECH_KNOWN` nor `TECH_PREREQS_KNOWN` afterwards is
`TECH_UNKNOWN`. -/
theorem research_update_prereqs_known (g : Game F) (r : Nat) (hacyc : Acyclic g) :
    ∃ g', research_update g r = some g'
      ∧ (∀ t, A_FIRST ≤ t →
          (research_invention_state g' (some r) t = some TECH_PREREQS_KNOWN
            ↔ research_invention_reachable g' (some r) t = some true
              ∧ research_invention_state g' (some r) t ≠ some TECH_KNOWN
              ∧ research_invention_state
                  (if advance_required g t AR_ONE < t then g' else g) (some r)
                  (advance_required g t AR_ONE) = some TECH_KNOWN
              ∧ research_invention_state
                  (if advance_required g t AR_TWO < t then g' else g) (some r)
                  (advance_required g t AR_TWO) = some TECH_KNOWN))
      ∧ (KnownPrereqsReachable g r → ∀ t, A_FIRST ≤ t →
          (research_invention_state g' (some r) t = some TECH_PREREQS_KNOWN
            ↔ research_invention_reachable g' (some r) t = some true
              ∧ research_invention_state g' (some r) t ≠ some TECH_KNOWN
              ∧ research_invention_state g' (some r) (advance_required g t AR_ONE)
                = some TECH_KNOWN
              ∧ research_invention_state g' (some r) (advance_required g t AR_TWO)
                = some TECH_KNOWN))
      ∧ (∀ t, valid_advance_by_number g' t = true →
          research_invention_state g' (some r) t ≠ some TECH_KNOWN →
          research_invention_state g' (some r) t ≠ some TECH_PREREQS_KNOWN →
          research_invention_state g' (some r) t = some TECH_UNKNOWN) := by
  obtain ⟨g1, h1, hadv, hframe, hre, hK, hP⟩ := research_update_techs_states r
    (List.range' A_FIRST (advance_count g - A_FIRST)) g hacyc
    (List.pairwise_lt_range' A_FIRST (advance_count g - A_FIRST))
  have hmem : ∀ t, A_FIRST ≤ t → valid_advance_by_number g t = true →
      t ∈ List.range' A_FIRST (advance_count g - A_FIRST) := by
    intro t ht hv
    simp only [valid_advance_by_number, Bool.and_eq_true, decide_eq_true_eq] at hv
    exact mem_tech_range _ _ ht hv.1
  have hst : ∀ t, research_invention_state (update_flag_counts g1 r) (some r) t
      = research_invention_state g1 (some r) t :=
    research_invention_state_update_flag_counts g1 r
  have hif : ∀ (c : Prop) [Decidable c] (j : Nat),
      research_invention_state (if c then update_flag_counts g1 r else g) (some r) j
        = research_invention_state (if c then g1 else g) (some r) j := by
    intro c _ j
    by_cases hc : c
    · rw [if_pos hc, if_pos hc, hst]
    · rw [if_neg hc, if_neg hc]
  have hreq : ∀ t, research_invention_reachable (update_flag_counts g1 r) (some r) t
      = research_invention_reachable g (some r) t := by
    intro t
    rw [reachable_update_flag_counts, hre]
  -- the exact characterisation
  have hA : ∀ t, A_FIRST ≤ t →
      (research_invention_state (update_flag_counts g1 r) (some r) t
          = some TECH_PREREQS_KNOWN
        ↔ research_invention_reachable (update_flag_counts g1 r) (some r) t = some true
          ∧ research_invention_state (update_flag_counts g1 r) (some r) t ≠ some TECH_KNOWN
          ∧ research_invention_state
              (if advance_required g t AR_ONE < t then update_flag_counts g1 r else g)
              (some r) (advance_required g t AR_ONE) = some TECH_KNOWN
          ∧ research_invention_state
              (if advance_required g t AR_TWO < t then update_flag_counts g1 r else g)
              (some r) (advance_required g t AR_TWO) = some TECH_KNOWN) := by
    intro t ht
    rw [hst, hif, hif, hreq]
    by_cases hv : valid_advance_by_number g t = true
    · exact hP t (hmem t ht hv)
    · rw [reachable_invalid g (some r) t hv, research_invention_state_some,
        valid_congr g g1 hadv, if_neg hv]
      constructor
      · intro h
        cases h
      · rintro ⟨h, _⟩
        cases h
  -- a tech known afterwards was known before
  have hKle : ∀ j, research_invention_state g1 (some r) j = some TECH_KNOWN →
      research_invention_state g (some r) j = some TECH_KNOWN := by
    intro j h
    by_cases hj : j ∈ List.range' A_FIRST (advance_count g - A_FIRST)
    · exact ((hK j hj).1 h).1
    · rw [← research_invention_state_congr_inv g g1 r j hadv (hframe j hj)]
      exact h
  refine ⟨update_flag_counts g1 r, by rw [research_update, h1], hA, ?_, ?_⟩
  · intro hyp t ht
    refine (hA t ht).trans ?_
    rw [hif, hif, hst, hst, hst, hreq]
    -- under the hypothesis the two readings of a requirement agree
    have hW : research_invention_reachable g (some r) t = some true →
        research_invention_state g1 (some r) t ≠ some TECH_KNOWN →
        ∀ j, j = advance_required g t AR_ONE ∨ j = advance_required g t AR_TWO →
          (research_invention_state (if j < t then g1 else g) (some r) j = some TECH_KNOWN
            ↔ research_invention_state g1 (some r) j = some TECH_KNOWN) := by
      intro hrt hnk j hj
      by_cases hlt : j < t
      · rw [if_pos hlt]
      · rw [if_neg hlt]
        refine ⟨fun hkj => ?_, hKle j⟩
        have hvt : valid_advance_by_number g t = true := by
          by_contra hv
          rw [reachable_invalid g (some r) t hv] at hrt
          cases hrt
        have hnk0 : research_invention_state g (some r) t ≠ some TECH_KNOWN :=
          fun h => hnk ((hK t (hmem t ht hvt)).2 ⟨h, hrt⟩)
        have hne : j ≠ t := fun e => hnk0 (by rw [← e]; exact hkj)
        have htj : t < j := Nat.lt_of_le_of_ne (Nat.le_of_not_lt hlt) (Ne.symm hne)
        have hvj := ((research_invention_state_known g r j).1 hkj).1
        exact (hK j (hmem j (Nat.le_trans ht (Nat.le_of_lt htj)) hvj)).2
          ⟨hkj, hyp t ht hrt hnk0 j htj hj hkj⟩
    constructor
    · rintro ⟨a, b, c, d⟩
      exact ⟨a, b, (hW a b _ (Or.inl rfl)).1 c, (hW a b _ (Or.inr rfl)).1 d⟩
    · rintro ⟨a, b, c, d⟩
      exact ⟨a, b, (hW a b _ (Or.inl rfl)).2 c, (hW a b _ (Or.inr rfl)).2 d⟩
  · intro t hv hnk hnp
    rw [research_invention_state_some, if_pos hv] at hnk hnp ⊢
    cases hs : (((update_flag_counts g1 r).research_array r).inventions t).state with
    | TECH_UNKNOWN => rfl
    | TECH_PREREQS_KNOWN => exact absurd (by rw [hs]) hnp
    | TECH_KNOWN => exact absurd (by rw [hs]) hnk

/-- The theorem `research_update_prereqs_known` at `classic_game`, where the
hypothesis on the known requirements holds as well. -/
theorem research_update_prereqs_known_witness :
    Acyclic classic_game ∧ KnownPrereqsReachable classic_game 0
      ∧ ∃ g', research_update classic_game 0 = some g'
        ∧ (∀ t, A_FIRST ≤ t →
            (research_invention_state g' (some 0) t = some TECH_PREREQS_KNOWN
              ↔ research_invention_reachable g' (some 0) t = some true
                ∧ research_invention_state g' (some 0) t ≠ some TECH_KNOWN
                ∧ research_invention_state
                    (if advance_required classic_game t AR_ONE < t then g' else classic_game)
                    (some 0) (advance_required classic_game t AR_ONE) = some TECH_KNOWN
                ∧ research_invention_state
                    (if advance_required classic_game t AR_TWO < t then g' else classic_game)
                    (some 0) (advance_required classic_game t AR_TWO) = some TECH_KNOWN))
        ∧ (KnownPrereqsReachable classic_game 0 → ∀ t, A_FIRST ≤ t →
            (research_invention_state g' (some 0) t = some TECH_PREREQS_KNOWN
              ↔ research_invention_reachable g' (some 0) t = some true
                ∧ research_invention_state g' (some 0) t ≠ some TECH_KNOWN
                ∧ research_invention_state g' (some 0)
                    (advance_required classic_game t AR_ONE) = some TECH_KNOWN
                ∧ research_invention_state g' (some 0)
                    (advance_required classic_game t AR_TWO) = some TECH_KNOWN))
        ∧ (∀ t, valid_advance_by_number g' t = true →
            research_invention_state g' (some 0) t ≠ some TECH_KNOWN →
            research_invention_state g' (some 0) t ≠ some TECH_PREREQS_KNOWN →
            research_invention_state g' (some 0) t = some TECH_UNKNOWN) :=
  ⟨classic_acyclic, classic_known_prereqs_reachable,
    research_update_prereqs_known classic_game 0 classic_acyclic⟩

/-- C20 (failing input).  In `holes_game` tech 1 has no root requirement and
requires tech 2, which is known but not reachable.  The loop of
`research_update` comes to tech 1 while tech 2 is still known, and clears
tech 2 afterwards: in the resulting research tech 1 is reachable and
`TECH_PREREQS_KNOWN` although its requirement tech 2 is `TECH_UNKNOWN`. -/
theorem research_update_prereqs_known_stale :
    research_invention_state holes_game (some 0) 2 = some TECH_KNOWN
      ∧ research_invention_reachable holes_game (some 0) 2 = some false
      ∧ (research_update holes_game 0).map (fun g => advance_required g 1 AR_ONE) = some 2
      ∧ (research_update holes_game 0).map (fun g => advance_required g 1 AR_TWO)
        = some A_NONE
      ∧ (research_update holes_game 0).bind
          (fun g => research_invention_reachable g (some 0) 1) = some true
      ∧ (research_update holes_game 0).bind
          (fun g => research_invention_state g (some 0) 1) = some TECH_PREREQS_KNOWN
      ∧ (research_update holes_game 0).bind
          (fun g => research_invention_state g (some 0) 2) = some TECH_UNKNOWN
      ∧ (research_update holes_game 0).bind
          (fun g => research_invention_state g (some 0) A_NONE) = some TECH_KNOWN := by
  decide

/-! ## `research_update`: what happens to known techs -/

theorem update_derived_state (g : Game F) (r i : Nat) (hacyc : Acyclic g) :
    ∃ g1, update_derived g r i = some g1
      ∧ ∀ t, ((g1.research_array r).inventions t).state
          = ((g.research_array r).inventions t).state := by
  obtain ⟨inv', h1, h2⟩ := update_derived_nf g r i hacyc ((g.research_array r).inventions i)
    (g.research_array r).techs_researched
  rw [with_invention_self] at h1
  refine ⟨_, h1, ?_⟩
  intro t
  rw [with_invention_research]
  by_cases ht : t = i
  · subst ht
    simp only [Function.update_same]
    exact h2
  · simp only [Function.update_noteq ht]

/-- C21.  With an acyclic requirement graph `research_update` returns, and
every tech that is `TECH_KNOWN` and reachable before the call is `TECH_KNOWN`
after it; a tech that was `TECH_KNOWN` and is `TECH_UNKNOWN` afterwards was
not reachable; no tech becomes `TECH_KNOWN`.  The tech states are written by
the calls of `research_invention_set` only: the part of a loop pass that
recomputes the derived fields and the loop over the tech flags leave every
tech state as it is. -/
theorem research_update_keeps_known (g : Game F) (r : Nat) (hacyc : Acyclic g) :
    ∃ g', research_update g r = some g'
      ∧ (∀ t, research_invention_state g (some r) t = some TECH_KNOWN →
          research_invention_reachable g (some r) t = some true →
          research_invention_state g' (some r) t = some TECH_KNOWN)
      ∧ (∀ t, research_invention_state g (some r) t = some TECH_KNOWN →
          research_invention_state g' (some r) t = some TECH_UNKNOWN →
          research_invention_reachable g (some r) t = some false)
      ∧ (∀ t, research_invention_state g' (some r) t = some TECH_KNOWN →
          research_invention_state g (some r) t = some TECH_KNOWN)
      ∧ (∀ i, ∃ g1, update_derived g r i = some g1
          ∧ ∀ t, ((g1.research_array r).inventions t).state
              = ((g.research_array r).inventions t).state)
      ∧ (∀ t, ((update_flag_counts g r).research_array r).inventions t
          = (g.research_array r).inventions t) := by
  obtain ⟨g1, h1, hadv, hframe, _, hK, _⟩ := research_update_techs_states r
    (List.range' A_FIRST (advance_count g - A_FIRST)) g hacyc
    (List.pairwise_lt_range' A_FIRST (advance_count g - A_FIRST))
  have hst : ∀ t, research_invention_state (update_flag_counts g1 r) (some r) t
      = research_invention_state g1 (some r) t :=
    research_invention_state_update_flag_counts g1 r
  have hout : ∀ t, t ∉ List.range' A_FIRST (advance_count g - A_FIRST) →
      research_invention_state g1 (some r) t = research_invention_state g (some r) t :=
    fun t ht => research_invention_state_congr_inv g g1 r t hadv (hframe t ht)
  refine ⟨update_flag_counts g1 r, by rw [research_update, h1], ?_, ?_, ?_,
    fun i => update_derived_state g r i hacyc, ?_⟩
  · intro t hk hr
    rw [hst]
    by_cases hmem : t ∈ List.range' A_FIRST (advance_count g - A_FIRST)
    · exact (hK t hmem).2 ⟨hk, hr⟩
    · rw [hout t hmem]
      exact hk
  · intro t hk hu
    rw [hst] at hu
    by_cases hmem : t ∈ List.range' A_FIRST (advance_count g - A_FIRST)
    · obtain ⟨b, hb⟩ := reachable_isSome g (some r) hacyc t
      cases b with
      | false => exact hb
      | true =>
        rw [(hK t hmem).2 ⟨hk, hb⟩] at hu
        cases hu
    · rw [hout t hmem, hk] at hu
      cases hu
  · intro t hk
    rw [hst] at hk
    by_cases hmem : t ∈ List.range' A_FIRST (advance_count g - A_FIRST)
    · exact ((hK t hmem).1 hk).1
    · rw [← hout t hmem]
      exact hk
  · intro t
    rw [update_flag_counts_inventions]

/-- Witness for C21: the theorem at `scenario_game`, where tech 2 is known and
not reachable and `A_NONE` is known and reachable. -/
theorem research_update_keeps_known_witness :
    Acyclic scenario_game
      ∧ ∃ g', research_update scenario_game 0 = some g'
        ∧ (∀ t, research_invention_state scenario_game (some 0) t = some TECH_KNOWN →
            research_invention_reachable scenario_game (some 0) t = some true →
            research_invention_state g' (some 0) t = some TECH_KNOWN)
        ∧ (∀ t, research_invention_state scenario_game (some 0) t = some TECH_KNOWN →
            research_invention_state g' (some 0) t = some TECH_UNKNOWN →
            research_invention_reachable scenario_game (some 0) t = some false)
        ∧ (∀ t, research_invention_state g' (some 0) t = some TECH_KNOWN →
            research_invention_state scenario_game (some 0) t = some TECH_KNOWN)
        ∧ (∀ i, ∃ g1, update_derived scenario_game 0 i = some g1
            ∧ ∀ t, ((g1.research_array 0).inventions t).state
                = ((scenario_game.research_array 0).inventions t).state)
        ∧ (∀ t, ((update_flag_counts scenario_game 0).research_array 0).inventions t
            = (scenario_game.research_array 0).inventions t) :=
  ⟨scenario_acyclic, research_update_keeps_known scenario_game 0 scenario_acyclic⟩

/-! ## Hard requirements of action enablers -/

/-- C29.  `action_enabler_append_hard` keeps the action and the existing
requirements in order; it appends to the actor requirements a present local
`UnitFlag` `Diplomat` requirement, then an absent local `UnitState`
`TransportDependent` requirement, then, exactly for establish embassy, an
absent local `DiplRel` `Has real embassy` requirement; it appends to the
target requirements a present local `MaxUnitsOnTile` `1` requirement exactly
for bribe unit and sabotage unit. -/
theorem action_enabler_append_hard_spec (enabler : action_enabler) :
    (action_enabler_append_hard enabler).action = enabler.action
    ∧ (action_enabler_append_hard enabler).actor_reqs
      = enabler.actor_reqs
        ++ [{ kind := "UnitFlag", range := "Local", survives := false, present := true,
              value := "Diplomat" },
            { kind := "UnitState", range := "Local", survives := false, present := false,
              value := "TransportDependent" }]
        ++ (if enabler.action = ACTION_ESTABLISH_EMBASSY then
              [{ kind := "DiplRel", range := "Local", survives := false, present := false,
                 value := "Has real embassy" }]
            else [])
    ∧ (action_enabler_append_hard enabler).target_reqs
      = enabler.target_reqs
        ++ (if enabler.action = ACTION_SPY_BRIBE_UNIT
              ∨ enabler.action = ACTION_SPY_SABOTAGE_UNIT then
              [{ kind := "MaxUnitsOnTile", range := "Local", survives := false,
                 present := true, value := "1" }]
            else []) := by
  refine ⟨rfl, ?_, ?_⟩
  · unfold action_enabler_append_hard req_from_str
    by_cases h : enabler.action = ACTION_ESTABLISH_EMBASSY
    · simp [h]
    · simp [h]
  · unfold action_enabler_append_hard req_from_str
    by_cases h : enabler.action = ACTION_SPY_BRIBE_UNIT
        ∨ enabler.action = ACTION_SPY_SABOTAGE_UNIT
    · simp only [if_pos h]
    · simp only [if_neg h, List.append_nil]

/-! ## The chance of a diplomatic battle -/

/-- C30.  When neither unit has the SuperSpy flag, the defender has the
Diplomat flag and, if the defender's tile has a city, the value of
`EFT_SPY_RESISTANT` is known there, `ap_diplomat_battle` returns
`2 * (c - c * B / 100)` with the division of C, where `c` is 50, plus 25 for
an attacker with the Spy flag, minus 25 for a defender with the Spy flag,
plus the difference of the power factors, and `B` is the bonus
`EFT_SPY_RESISTANT` of the city on the defender's tile, or 25 without a city
on a tile with a diplomat defense base, or 0. -/
theorem ap_diplomat_battle_formula (env : ActionEnv) (pattacker pdefender : unit)
    (ha : unit_has_type_flag pattacker UTYF_SUPERSPY = false)
    (hd : unit_has_type_flag pdefender UTYF_SUPERSPY = false)
    (hdip : unit_has_type_flag pdefender UTYF_DIPLOMAT = true)
    (hknown : ∀ pcity, env.tile_city pdefender.tile = some pcity →
      is_effect_val_known env EFT_SPY_RESISTANT (some pattacker.owner) (some pcity.owner)
        none (some pcity) none (some pcity.tile) none none none = true) :
    ap_diplomat_battle env pattacker pdefender
      = 2 * ((50 + (if unit_has_type_flag pattacker UTYF_SPY then 25 else 0)
              - (if unit_has_type_flag pdefender UTYF_SPY then 25 else 0)
              + (pattacker.utype.power_fact pattacker.veteran
                - pdefender.utype.power_fact pdefender.veteran))
          - Int.tdiv
              ((50 + (if unit_has_type_flag pattacker UTYF_SPY then 25 else 0)
                  - (if unit_has_type_flag pdefender UTYF_SPY then 25 else 0)
                  + (pattacker.utype.power_fact pattacker.veteran
                    - pdefender.utype.power_fact pdefender.veteran))
                * (match env.tile_city pdefender.tile with
                  | some pcity => env.get_city_bonus pcity EFT_SPY_RESISTANT
                  | none =>
                    if env.tile_has_diplomat_defense_base pdefender.tile pdefender.utype
                    then 25 else 0))
              100) := by
  have hc : ∀ a d : Bool, ∀ x : Int,
      (if d = true then (if a = true then (50 : Int) + 25 else 50) - 25
        else (if a = true then (50 : Int) + 25 else 50)) + x
      = 50 + (if a = true then 25 else 0) - (if d = true then 25 else 0) + x := by
    intro a d x
    cases a <;> cases d <;> simp
  unfold ap_diplomat_battle
  simp only [ha, hd, hdip, Bool.false_eq_true, if_false, Bool.not_true]
  rw [hc]
  cases hcity : env.tile_city pdefender.tile with
  | some pcity =>
    simp only [hknown pcity hcity, Bool.not_true, Bool.false_eq_true, if_false]
    rw [Int.mul_comm]
  | none =>
    simp only
    by_cases hb : env.tile_has_diplomat_defense_base pdefender.tile pdefender.utype = true
    · simp only [hb, if_true]
      rw [Int.mul_comm]
    · simp only [hb, if_false, Bool.false_eq_true, Int.mul_zero, Int.zero_tdiv,
        Int.sub_zero]
      rw [Int.mul_comm]

/-- Witness for C30: a Spy at veteran level 1 (power factor 150) attacks a
Diplomat in the city of `known_city_env`, whose bonus is 40: `c = 125` and the
result is `2 * (125 - 50) = 150`. -/
theorem ap_diplomat_battle_formula_witness :
    ap_diplomat_battle known_city_env (veteran_unit 0 spy_type 1) (sample_unit 1 diplomat_type)
      = 150 :=
  (ap_diplomat_battle_formula known_city_env (veteran_unit 0 spy_type 1)
    (sample_unit 1 diplomat_type) (by decide) (by decide) (by decide)
    (fun pcity h => by
      have e : pcity = sample_city := by
        have h2 : known_city_env.tile_city (sample_unit 1 diplomat_type).tile
            = some sample_city := rfl
        rw [h2] at h
        exact (Option.some.inj h).symm
      rw [e]
      decide)).trans (by decide)

/-! ## `player_tech_upkeep` -/

theorem exactDouble_toInt_zero : exactDouble.toInt (exactDouble.ofInt 0) = 0 := by
  decide

theorem exactDouble_toInt_nonneg (x : exactDouble.D)
    (h : exactDouble.gt (exactDouble.ofInt 0) x = false) : 0 ≤ exactDouble.toInt x := by
  show 0 ≤ Int.tdiv x.num x.den
  by_cases hd : x.den = 0
  · rw [hd]
    simp
  · have h' : Frac.gt (Frac.ofInt 0) x = false := h
    simp only [Frac.gt, Frac.ofInt, hd, ne_eq, not_false_eq_true, decide_True,
      Bool.true_and, Bool.and_eq_false_imp, decide_eq_true_eq, decide_eq_false_iff_not] at h'
    have hnum : 0 ≤ x.num := by
      have := h' (by decide)
      simpa using this
    exact Int.tdiv_nonneg hnum (Int.ofNat_nonneg _)

/-- What holds of `player_tech_upkeep` under two assumptions on the conversion
`(int)`, that it gives 0 for `0.0` and a value that is not negative for
every `double` that does not compare below `0.0` (a NaN and a value above
`INT_MAX` do not compare below `0.0`, and C leaves their conversion
undefined): the value returned is not negative, whatever the local
`tech_upkeep` holds at its first use; it is 0 when the style is
`TECH_UPKEEP_NONE` and when `research_players_iterate` finds no player. -/
theorem player_tech_upkeep_nonneg (g : Game F) (u : UpkeepEnv) (pplayer : player)
    (tech_upkeep0 : F.D)
    (hzero : F.toInt (F.ofInt 0) = 0)
    (hconv : ∀ x, F.gt (F.ofInt 0) x = false → 0 ≤ F.toInt x) :
    ∃ v, player_tech_upkeep g u (some pplayer) tech_upkeep0 = some v
      ∧ 0 ≤ v
      ∧ (u.tech_upkeep_style = TECH_UPKEEP_NONE → v = 0)
      ∧ (research_players g (research_get g (some pplayer)) = [] → v = 0) := by
  have hclamp : ∀ x : F.D,
      0 ≤ F.toInt (if F.gt (F.ofInt 0) x = true then F.ofInt 0 else x) := by
    intro x
    by_cases hx : F.gt (F.ofInt 0) x = true
    · rw [if_pos hx, hzero]
    · rw [if_neg hx]
      exact hconv x (by simpa using hx)
  obtain ⟨r, hr⟩ : ∃ r, research_get g (some pplayer) = some r := by
    unfold research_get
    by_cases hp : g.info.team_pooled_research = true
    · exact ⟨pplayer.team, by simp only [hp, if_true]⟩
    · exact ⟨pplayer.number, by simp [hp]⟩
  unfold player_tech_upkeep
  rw [hr]
  simp only
  by_cases hs : u.tech_upkeep_style = TECH_UPKEEP_NONE
  · rw [if_pos hs]
    exact ⟨0, rfl, le_refl _, fun _ => rfl, fun _ => rfl⟩
  · rw [if_neg hs]
    by_cases hm : ((research_players g (some r)).length : Int) = 0
    · rw [if_pos hm]
      exact ⟨0, rfl, le_refl _, fun _ => rfl, fun _ => rfl⟩
    · rw [if_neg hm]
      refine ⟨_, rfl, hclamp _, fun h => absurd h hs, ?_⟩
      intro hnil
      rw [hnil] at hm
      exact absurd rfl hm

/-- The theorem `player_tech_upkeep_nonneg` for the player of `classic_game`
with upkeep per city, two bulbs free and three cities, in exact
arithmetic. -/
theorem player_tech_upkeep_nonneg_witness :
    ∃ v, player_tech_upkeep classic_game sample_upkeep (some (sample_player 0))
          (exactDouble.ofInt 0) = some v
      ∧ 0 ≤ v
      ∧ (sample_upkeep.tech_upkeep_style = TECH_UPKEEP_NONE → v = 0)
      ∧ (research_players classic_game (research_get classic_game (some (sample_player 0)))
          = [] → v = 0) :=
  player_tech_upkeep_nonneg classic_game sample_upkeep (sample_player 0)
    (exactDouble.ofInt 0) exactDouble_toInt_zero exactDouble_toInt_nonneg

/-! ## `rssanity.c`: requirement vectors -/

/-- C25.  `sanity_check_req_individual` rejects a requirement exactly when
it is a building requirement that has range World for a building that is not
a great wonder, or a range above Traderoute for a building that is not a
wonder; every requirement of another kind passes. -/
theorem sanity_check_req_individual_spec (env : RulesetEnv) (preq : struct_requirement) :
    (sanity_check_req_individual env preq = false
      ↔ preq.source.kind = VUT_IMPROVEMENT
        ∧ ((preq.range = env.REQ_RANGE_WORLD ∧ env.is_great_wonder preq.source.value = false)
          ∨ (preq.range > env.REQ_RANGE_TRADEROUTE
            ∧ env.is_wonder preq.source.value = false)))
    ∧ (preq.source.kind ≠ VUT_IMPROVEMENT → sanity_check_req_individual env preq = true) := by
  have hother : preq.source.kind ≠ VUT_IMPROVEMENT →
      sanity_check_req_individual env preq = true := by
    intro h
    unfold sanity_check_req_individual
    split
    · rename_i hk
      exact absurd hk h
    · rfl
  refine ⟨?_, hother⟩
  by_cases hk : preq.source.kind = VUT_IMPROVEMENT
  · unfold sanity_check_req_individual
    rw [hk]
    simp only [true_and]
    by_cases h1 : preq.range = env.REQ_RANGE_WORLD
        ∧ env.is_great_wonder preq.source.value = false
    · rw [if_pos h1]
      exact ⟨fun _ => Or.inl h1, fun _ => rfl⟩
    · rw [if_neg h1]
      by_cases h2 : preq.range > env.REQ_RANGE_TRADEROUTE
          ∧ env.is_wonder preq.source.value = false
      · rw [if_pos h2]
        exact ⟨fun _ => Or.inr h2, fun _ => rfl⟩
      · rw [if_neg h2]
        constructor
        · intro h
          cases h
        · rintro (h | h)
          · exact absurd h h1
          · exact absurd h h2
  · rw [hother hk]
    constructor
    · intro h
      cases h
    · rintro ⟨h, _⟩
      exact absurd h hk

/-- Witness for C25: a world-ranged requirement of building 4, which is not
a wonder, is rejected; a world-ranged government requirement passes. -/
theorem sanity_check_req_individual_spec_witness :
    sanity_check_req_individual sample_ruleset (sample_req VUT_IMPROVEMENT 4 9 true) = false
      ∧ sanity_check_req_individual sample_ruleset (sample_req VUT_GOVERNMENT 4 9 true)
        = true :=
  ⟨(sanity_check_req_individual_spec sample_ruleset
      (sample_req VUT_IMPROVEMENT 4 9 true)).1.2 ⟨rfl, Or.inl ⟨rfl, rfl⟩⟩,
    (sanity_check_req_individual_spec sample_ruleset
      (sample_req VUT_GOVERNMENT 4 9 true)).2 (by decide)⟩

theorem sanity_check_req_vec_loop_opposites (env : RulesetEnv)
    (preqs : List struct_requirement) (conjunctive : Bool) (max_tiles : Int)
    (p q : struct_requirement) (hq : q ∈ preqs)
    (h : env.are_requirements_opposites p q = true) :
    ∀ (l : List struct_requirement) (cnt : req_counts), p ∈ l →
      sanity_check_req_vec_loop env preqs conjunctive max_tiles cnt l = false := by
  intro l
  induction l with
  | nil =>
    intro _ hp
    cases hp
  | cons a rest ih =>
    intro cnt hp
    rw [sanity_check_req_vec_loop]
    by_cases h1 : (!(sanity_check_req_set env cnt a conjunctive max_tiles).1) = true
    · rw [if_pos h1]
    · rw [if_neg h1]
      rcases List.mem_cons.1 hp with hpa | hpr
      · have hany : preqs.any (fun nreq => env.are_requirements_opposites a nreq) = true := by
          rw [List.any_eq_true]
          exact ⟨q, hq, by rw [← hpa]; exact h⟩
        rw [if_pos hany]
      · by_cases h2 : preqs.any (fun nreq => env.are_requirements_opposites a nreq) = true
        · rw [if_pos h2]
        · rw [if_neg h2]
          exact ih _ hpr

/-- C23.  `sanity_check_req_vec` returns false for every vector,
conjunctive or not, that contains two requirements `p` and `q` which
`are_requirements_opposites` reports as opposites, wherever they stand in
the vector. -/
theorem sanity_check_req_vec_opposites (env : RulesetEnv)
    (preqs : List struct_requirement) (conjunctive : Bool) (max_tiles : Int)
    (p q : struct_requirement) (hp : p ∈ preqs) (hq : q ∈ preqs)
    (h : env.are_requirements_opposites p q = true) :
    sanity_check_req_vec env preqs conjunctive max_tiles = false :=
  sanity_check_req_vec_loop_opposites env preqs conjunctive max_tiles p q hq h preqs _ hp

/-- Witness for C23: a conjunctive vector whose first and third
requirements are a present and an absent local requirement of government 2,
with a requirement of another kind between them. -/
theorem sanity_check_req_vec_opposites_witness :
    sanity_check_req_vec sample_ruleset
      [sample_req VUT_GOVERNMENT 2 0 true, sample_req VUT_MINSIZE 5 3 true,
        sample_req VUT_GOVERNMENT 2 0 false] true (-1) = false :=
  sanity_check_req_vec_opposites sample_ruleset _ true (-1)
    (sample_req VUT_GOVERNMENT 2 0 false) (sample_req VUT_GOVERNMENT 2 0 true)
    (by decide) (by decide) (by decide)

theorem sanity_check_req_set_true (env : RulesetEnv) (cnt : req_counts)
    (preq : struct_requirement) (max_tiles : Int)
    (h : (sanity_check_req_set env cnt preq true max_tiles).1 = true) :
    (sanity_check_req_set env cnt preq true max_tiles).2.reqs_of_type
        = (if preq.present then
            Function.update cnt.reqs_of_type preq.source.kind
              (cnt.reqs_of_type preq.source.kind + 1)
          else cnt.reqs_of_type)
      ∧ (preq.present = true → cnt.reqs_of_type preq.source.kind + 1 > 1 →
          multiple_reqs_ok preq.source.kind (cnt.reqs_of_type preq.source.kind + 1)
            max_tiles = true) := by
  unfold sanity_check_req_set at h ⊢
  by_cases hv : env.universals_n_is_valid preq.source.kind = true
  · by_cases hi : sanity_check_req_individual env preq = true
    · simp only [hv, hi, Bool.not_true, Bool.false_eq_true, if_false] at h ⊢
      by_cases hp : preq.present = true
      · simp only [hp, if_true, Function.update_same, and_true] at h ⊢
        by_cases hl : preq.range = env.REQ_RANGE_LOCAL
        · simp only [hl, if_true, true_and] at h ⊢
          split_ifs at h ⊢ with h1 h2
          · exact ⟨rfl, fun _ _ => h⟩
          · exact ⟨rfl, fun _ hh => absurd hh h2⟩
        · simp only [hl, if_false, false_and] at h ⊢
          split_ifs at h ⊢ with h2
          · exact ⟨rfl, fun _ _ => h⟩
          · exact ⟨rfl, fun _ hh => absurd hh h2⟩
      · have hp' : preq.present = false := by simpa using hp
        simp only [hp', Bool.false_eq_true, if_false, and_false, false_and] at h ⊢
        exact ⟨trivial, fun hh => by cases hh⟩
    · simp [hv, hi] at h
  · simp [hv] at h

theorem sanity_check_req_vec_loop_multiple (env : RulesetEnv)
    (preqs : List struct_requirement) (max_tiles : Int) (k : universals_n)
    (hk : ∀ rc, multiple_reqs_ok k rc max_tiles = false) :
    ∀ (l : List struct_requirement) (cnt : req_counts), cnt.reqs_of_type k ≤ 1 →
      2 ≤ cnt.reqs_of_type k
        + ((l.countP (fun p => p.present && decide (p.source.kind = k)) : Nat) : Int) →
      sanity_check_req_vec_loop env preqs true max_tiles cnt l = false := by
  intro l
  induction l with
  | nil =>
    intro cnt h1 h2
    simp only [List.countP_nil, Nat.cast_zero, add_zero] at h2
    omega
  | cons a rest ih =>
    intro cnt h1 h2
    rw [sanity_check_req_vec_loop]
    by_cases hset : (!(sanity_check_req_set env cnt a true max_tiles).1) = true
    · rw [if_pos hset]
    · rw [if_neg hset]
      have hok : (sanity_check_req_set env cnt a true max_tiles).1 = true := by
        simpa using hset
      obtain ⟨hreqs, hmulti⟩ := sanity_check_req_set_true env cnt a max_tiles hok
      by_cases hany : preqs.any (fun nreq => env.are_requirements_opposites a nreq) = true
      · rw [if_pos hany]
      · rw [if_neg hany]
        rw [List.countP_cons] at h2
        by_cases hp : a.present = true
        · by_cases hka : a.source.kind = k
          · have hle : cnt.reqs_of_type k + 1 ≤ 1 := by
              by_contra hgt
              have := hmulti hp (by rw [hka]; omega)
              rw [hka, hk] at this
              cases this
            apply ih
            · rw [hreqs, if_pos hp, hka, Function.update_same]
              exact hle
            · rw [hreqs, if_pos hp, hka, Function.update_same]
              simp only [hp, hka, decide_True, Bool.and_self, if_true, Nat.cast_add,
                Nat.cast_one] at h2
              omega
          · apply ih
            · rw [hreqs, if_pos hp, Function.update_noteq (Ne.symm hka)]
              exact h1
            · rw [hreqs, if_pos hp, Function.update_noteq (Ne.symm hka)]
              simp only [hp, hka, decide_False, Bool.and_false, Bool.false_eq_true, if_false,
                add_zero] at h2
              exact h2
        · have hp' : a.present = false := by simpa using hp
          apply ih
          · rw [hreqs, hp']
            exact h1
          · rw [hreqs, hp']
            simp only [hp', Bool.false_and, Bool.false_eq_true, if_false, add_zero] at h2
            exact h2

theorem local_terrain_ok_of (kind : universals_n) (f : universals_n → Int)
    (h1 : kind ≠ VUT_TERRAIN) (h2 : f VUT_TERRAIN ≤ 0) : local_terrain_ok kind f = true := by
  cases kind <;> first | rfl | exact absurd rfl h1 | skip
  unfold local_terrain_ok
  simp only
  rw [if_neg (by omega)]

theorem sanity_check_req_set_accept (env : RulesetEnv) (cnt : req_counts)
    (preq : struct_requirement) (max_tiles : Int)
    (hv : env.universals_n_is_valid preq.source.kind = true)
    (hi : sanity_check_req_individual env preq = true)
    (hterr : preq.source.kind = VUT_TERRAIN → preq.present = true →
      preq.range ≠ env.REQ_RANGE_LOCAL)
    (hloc : cnt.local_reqs_of_type VUT_TERRAIN ≤ 0)
    (hrc : preq.present = true → cnt.reqs_of_type preq.source.kind + 1 ≤ 1
      ∨ ∀ rc, multiple_reqs_ok preq.source.kind rc max_tiles = true) :
    (sanity_check_req_set env cnt preq true max_tiles).1 = true
      ∧ (sanity_check_req_set env cnt preq true max_tiles).2.local_reqs_of_type VUT_TERRAIN
        ≤ 0 := by
  unfold sanity_check_req_set
  simp only [hv, hi, Bool.not_true, Bool.false_eq_true, if_false]
  by_cases hp : preq.present = true
  · simp only [hp, if_true, Function.update_same, and_true]
    have hmul : cnt.reqs_of_type preq.source.kind + 1 > 1 →
        multiple_reqs_ok preq.source.kind (cnt.reqs_of_type preq.source.kind + 1) max_tiles
          = true := by
      intro hgt
      rcases hrc hp with h | h
      · omega
      · exact h _
    by_cases hl : preq.range = env.REQ_RANGE_LOCAL
    · have hkt : preq.source.kind ≠ VUT_TERRAIN := fun hk => hterr hk hp hl
      have hloc' : Function.update cnt.local_reqs_of_type preq.source.kind
          (cnt.local_reqs_of_type preq.source.kind + 1) VUT_TERRAIN ≤ 0 := by
        rw [Function.update_noteq (Ne.symm hkt)]
        exact hloc
      simp only [hl, if_true, true_and, local_terrain_ok_of _ _ hkt hloc',
        Bool.true_eq_false, if_false]
      split_ifs with h2
      · exact ⟨hmul h2, hloc'⟩
      · exact ⟨rfl, hloc'⟩
    · simp only [hl, if_false, false_and]
      split_ifs with h2
      · exact ⟨hmul h2, hloc⟩
      · exact ⟨rfl, hloc⟩
  · have hp' : preq.present = false := by simpa using hp
    simp only [hp', Bool.false_eq_true, if_false, and_false, false_and]
    exact ⟨trivial, hloc⟩

theorem sanity_check_req_vec_loop_accept (env : RulesetEnv)
    (preqs : List struct_requirement) (max_tiles : Int) :
    ∀ (l : List struct_requirement) (cnt : req_counts),
      (∀ p, p ∈ l → env.universals_n_is_valid p.source.kind = true
        ∧ sanity_check_req_individual env p = true
        ∧ preqs.any (fun nreq => env.are_requirements_opposites p nreq) = false
        ∧ (p.source.kind = VUT_TERRAIN → p.present = true →
            p.range ≠ env.REQ_RANGE_LOCAL)) →
      (∀ k, (0 ≤ cnt.reqs_of_type k ∧ cnt.reqs_of_type k
            + ((l.countP (fun p => p.present && decide (p.source.kind = k)) : Nat) : Int) ≤ 1)
          ∨ ∀ rc, multiple_reqs_ok k rc max_tiles = true) →
      cnt.local_reqs_of_type VUT_TERRAIN ≤ 0 →
      sanity_check_req_vec_loop env preqs true max_tiles cnt l = true := by
  intro l
  induction l with
  | nil =>
    intro _ _ _ _
    rfl
  | cons a rest ih =>
    intro cnt hall hcount hloc
    obtain ⟨hv, hi, hopp, hterr⟩ := hall a (List.mem_cons_self _ _)
    have hrc : a.present = true → cnt.reqs_of_type a.source.kind + 1 ≤ 1
        ∨ ∀ rc, multiple_reqs_ok a.source.kind rc max_tiles = true := by
      intro hp
      rcases hcount a.source.kind with ⟨h0, h1⟩ | h
      · left
        rw [List.countP_cons] at h1
        simp only [hp, decide_True, Bool.and_self, if_true, Nat.cast_add, Nat.cast_one] at h1
        omega
      · exact Or.inr h
    obtain ⟨hok, hloc'⟩ := sanity_check_req_set_accept env cnt a max_tiles hv hi hterr hloc hrc
    obtain ⟨hreqs, _⟩ := sanity_check_req_set_true env cnt a max_tiles hok
    rw [sanity_check_req_vec_loop, hok, hopp]
    simp only [Bool.not_true, Bool.false_eq_true, if_false]
    apply ih
    · intro p hp
      exact hall p (List.mem_cons_of_mem _ hp)
    · intro k
      rcases hcount k with ⟨h0, h1⟩ | h
      · left
        rw [List.countP_cons] at h1
        rw [hreqs]
        by_cases hp : a.present = true
        · by_cases hka : a.source.kind = k
          · rw [if_pos hp, hka, Function.update_same]
            simp only [hp, hka, decide_True, Bool.and_self, if_true, Nat.cast_add,
              Nat.cast_one] at h1
            constructor <;> omega
          · rw [if_pos hp, Function.update_noteq (Ne.symm hka)]
            simp only [hp, hka, decide_False, Bool.and_false, Bool.false_eq_true, if_false,
              add_zero] at h1
            exact ⟨h0, h1⟩
        · have hp' : a.present = false := by simpa using hp
          rw [hp']
          simp only [hp', Bool.false_and, Bool.false_eq_true, if_false, add_zero] at h1
          exact ⟨h0, h1⟩
      · exact Or.inr h
    · exact hloc'

/-- C24.  For each of the kinds government, unit type, unit class, output
type, specialist, min size, min year, AI level, terrain alter, city tile and
style: `sanity_check_req_vec` returns false for every conjunctive vector with
two or more present requirements of that kind.  A conjunctive vector is
accepted when each requirement is valid, passes the individual check and has
no opposite in the vector, no present local requirement is a terrain
requirement, and every kind has at most one present requirement or is a kind
that the count rule never rejects; absent requirements do not count. -/
theorem sanity_check_req_vec_single_instance (env : RulesetEnv)
    (preqs : List struct_requirement) (max_tiles : Int) :
    (∀ k, k = VUT_GOVERNMENT ∨ k = VUT_UTYPE ∨ k = VUT_UCLASS ∨ k = VUT_OTYPE
        ∨ k = VUT_SPECIALIST ∨ k = VUT_MINSIZE ∨ k = VUT_MINYEAR ∨ k = VUT_AI_LEVEL
        ∨ k = VUT_TERRAINALTER ∨ k = VUT_CITYTILE ∨ k = VUT_STYLE →
      2 ≤ preqs.countP (fun p => p.present && decide (p.source.kind = k)) →
      sanity_check_req_vec env preqs true max_tiles = false)
    ∧ ((∀ p, p ∈ preqs → env.universals_n_is_valid p.source.kind = true
          ∧ sanity_check_req_individual env p = true
          ∧ (∀ q, q ∈ preqs → env.are_requirements_opposites p q = false)
          ∧ (p.source.kind = VUT_TERRAIN → p.present = true →
              p.range ≠ env.REQ_RANGE_LOCAL)) →
      (∀ k, preqs.countP (fun p => p.present && decide (p.source.kind = k)) ≤ 1
        ∨ ∀ rc, multiple_reqs_ok k rc max_tiles = true) →
      sanity_check_req_vec env preqs true max_tiles = true) := by
  constructor
  · intro k hk hcount
    have hk' : ∀ rc, multiple_reqs_ok k rc max_tiles = false := by
      intro rc
      rcases hk with h | h | h | h | h | h | h | h | h | h | h <;> subst h <;> rfl
    apply sanity_check_req_vec_loop_multiple env preqs max_tiles k hk' preqs req_counts_zero
    · show (0 : Int) ≤ 1
      decide
    · show (2 : Int) ≤ 0 + _
      omega
  · intro hall hcount
    apply sanity_check_req_vec_loop_accept env preqs max_tiles preqs req_counts_zero
    · intro p hp
      obtain ⟨hv, hi, hopp, hterr⟩ := hall p hp
      refine ⟨hv, hi, ?_, hterr⟩
      rw [Bool.eq_false_iff]
      intro hany
      rw [List.any_eq_true] at hany
      obtain ⟨q, hq, hpq⟩ := hany
      rw [hopp q hq] at hpq
      cases hpq
    · intro k
      rcases hcount k with h | h
      · left
        refine ⟨le_refl _, ?_⟩
        show (0 : Int) + _ ≤ 1
        omega
      · exact Or.inr h
    · exact le_refl _

/-- Witness for C24: a conjunctive vector with a present local government
requirement, an absent government requirement and two present building
requirements is accepted; with a second present government requirement it
is rejected. -/
theorem sanity_check_req_vec_single_instance_witness :
    sanity_check_req_vec sample_ruleset
        [sample_req VUT_GOVERNMENT 2 0 true, sample_req VUT_GOVERNMENT 3 0 false,
          sample_req VUT_IMPROVEMENT 1 9 true, sample_req VUT_IMPROVEMENT 4 3 true]
        true (-1) = true
      ∧ sample_ruleset.universals_n_is_valid VUT_GOVERNMENT = true
      ∧ sanity_check_req_vec sample_ruleset
          [sample_req VUT_GOVERNMENT 2 0 true, sample_req VUT_MINSIZE 5 3 true,
            sample_req VUT_GOVERNMENT 3 6 true]
          true (-1) = false :=
  ⟨(sanity_check_req_vec_single_instance sample_ruleset
      [sample_req VUT_GOVERNMENT 2 0 true, sample_req VUT_GOVERNMENT 3 0 false,
        sample_req VUT_IMPROVEMENT 1 9 true, sample_req VUT_IMPROVEMENT 4 3 true] (-1)).2
      (by decide)
      (fun k => by
        cases k <;> first | exact Or.inl (by decide) | exact Or.inr (fun _ => rfl)),
    by decide,
    (sanity_check_req_vec_single_instance sample_ruleset
      [sample_req VUT_GOVERNMENT 2 0 true, sample_req VUT_MINSIZE 5 3 true,
        sample_req VUT_GOVERNMENT 3 6 true] (-1)).1 VUT_GOVERNMENT (Or.inl rfl) (by decide)⟩

/-! ## `rssanity.c`: `sanity_check_ruleset_data` -/

/-- C26 (failing inputs).  The ruleset `plain_ruleset` passes without an
error.  In `road_ruleset` the road check reports an error and
`sanity_check_ruleset_data` returns true; in `no_explorer_ruleset` the
missing explorer role is reported by `rs_common_units` and the function
returns true; in `spy_no_explorer_ruleset` the earlier failure of the unit
flag check keeps `rs_common_units` from running, so that the missing
explorer role is not reported. -/
theorem sanity_check_ruleset_data_unrecorded_errors :
    sanity_check_ruleset_data plain_ruleset = some { ok := true, errors := [] }
      ∧ sanity_check_ruleset_data road_ruleset
        = some { ok := true, errors := [road_integrates_non_integrating] }
      ∧ sanity_check_ruleset_data no_explorer_ruleset
        = some { ok := true, errors := [no_role_explorer_units] }
      ∧ sanity_check_ruleset_data spy_no_explorer_ruleset
        = some { ok := false, errors := [spy_without_diplomat] } := by
  decide

/-! ## `daieffects.c`: `dai_effect_value` -/

/-- For an effect of type `EFT_VICTORY` whose value is not zero,
`dai_effect_value` returns `v + 250` in every context and for every base
value `v`, whatever the value and the other arguments are; for an effect
whose value is zero it returns 0, whatever `v` is. -/
theorem dai_effect_value_victory (ctx : DaiContext F) (capital : Bool) (turns : Int)
    (peffect : struct_effect) (c nplayers v : Int) (ht : peffect.type = EFT_VICTORY) :
    (peffect.value ≠ 0 →
      dai_effect_value ctx capital turns peffect c nplayers v = some (v + 250))
    ∧ (peffect.value = 0 →
      dai_effect_value ctx capital turns peffect c nplayers v = some 0) := by
  constructor
  · intro h
    unfold dai_effect_value
    simp only [h, if_false, ht]
  · intro h
    unfold dai_effect_value
    simp only [h, if_true]

/-- The theorem `dai_effect_value_victory` for an `EFT_VICTORY` effect of
value 1 on the base value 100 in `sample_dai_context`. -/
theorem dai_effect_value_victory_witness :
    dai_effect_value sample_dai_context false 10
      { type := EFT_VICTORY, value := 1, reqs := [] } 1 3 100 = some 350 :=
  (dai_effect_value_victory sample_dai_context false 10
    { type := EFT_VICTORY, value := 1, reqs := [] } 1 3 100 rfl).1 (by decide)

/-- C27 (failing input).  An `EFT_VICTORY` effect of value 0 on the base value
100 gives 0: neither 100 + 250 nor the base value 100, which is what an
effect of value 1 of a type without score gives. -/
theorem dai_effect_value_victory_zero :
    dai_effect_value sample_dai_context false 10
        { type := EFT_VICTORY, value := 0, reqs := [] } 1 3 100 = some 0
      ∧ (0 : Int) ≠ 100 + 250
      ∧ (0 : Int) ≠ 100
      ∧ dai_effect_value sample_dai_context false 10
        { type := EFT_VICTORY, value := 1, reqs := [] } 1 3 100 = some (100 + 250)
      ∧ dai_effect_value sample_dai_context false 10
        { type := EFT_CAPITAL_CITY, value := 1, reqs := [] } 1 3 100 = some 100 := by
  decide

/-- For an effect of one of the types that the AI does not score
(`unscored_effect_types`) whose value is not zero, `dai_effect_value` returns
the base value `v` unchanged in every context; for an effect whose value is
zero it returns 0, whatever `v` is. -/
theorem dai_effect_value_unscored (ctx : DaiContext F) (capital : Bool) (turns : Int)
    (peffect : struct_effect) (c nplayers v : Int)
    (ht : peffect.type ∈ unscored_effect_types) :
    (peffect.value ≠ 0 → dai_effect_value ctx capital turns peffect c nplayers v = some v)
    ∧ (peffect.value = 0 →
      dai_effect_value ctx capital turns peffect c nplayers v = some 0) := by
  constructor
  · intro h
    obtain ⟨ty, value, reqs⟩ := peffect
    simp only at h ht
    unfold dai_effect_value
    simp only [h, if_false]
    cases ty <;> first | rfl | exact absurd ht (by decide)
  · intro h
    unfold dai_effect_value
    simp only [h, if_true]

/-- The theorem `dai_effect_value_unscored` for an `EFT_HISTORY` effect of
value 3 on the base value 100 in `sample_dai_context`. -/
theorem dai_effect_value_unscored_witness :
    dai_effect_value sample_dai_context false 10
      { type := EFT_HISTORY, value := 3, reqs := [] } 1 3 100 = some 100 :=
  (dai_effect_value_unscored sample_dai_context false 10
    { type := EFT_HISTORY, value := 3, reqs := [] } 1 3 100 (by decide)).1 (by decide)

/-- C28 (failing input).  An `EFT_HISTORY` effect, of a type that the AI does
not score, with the value 0 on the base value 100 gives 0, not 100; with
the value 3 it gives the base value 100. -/
theorem dai_effect_value_unscored_zero :
    EFT_HISTORY ∈ unscored_effect_types
      ∧ dai_effect_value sample_dai_context false 10
        { type := EFT_HISTORY, value := 0, reqs := [] } 1 3 100 = some 0
      ∧ (0 : Int) ≠ 100
      ∧ dai_effect_value sample_dai_context false 10
        { type := EFT_HISTORY, value := 3, reqs := [] } 1 3 100 = some 100 := by
  decide

/-! ## `research_update`: the scalar fields -/

theorem research_update_techs_scalars (r : Nat) (is : List Nat) :
    ∀ g : Game F, Acyclic g →
      ∃ g', research_update_techs r g is = some g'
        ∧ (g'.research_array r).techs_researched = (g.research_array r).techs_researched
        ∧ (g'.research_array r).future_tech = (g.research_array r).future_tech
        ∧ (g'.research_array r).tech_goal = (g.research_array r).tech_goal
        ∧ (g'.research_array r).researching = (g.research_array r).researching
        ∧ (g'.research_array r).researching_saved
          = (g.research_array r).researching_saved := by
  induction is with
  | nil =>
    intro g _
    exact ⟨g, rfl, rfl, rfl, rfl, rfl, rfl⟩
  | cons i rest ih =>
    intro g hacyc
    obtain ⟨_, inv', _, hstep, _⟩ := research_update_tech_spec g r i hacyc
    obtain ⟨g', h1, e1, e2, e3, e4, e5⟩ :=
      ih (with_invention g r i inv' (g.research_array r).techs_researched)
        (acyclic_with_invention g r i _ _ hacyc)
    refine ⟨g', ?_, ?_, ?_, ?_, ?_, ?_⟩
    · rw [research_update_techs, hstep]
      exact h1
    · rw [e1, with_invention_research]
    · rw [e2, with_invention_research]
    · rw [e3, with_invention_research]
    · rw [e4, with_invention_research]
    · rw [e5, with_invention_research]

/-- C39.  With an acyclic requirement graph `research_update` returns, and
the fields `techs_researched`, `future_tech`, `tech_goal`, `researching` and
`researching_saved` of the research have the values they had before the
call; each pass of the loop, which counts `techs_researched` up while it
adds the costs of the requirements, leaves `techs_researched` as it found
it. -/
theorem research_update_scalars (g : Game F) (r : Nat) (hacyc : Acyclic g) :
    (∃ g', research_update g r = some g'
      ∧ (g'.research_array r).techs_researched = (g.research_array r).techs_researched
      ∧ (g'.research_array r).future_tech = (g.research_array r).future_tech
      ∧ (g'.research_array r).tech_goal = (g.research_array r).tech_goal
      ∧ (g'.research_array r).researching = (g.research_array r).researching
      ∧ (g'.research_array r).researching_saved = (g.research_array r).researching_saved)
    ∧ (∀ i, ∃ g1, research_update_tech g r i = some g1
      ∧ (g1.research_array r).techs_researched = (g.research_array r).techs_researched) := by
  constructor
  · obtain ⟨g1, h1, e1, e2, e3, e4, e5⟩ := research_update_techs_scalars r
      (List.range' A_FIRST (advance_count g - A_FIRST)) g hacyc
    refine ⟨update_flag_counts g1 r, by rw [research_update, h1], ?_, ?_, ?_, ?_, ?_⟩
    · rw [← e1]
      simp [update_flag_counts, modify_research]
    · rw [← e2]
      simp [update_flag_counts, modify_research]
    · rw [← e3]
      simp [update_flag_counts, modify_research]
    · rw [← e4]
      simp [update_flag_counts, modify_research]
    · rw [← e5]
      simp [update_flag_counts, modify_research]
  · intro i
    obtain ⟨_, inv', _, hstep, _⟩ := research_update_tech_spec g r i hacyc
    exact ⟨_, hstep, by rw [with_invention_research]⟩

/-- Witness for C39: the theorem at `classic_game`, where the pass for tech 3
adds the costs of three requirements. -/
theorem research_update_scalars_witness :
    Acyclic classic_game
      ∧ (∃ g', research_update classic_game 0 = some g'
        ∧ (g'.research_array 0).techs_researched
          = (classic_game.research_array 0).techs_researched
        ∧ (g'.research_array 0).future_tech = (classic_game.research_array 0).future_tech
        ∧ (g'.research_array 0).tech_goal = (classic_game.research_array 0).tech_goal
        ∧ (g'.research_array 0).researching = (classic_game.research_array 0).researching
        ∧ (g'.research_array 0).researching_saved
          = (classic_game.research_array 0).researching_saved)
      ∧ (∀ i, ∃ g1, research_update_tech classic_game 0 i = some g1
        ∧ (g1.research_array 0).techs_researched
          = (classic_game.research_array 0).techs_researched) :=
  ⟨classic_acyclic, research_update_scalars classic_game 0 classic_acyclic⟩

/-! ## `research_goal_step` -/

/-- C31 (failing input).  In `gap_game` the goal tech 3 is valid, reachable
and `TECH_KNOWN`, and its requirement tech 2 is `TECH_PREREQS_KNOWN`:
`research_goal_step` returns tech 2 and not `A_UNSET`, also after a run of
`research_update`, which leaves these states as they are. -/
theorem research_goal_step_known_goal :
    research_invention_state gap_game (some 0) 3 = some TECH_KNOWN
      ∧ research_invention_state gap_game (some 0) 2 = some TECH_PREREQS_KNOWN
      ∧ research_goal_step gap_game (some 0) 3 = some 2
      ∧ (2 : Nat) ≠ A_UNSET
      ∧ (research_update gap_game 0).bind
          (fun g => research_invention_state g (some 0) 3) = some TECH_KNOWN
      ∧ (research_update gap_game 0).bind (fun g => research_goal_step g (some 0) 3)
        = some 2 := by
  decide

/-! ## The closed forms of `player_tech_upkeep` -/

theorem two_mul_sum_Icc_one (t : Nat) :
    2 * Finset.sum (Finset.Icc 1 t) (fun x => (x : Int)) = (t : Int) * (t + 1) := by
  induction t with
  | zero => simp
  | succ n ih =>
    rw [Finset.sum_Icc_succ_top (Nat.succ_le_succ (Nat.zero_le n)), mul_add, ih]
    push_cast
    ring

theorem two_mul_sum_Icc (t f : Nat) :
    2 * Finset.sum (Finset.Icc t (t + f)) (fun x => (x : Int))
      = (f : Int) * (2 * t + f + 1) + 2 * t := by
  induction f with
  | zero => simp
  | succ n ih =>
    rw [← Nat.add_assoc, Finset.sum_Icc_succ_top (by omega), mul_add, ih]
    push_cast
    ring

/-- C32.  For all `t` and `f` that are not negative, `t * (t + 1)` and
`f * (2 * t + f + 1) + 2 * t` are even, the first closed form is
`base_tech_cost` times the sum of 1 to `t`, and the second is
`base_tech_cost` times the sum of `t` to `t + f`; for the cost styles 1 to 4
and a positive `future_tech` the last term that `player_tech_upkeep` adds in
its `switch` on the cost style is `base_tech_cost` times that sum. -/
theorem upkeep_closed_forms (base_tech_cost : Int) (t f : Nat) :
    (2 : Int) ∣ (t : Int) * (t + 1)
    ∧ Int.tdiv ((t : Int) * (t + 1)) 2 = Finset.sum (Finset.Icc 1 t) (fun x => (x : Int))
    ∧ upkeep_normal_techs base_tech_cost t
      = base_tech_cost * Finset.sum (Finset.Icc 1 t) (fun x => (x : Int))
    ∧ (2 : Int) ∣ (f : Int) * (2 * t + f + 1) + 2 * t
    ∧ Int.tdiv ((f : Int) * (2 * t + f + 1) + 2 * t) 2
      = Finset.sum (Finset.Icc t (t + f)) (fun x => (x : Int))
    ∧ upkeep_future_techs base_tech_cost t f
      = base_tech_cost * Finset.sum (Finset.Icc t (t + f)) (fun x => (x : Int))
    ∧ (∀ (F : DoubleOps) (g : Game F) (r : Nat) (tech_upkeep : F.D),
      g.info.base_tech_cost = base_tech_cost →
      (g.research_array r).techs_researched = t →
      (g.research_array r).future_tech = f → 0 < f →
      1 ≤ g.info.tech_cost_style → g.info.tech_cost_style ≤ 4 →
      upkeep_of_cost_style g r tech_upkeep
        = F.add
          ((List.range (advance_count g)).foldl
            (fun acc i =>
              if some TECH_KNOWN = research_invention_state g (some r) i then
                F.add acc (g.advances.cost i)
              else acc)
            tech_upkeep)
          (F.ofInt (base_tech_cost
            * Finset.sum (Finset.Icc t (t + f)) (fun x => (x : Int))))) := by
  have h1 := two_mul_sum_Icc_one t
  have h2 := two_mul_sum_Icc t f
  have e1 : upkeep_normal_techs base_tech_cost t
      = base_tech_cost * Finset.sum (Finset.Icc 1 t) (fun x => (x : Int)) := by
    unfold upkeep_normal_techs
    rw [mul_assoc, ← h1, ← mul_assoc, mul_comm base_tech_cost 2, mul_assoc]
    exact Int.mul_tdiv_cancel_left _ (by decide)
  have e2 : upkeep_future_techs base_tech_cost t f
      = base_tech_cost * Finset.sum (Finset.Icc t (t + f)) (fun x => (x : Int)) := by
    unfold upkeep_future_techs
    rw [← h2, ← mul_assoc, mul_comm base_tech_cost 2, mul_assoc]
    exact Int.mul_tdiv_cancel_left _ (by decide)
  refine ⟨⟨_, h1.symm⟩, ?_, e1, ⟨_, h2.symm⟩, ?_, e2, ?_⟩
  · rw [← h1]
    exact Int.mul_tdiv_cancel_left _ (by decide)
  · rw [← h2]
    exact Int.mul_tdiv_cancel_left _ (by decide)
  · intro F g r tech_upkeep hb ht hf hpos hs1 hs4
    unfold upkeep_of_cost_style
    have hs0 : g.info.tech_cost_style ≠ 0 := by omega
    have hfpos : (0 : Int) < (g.research_array r).future_tech := by
      rw [hf]
      exact_mod_cast hpos
    simp only [hs0, if_false, hs1, hs4, and_self, if_true, hfpos]
    rw [hb, ht, hf, e2]

/-- Witness for C32: the future-tech term of `future_game`, with cost style
1, three techs researched and two future techs: 20 times the sum of 3 to
5. -/
theorem upkeep_closed_forms_witness :
    upkeep_of_cost_style future_game 0 (exactDouble.ofInt 0)
      = exactDouble.add
        ((List.range (advance_count future_game)).foldl
          (fun acc i =>
            if some TECH_KNOWN = research_invention_state future_game (some 0) i then
              exactDouble.add acc (future_game.advances.cost i)
            else acc)
          (exactDouble.ofInt 0))
        (exactDouble.ofInt (20 * Finset.sum (Finset.Icc 3 (3 + 2)) (fun x => (x : Int)))) :=
  (upkeep_closed_forms 20 3 2).2.2.2.2.2.2 exactDouble future_game 0 (exactDouble.ofInt 0)
    rfl rfl rfl (by decide) (by decide) (by decide)

/-! ## `daieffects.c`: city size effects and content effects -/

/-- C33.  For an effect of type `EFT_SIZE_UNLIMIT`: with a value above 0 in a
city whose bonus `EFT_SIZE_UNLIMIT` is at most 0, `dai_effect_value` gives
what it gives for any `EFT_SIZE_ADJ` effect of value 20 with the same
arguments; with a value above 0 and a bonus above 0 it gives `v`; with a
value below 0 it gives `v - 30 * c * food_priority`, whatever the data of
the `EFT_SIZE_ADJ` case are. -/
theorem dai_effect_value_size_unlimit (ctx : DaiContext F) (capital : Bool) (turns : Int)
    (peffect : struct_effect) (c nplayers v : Int) (ht : peffect.type = EFT_SIZE_UNLIMIT) :
    (peffect.value > 0 → ctx.city_bonus EFT_SIZE_UNLIMIT ≤ 0 →
      ∀ padj : struct_effect, padj.type = EFT_SIZE_ADJ → padj.value = 20 →
        dai_effect_value ctx capital turns peffect c nplayers v
          = dai_effect_value ctx capital turns padj c nplayers v)
    ∧ (peffect.value > 0 → ctx.city_bonus EFT_SIZE_UNLIMIT > 0 →
      dai_effect_value ctx capital turns peffect c nplayers v = some v)
    ∧ (peffect.value < 0 →
      dai_effect_value ctx capital turns peffect c nplayers v
        = some (v - 30 * c * ctx.food_priority)) := by
  refine ⟨?_, ?_, ?_⟩
  · intro hpos hb padj hta hva
    have h0 : peffect.value ≠ 0 := by omega
    unfold dai_effect_value
    simp only [h0, if_false, ht, hpos, if_true, hb, hta, hva]
    rfl
  · intro hpos hb
    have h0 : peffect.value ≠ 0 := by omega
    have hb' : ¬ ctx.city_bonus EFT_SIZE_UNLIMIT ≤ 0 := by omega
    unfold dai_effect_value
    simp only [h0, if_false, ht, hpos, if_true, hb']
    unfold size_adj_value
    rw [if_neg hb']
  · intro hneg
    have h0 : peffect.value ≠ 0 := by omega
    have hpos : ¬ peffect.value > 0 := by omega
    unfold dai_effect_value
    simp only [h0, if_false, ht, hpos]

/-- Witness for C33: in `aqueduct_context` an `EFT_SIZE_UNLIMIT` effect of
value 1 and an `EFT_SIZE_ADJ` effect of value 20 both give 110 from the base
value 100. -/
theorem dai_effect_value_size_unlimit_witness :
    dai_effect_value aqueduct_context false 10
        { type := EFT_SIZE_UNLIMIT, value := 1, reqs := [] } 1 3 100
      = dai_effect_value aqueduct_context false 10
        { type := EFT_SIZE_ADJ, value := 20, reqs := [] } 1 3 100
    ∧ dai_effect_value aqueduct_context false 10
        { type := EFT_SIZE_ADJ, value := 20, reqs := [] } 1 3 100 = some 110 :=
  ⟨(dai_effect_value_size_unlimit aqueduct_context false 10
      { type := EFT_SIZE_UNLIMIT, value := 1, reqs := [] } 1 3 100 rfl).1
      (by decide) (by decide) { type := EFT_SIZE_ADJ, value := 20, reqs := [] } rfl rfl,
    by decide⟩

/-- C38 (failing input).  In `sample_dai_context` the city bonus
`EFT_SIZE_UNLIMIT` is 0 and the city bonus `EFT_SIZE_ADJ` is 0: for an
`EFT_SIZE_ADJ` effect of value 1, and for an `EFT_SIZE_UNLIMIT` effect of value
1, which falls through to the same code, the divisor `aqueduct_size` is 0
and `dai_effect_value` has no value. -/
theorem dai_effect_value_size_adj_div_zero :
    sample_dai_context.city_bonus EFT_SIZE_UNLIMIT ≤ 0
      ∧ sample_dai_context.city_bonus EFT_SIZE_ADJ = 0
      ∧ dai_effect_value sample_dai_context false 10
          { type := EFT_SIZE_ADJ, value := 1, reqs := [] } 1 3 100 = none
      ∧ dai_effect_value sample_dai_context false 10
          { type := EFT_SIZE_UNLIMIT, value := 1, reqs := [] } 1 3 100 = none
      ∧ size_adj_value sample_dai_context 1 1 100 = none := by
  decide

theorem MIN_le_left (x y : Int) : MIN x y ≤ x := by
  unfold MIN
  split_ifs <;> omega

theorem MIN_le_right (x y : Int) : MIN x y ≤ y := by
  unfold MIN
  split_ifs <;> omega

theorem MIN_eq (x y : Int) : MIN x y = x ∨ MIN x y = y := by
  unfold MIN
  split_ifs
  · exact Or.inl rfl
  · exact Or.inr rfl

theorem MAX_one_pos (x : Int) : 0 < MAX x 1 := by
  unfold MAX
  split_ifs <;> omega

theorem foldl_MIN_spec (feel : Nat → Int) (l : List Nat) :
    ∀ m0 : Int,
      l.foldl (fun m i => MIN m (feel i)) m0 ≤ m0
        ∧ (∀ i, i ∈ l → l.foldl (fun m i => MIN m (feel i)) m0 ≤ feel i)
        ∧ (l.foldl (fun m i => MIN m (feel i)) m0 = m0
          ∨ ∃ i, i ∈ l ∧ l.foldl (fun m i => MIN m (feel i)) m0 = feel i) := by
  induction l with
  | nil =>
    intro m0
    refine ⟨le_refl _, ?_, Or.inl rfl⟩
    intro i hi
    cases hi
  | cons a rest ih =>
    intro m0
    obtain ⟨h1, h2, h3⟩ := ih (MIN m0 (feel a))
    simp only [List.foldl_cons]
    refine ⟨le_trans h1 (MIN_le_left _ _), ?_, ?_⟩
    · intro i hi
      rcases List.mem_cons.1 hi with e | e
      · rw [e]
        exact le_trans h1 (MIN_le_right _ _)
      · exact h2 i e
    · rcases h3 with e | ⟨i, hi, e⟩
      · rcases MIN_eq m0 (feel a) with e' | e'
        · left
          rw [e, e']
        · right
          exact ⟨a, List.mem_cons_self _ _, by rw [e, e']⟩
      · right
        exact ⟨i, List.mem_cons_of_mem _ hi, e⟩

/-- C34.  The function `dai_content_effect_value` returns `H + E` for every
input: `H` is 35 times the smaller of `amount` and `m + get_entertainers`,
where `m` is, for a `happiness_step` up to `FEELING_FINAL`, the least of the
unhappy counts of the feeling stages from `happiness_step` to
`FEELING_FINAL`, when the bonus `EFT_NO_UNHAPPY` of the city is at most 0,
else 0; `E` is 0 for
`num_cities` up to 1, else `factor * num_cities * amount` with `factor` 2,
plus 2 when the player has more cities than `EFT_EMPIRE_SIZE_BASE`, plus the
number of cities divided by `MAX(EFT_EMPIRE_SIZE_STEP, 1)` when that base is
positive as well.  The divisor is positive, and the function has a value
for every input. -/
theorem dai_content_effect_value_spec (ctx : DaiContext F) (amount num_cities : Int)
    (happiness_step : Nat) :
    ∃ m factor : Int,
      (happiness_step ≤ ctx.FEELING_FINAL →
        (∀ i, happiness_step ≤ i → i ≤ ctx.FEELING_FINAL → m ≤ ctx.feel_unhappy i)
        ∧ (∃ i, happiness_step ≤ i ∧ i ≤ ctx.FEELING_FINAL ∧ m = ctx.feel_unhappy i))
      ∧ factor = 2
        + (if ctx.player_cities > ctx.player_bonus EFT_EMPIRE_SIZE_BASE then 2 else 0)
        + (if ctx.player_cities > ctx.player_bonus EFT_EMPIRE_SIZE_BASE
              ∧ ctx.player_bonus EFT_EMPIRE_SIZE_BASE > 0 then
            Int.tdiv ctx.player_cities (MAX (ctx.player_bonus EFT_EMPIRE_SIZE_STEP) 1)
          else 0)
      ∧ 0 < MAX (ctx.player_bonus EFT_EMPIRE_SIZE_STEP) 1
      ∧ dai_content_effect_value ctx amount num_cities happiness_step
        = some ((if ctx.city_bonus EFT_NO_UNHAPPY ≤ 0 then
              35 * MIN amount (m + get_entertainers ctx)
            else 0)
          + (if num_cities ≤ 1 then 0 else factor * num_cities * amount)) := by
  obtain ⟨h1, h2, h3⟩ := foldl_MIN_spec ctx.feel_unhappy
    (List.range' happiness_step (ctx.FEELING_FINAL - happiness_step))
    (ctx.feel_unhappy ctx.FEELING_FINAL)
  have hpos := MAX_one_pos (ctx.player_bonus EFT_EMPIRE_SIZE_STEP)
  refine ⟨(List.range' happiness_step (ctx.FEELING_FINAL - happiness_step)).foldl
      (fun m i => MIN m (ctx.feel_unhappy i)) (ctx.feel_unhappy ctx.FEELING_FINAL),
    _, ?_, rfl, hpos, ?_⟩
  · intro hstep
    refine ⟨?_, ?_⟩
    · intro i hi1 hi2
      by_cases hi : i = ctx.FEELING_FINAL
      · rw [hi]
        exact h1
      · apply h2
        rw [List.mem_range'_1]
        omega
    · rcases h3 with e | ⟨i, hi, e⟩
      · exact ⟨ctx.FEELING_FINAL, hstep, le_refl _, e⟩
      · rw [List.mem_range'_1] at hi
        exact ⟨i, hi.1, by omega, e⟩
  · unfold dai_content_effect_value c_div
    have hne : MAX (ctx.player_bonus EFT_EMPIRE_SIZE_STEP) 1 ≠ 0 := by omega
    simp only [hne, if_false, Option.map_some']
    by_cases hn : num_cities > 1
    · have hn' : ¬ num_cities ≤ 1 := by omega
      rw [if_pos hn, if_neg hn']
      by_cases hc : ctx.player_cities > ctx.player_bonus EFT_EMPIRE_SIZE_BASE
      · by_cases hb : ctx.player_bonus EFT_EMPIRE_SIZE_BASE > 0
        · simp only [hc, hb, if_true, and_self, Option.map_some']
          congr 1
          by_cases hu : ctx.city_bonus EFT_NO_UNHAPPY ≤ 0
          · simp only [hu, if_true]
            ring
          · simp only [hu, if_false]
            ring
        · simp only [hc, hb, if_true, if_false, and_false, Option.map_some']
          congr 1
          by_cases hu : ctx.city_bonus EFT_NO_UNHAPPY ≤ 0
          · simp only [hu, if_true]
            ring
          · simp only [hu, if_false]
            ring
      · simp only [hc, if_false, false_and, Option.map_some']
        congr 1
        by_cases hu : ctx.city_bonus EFT_NO_UNHAPPY ≤ 0
        · simp only [hu, if_true]
          ring
        · simp only [hu, if_false]
          ring
    · have hn' : num_cities ≤ 1 := by omega
      rw [if_neg hn, if_pos hn']
      congr 1
      by_cases hu : ctx.city_bonus EFT_NO_UNHAPPY ≤ 0
      · simp only [hu, if_true]
        ring
      · simp only [hu, if_false]
        ring

/-- Witness for C34: in `sample_dai_context`, with amount 3, 4 cities and the
step `FEELING_EFFECT` = 2, the value is 35 * 3 + 4 * 4 * 3 = 153. -/
theorem dai_content_effect_value_spec_witness :
    (2 : Nat) ≤ sample_dai_context.FEELING_FINAL
    ∧ (∃ m factor : Int,
        (∀ i, 2 ≤ i → i ≤ sample_dai_context.FEELING_FINAL →
          m ≤ sample_dai_context.feel_unhappy i)
        ∧ dai_content_effect_value sample_dai_context 3 4 2
          = some ((if sample_dai_context.city_bonus EFT_NO_UNHAPPY ≤ 0 then
                35 * MIN 3 (m + get_entertainers sample_dai_context)
              else 0)
            + (if (4 : Int) ≤ 1 then 0 else factor * 4 * 3)))
    ∧ dai_content_effect_value sample_dai_context 3 4 2 = some 153 :=
  ⟨by decide,
    (match dai_content_effect_value_spec sample_dai_context 3 4 2 with
      | ⟨m, factor, h1, _, _, h5⟩ => ⟨m, factor, (h1 (by decide)).1, h5⟩),
    by decide⟩

/-! ## `rssanity.c`: the check against unit upgrade loops -/

theorem upgrade_chain_some (rs : Ruleset) :
    ∀ (fuel : Nat) (up : Option Nat) (cl : Int) (st st' : check_state),
      upgrade_chain rs fuel up cl st = some st' →
      ∃ k, k < fuel ∧ (utype_upgrade rs)^[k] up = none
        ∧ (∀ i, i < k → (utype_upgrade rs)^[i] up ≠ none)
        ∧ (cl + (k : Int) ≤ (rs.unit_types.length : Int) → st' = st) := by
  intro fuel
  induction fuel with
  | zero =>
    intro up cl st st' h
    simp [upgrade_chain] at h
  | succ n ih =>
    intro up cl st st' h
    cases up with
    | none =>
      simp only [upgrade_chain, Option.some.injEq] at h
      exact ⟨0, Nat.succ_pos _, rfl, fun i hi => absurd hi (Nat.not_lt_zero _),
        fun _ => h.symm⟩
    | some u =>
      simp only [upgrade_chain] at h
      obtain ⟨k, hk, hn, hmin, hst⟩ := ih _ _ _ _ h
      refine ⟨k + 1, by omega, ?_, ?_, ?_⟩
      · rw [Function.iterate_succ_apply]
        exact hn
      · intro i hi
        cases i with
        | zero => simp
        | succ j =>
          rw [Function.iterate_succ_apply]
          exact hmin j (by omega)
      · intro hle
        have h1 : ¬ (cl + 1 > (rs.unit_types.length : Int)) := by
          push_cast at hle
          omega
        have h2 := hst (by push_cast at hle ⊢; omega)
        rw [h2, if_neg h1]

theorem upgrade_chain_returns (rs : Ruleset) :
    ∀ (fuel k : Nat) (up : Option Nat) (cl : Int) (st : check_state),
      k < fuel → (utype_upgrade rs)^[k] up = none →
      ∃ st', upgrade_chain rs fuel up cl st = some st' := by
  intro fuel
  induction fuel with
  | zero =>
    intro k up cl st hk
    omega
  | succ n ih =>
    intro k up cl st hk hn
    cases up with
    | none => exact ⟨st, by simp only [upgrade_chain]⟩
    | some u =>
      cases k with
      | zero => simp at hn
      | succ j =>
        rw [Function.iterate_succ_apply] at hn
        obtain ⟨st', h⟩ := ih j (utype_upgrade rs (some u)) (cl + 1)
          (if cl + 1 > (rs.unit_types.length : Int) then
            ruleset_error_not_ok st obsoleted_by_loop
          else st) (by omega) hn
        exact ⟨st', by simp only [upgrade_chain]; exact h⟩

theorem upgrade_chain_length_le (rs : Ruleset) (hwf : obsoleted_by_in_table rs)
    (putype : Nat) (hp : putype < rs.unit_types.length) (k : Nat)
    (hmin : ∀ i, i < k → (utype_upgrade rs)^[i] (some putype) ≠ none)
    (hn : (utype_upgrade rs)^[k] (some putype) = none) :
    k ≤ rs.unit_types.length := by
  have hval : ∀ i, i < k →
      ∃ v, (utype_upgrade rs)^[i] (some putype) = some v ∧ v < rs.unit_types.length := by
    intro i
    induction i with
    | zero =>
      intro _
      exact ⟨putype, rfl, hp⟩
    | succ j ih =>
      intro hj
      obtain ⟨v, hv, _⟩ := ih (by omega)
      have hne := hmin (j + 1) hj
      rw [Function.iterate_succ_apply', hv] at hne ⊢
      have hu : utype_upgrade rs (some v)
          = (rs.unit_types.get? v).bind (fun t => t.obsoleted_by) := rfl
      rw [hu] at hne ⊢
      cases hg : rs.unit_types.get? v with
      | none =>
        rw [hg] at hne
        exact absurd rfl hne
      | some t =>
        rw [hg] at hne
        cases ho : t.obsoleted_by with
        | none => exact absurd ho hne
        | some w => exact ⟨w, ho, hwf v t w hg ho⟩
  have hcycle : ∀ i j, i < j → j < k →
      (utype_upgrade rs)^[i] (some putype) ≠ (utype_upgrade rs)^[j] (some putype) := by
    intro i j hij hjk heq
    have h1 : (utype_upgrade rs)^[k - j + i] (some putype) = none := by
      rw [Function.iterate_add_apply, heq, ← Function.iterate_add_apply]
      have h2 : k - j + j = k := by omega
      rw [h2]
      exact hn
    exact hmin (k - j + i) (by omega) h1
  have hinj : Set.InjOn (fun i => ((utype_upgrade rs)^[i] (some putype)).getD 0)
      (Finset.range k : Set Nat) := by
    intro i hi j hj hij
    simp only [Finset.coe_range, Set.mem_Iio] at hi hj
    obtain ⟨vi, hvi, _⟩ := hval i hi
    obtain ⟨vj, hvj, _⟩ := hval j hj
    simp only [hvi, hvj, Option.getD_some] at hij
    have heq : (utype_upgrade rs)^[i] (some putype) = (utype_upgrade rs)^[j] (some putype) := by
      rw [hvi, hvj, hij]
    by_contra hne
    rcases Nat.lt_or_gt_of_ne hne with hlt | hlt
    · exact hcycle i j hlt hj heq
    · exact hcycle j i hlt hi heq.symm
  have hmaps : ∀ i ∈ Finset.range k,
      (fun i => ((utype_upgrade rs)^[i] (some putype)).getD 0) i
        ∈ Finset.range rs.unit_types.length := by
    intro i hi
    obtain ⟨v, hv, hlt⟩ := hval i (Finset.mem_range.1 hi)
    simp only [hv, Option.getD_some, Finset.mem_range]
    exact hlt
  have hcard := Finset.card_le_card_of_injOn _ hmaps hinj
  simpa using hcard

/-- A run of the upgrade loop that ends, in a table whose `obsoleted_by`
pointers point into the table, reports no error; the fuel of
`check_upgrade_loops` is enough for it. -/
theorem upgrade_chain_unchanged (rs : Ruleset) (hwf : obsoleted_by_in_table rs)
    (putype : Nat) (hp : putype < rs.unit_types.length) (fuel : Nat)
    (st st' : check_state)
    (h : upgrade_chain rs fuel (some putype) 0 st = some st') :
    st' = st
      ∧ upgrade_chain rs (rs.unit_types.length + 2) (some putype) 0 st = some st := by
  obtain ⟨k, _, hn, hmin, hst⟩ := upgrade_chain_some rs fuel (some putype) 0 st st' h
  have hk := upgrade_chain_length_le rs hwf putype hp k hmin hn
  refine ⟨hst (by omega), ?_⟩
  obtain ⟨st2, h2⟩ := upgrade_chain_returns rs (rs.unit_types.length + 2) k (some putype) 0 st
    (by omega) hn
  obtain ⟨k2, _, hn2, hmin2, hst2⟩ :=
    upgrade_chain_some rs (rs.unit_types.length + 2) (some putype) 0 st st2 h2
  have hk2 := upgrade_chain_length_le rs hwf putype hp k2 hmin2 hn2
  rw [h2, hst2 (by omega)]

/-- When the upgrade loop ends for every unit type of a table whose
`obsoleted_by` pointers point into the table, `check_upgrade_loops` returns
the state it was given: the check reports nothing. -/
theorem check_upgrade_loops_unchanged (rs : Ruleset) (hwf : obsoleted_by_in_table rs)
    (hend : ∀ putype, putype < rs.unit_types.length → ∀ st : check_state,
      ∃ fuel st', upgrade_chain rs fuel (some putype) 0 st = some st')
    (st : check_state) :
    check_upgrade_loops rs st = some st := by
  unfold check_upgrade_loops
  have key : ∀ l : List Nat, (∀ p, p ∈ l → p < rs.unit_types.length) →
      l.foldl (fun s putype =>
        match s with
        | none => none
        | some s1 => upgrade_chain rs (rs.unit_types.length + 2) (some putype) 0 s1)
        (some st) = some st := by
    intro l
    induction l with
    | nil =>
      intro _
      rfl
    | cons a rest ih =>
      intro hl
      obtain ⟨fuel, st', h⟩ := hend a (hl a (List.mem_cons_self _ _)) st
      have h2 := (upgrade_chain_unchanged rs hwf a (hl a (List.mem_cons_self _ _))
        fuel st st' h).2
      simp only [List.foldl_cons, h2]
      exact ih (fun p hp => hl p (List.mem_cons_of_mem _ hp))
  exact key _ (fun p hp => List.mem_range.1 hp)

theorem upgrade_loop_chain_none :
    ∀ (fuel : Nat) (cl : Int) (st : check_state),
      upgrade_chain upgrade_loop_ruleset fuel (some 0) cl st = none
        ∧ upgrade_chain upgrade_loop_ruleset fuel (some 1) cl st = none := by
  intro fuel
  induction fuel with
  | zero =>
    intro cl st
    exact ⟨rfl, rfl⟩
  | succ n ih =>
    intro cl st
    refine ⟨?_, ?_⟩
    · simp only [upgrade_chain]
      exact (ih _ _).2
    · simp only [upgrade_chain]
      exact (ih _ _).1

/-- C37 (failing input).  In `upgrade_loop_ruleset`, whose unit types 0 and 1
obsolete each other, the upgrade loop that starts from unit type 0 does not
end, whatever the number of steps it is given: every even number of steps
of the chain leads back to unit type 0, never to `NULL`.  Neither
`check_upgrade_loops` nor `sanity_check_ruleset_data` returns for it.  In
`upgrade_line_ruleset`, without loop, the check returns and reports
nothing. -/
theorem check_upgrade_loops_never_returns :
    (∀ (fuel : Nat) (cl : Int) (st : check_state),
      upgrade_chain upgrade_loop_ruleset fuel (some 0) cl st = none)
    ∧ (∀ k : Nat, (utype_upgrade upgrade_loop_ruleset)^[2 * k] (some 0) = some 0)
    ∧ (∀ st : check_state, check_upgrade_loops upgrade_loop_ruleset st = none)
    ∧ sanity_check_ruleset_data upgrade_loop_ruleset = none
    ∧ check_upgrade_loops upgrade_line_ruleset { ok := true, errors := [] }
      = some { ok := true, errors := [] } := by
  refine ⟨fun fuel cl st => (upgrade_loop_chain_none fuel cl st).1, ?_, ?_, ?_, ?_⟩
  · intro k
    induction k with
    | zero => rfl
    | succ j ih =>
      have h2 : 2 * (j + 1) = 2 + 2 * j := by ring
      rw [h2, Function.iterate_add_apply, ih]
      rfl
  · intro st
    unfold check_upgrade_loops
    have h0 : (List.range upgrade_loop_ruleset.unit_types.length) = [0, 1] := by decide
    rw [h0]
    simp only [List.foldl_cons, List.foldl_nil]
    rw [(upgrade_loop_chain_none _ 0 st).1]
  · have h1 : ∀ st : check_state, check_upgrade_loops upgrade_loop_ruleset st = none := by
      intro st
      unfold check_upgrade_loops
      have h0 : (List.range upgrade_loop_ruleset.unit_types.length) = [0, 1] := by decide
      rw [h0]
      simp only [List.foldl_cons, List.foldl_nil]
      rw [(upgrade_loop_chain_none _ 0 st).1]
    unfold sanity_check_ruleset_data
    simp only [h1]
    split <;> rfl
  · decide

/-! ## `actions.c`: stealing techs from a player of the same research -/

/-- C40.  When `research_get` gives the same research for the actor player
and for the target player, `tech_can_be_stolen` is `TRI_NO` and `action_prob`
returns `ACTPROB_IMPOSSIBLE` for `ACTION_SPY_STEAL_TECH` and for
`ACTION_SPY_TARGETED_STEAL_TECH`, whatever the environment makes of the
action enablers; when the researches differ and `can_see_techs_of_target`
is false, `tech_can_be_stolen` is `TRI_MAYBE`. -/
theorem tech_can_be_stolen_same_research (env : ActionEnv) (g : Game F)
    (c : action_context) :
    (research_get g c.actor_player = research_get g c.target_player →
      tech_can_be_stolen env g c.actor_player c.target_player = TRI_NO
        ∧ action_prob env g ACTION_SPY_STEAL_TECH c = some ACTPROB_IMPOSSIBLE
        ∧ action_prob env g ACTION_SPY_TARGETED_STEAL_TECH c = some ACTPROB_IMPOSSIBLE)
    ∧ (research_get g c.actor_player ≠ research_get g c.target_player →
      env.can_see_techs_of_target c.actor_player c.target_player = false →
      tech_can_be_stolen env g c.actor_player c.target_player = TRI_MAYBE) := by
  refine ⟨?_, ?_⟩
  · intro h
    have h1 : tech_can_be_stolen env g c.actor_player c.target_player = TRI_NO := by
      unfold tech_can_be_stolen
      simp only [h, ne_eq, not_true_eq_false, if_false]
    have h2 : ∀ known : fc_tristate, tri_and known TRI_NO = TRI_NO := by
      intro known
      unfold tri_and
      simp
    refine ⟨h1, ?_, ?_⟩
    · unfold action_prob
      simp only [h1, h2]
      rfl
    · unfold action_prob
      simp only [h1, h2]
      rfl
  · intro h hsee
    unfold tech_can_be_stolen
    simp only [h, ne_eq, not_false_eq_true, if_true, hsee, Bool.false_eq_true, if_false]

/-- Witness for C40: in `pooled_game` the spies of players 0 and 1, both of
team 5, share a research, and stealing tech is impossible although
`steal_env` enables it; in `classic_game` the players 0 and 1 have researches
of their own, and whether a tech can be stolen is not known. -/
theorem tech_can_be_stolen_same_research_witness :
    (research_get pooled_game (sample_context (team_spy 0) (team_spy 1)).actor_player
        = research_get pooled_game (sample_context (team_spy 0) (team_spy 1)).target_player
      ∧ action_enabled_local steal_env ACTION_SPY_STEAL_TECH
          (sample_context (team_spy 0) (team_spy 1)) = TRI_YES
      ∧ action_prob steal_env pooled_game ACTION_SPY_STEAL_TECH
          (sample_context (team_spy 0) (team_spy 1)) = some ACTPROB_IMPOSSIBLE
      ∧ action_prob steal_env pooled_game ACTION_SPY_TARGETED_STEAL_TECH
          (sample_context (team_spy 0) (team_spy 1)) = some ACTPROB_IMPOSSIBLE)
    ∧ (research_get classic_game (sample_context (team_spy 0) (team_spy 1)).actor_player
        ≠ research_get classic_game (sample_context (team_spy 0) (team_spy 1)).target_player
      ∧ tech_can_be_stolen steal_env classic_game
          (sample_context (team_spy 0) (team_spy 1)).actor_player
          (sample_context (team_spy 0) (team_spy 1)).target_player = TRI_MAYBE) :=
  ⟨⟨by decide, by decide,
      ((tech_can_be_stolen_same_research steal_env pooled_game
        (sample_context (team_spy 0) (team_spy 1))).1 (by decide)).2.1,
      ((tech_can_be_stolen_same_research steal_env pooled_game
        (sample_context (team_spy 0) (team_spy 1))).1 (by decide)).2.2⟩,
    ⟨by decide,
      (tech_can_be_stolen_same_research steal_env classic_game
        (sample_context (team_spy 0) (team_spy 1))).2 (by decide) rfl⟩⟩

/-! ## `settings.c`: `timeout` and `unitwaittime` -/

/-- With a `timeout` from -1 upward, a change that its callback accepts
leads to a state of which the test of `timeout_callback` is true. -/
theorem apply_change_covers (ALLOW_HACK : Int) (game game1 : server_settings)
    (ch : setting_change) (hmin : -1 ≤ game.timeout)
    (h : apply_change ALLOW_HACK game ch = some game1) :
    timeout_covers_unitwaittime game1 := by
  unfold apply_change at h
  by_cases hacc : change_accepted ALLOW_HACK game ch = true
  · rw [if_pos hacc] at h
    cases ch with
    | set_timeout value caller =>
      simp only [Option.some.injEq] at h
      subst h
      simp only [change_accepted, timeout_callback] at hacc
      split_ifs at hacc with h1 h2 h3
      unfold timeout_covers_unitwaittime
      dsimp only
      refine ⟨?_, ?_⟩
      · intro hv
        by_contra hu
        exact h2 ⟨hv, hu⟩
      · intro hv
        by_contra hlt
        exact h3 ⟨hv, by omega⟩
    | set_unitwaittime value caller =>
      simp only [Option.some.injEq] at h
      subst h
      simp only [change_accepted, unitwaittime_callback] at hacc
      split_ifs at hacc with h1 h2
      unfold timeout_covers_unitwaittime
      dsimp only
      refine ⟨?_, ?_⟩
      · intro ht
        by_contra hv
        exact h1 ⟨ht, hv⟩
      · intro ht
        have h0 : 0 ≤ game.timeout := by omega
        have h3 : value ≤ Int.tdiv (game.timeout * 2) 3 := by omega
        have h4 : Int.tdiv (game.timeout * 2) 3 = game.timeout * 2 / 3 :=
          Int.tdiv_eq_ediv (by omega) (by omega)
        rw [h4] at h3
        by_cases hneg : 0 ≤ value
        · rw [Int.tdiv_eq_ediv (by omega) (by omega)]
          omega
        · have h5 : Int.tdiv (value * 3) 2 ≤ 0 := by
            have h6 : Int.tdiv (value * 3) 2 = -(Int.tdiv (-(value * 3)) 2) := by
              rw [Int.neg_tdiv, neg_neg]
            rw [h6, Int.tdiv_eq_ediv (by omega) (by omega)]
            omega
          omega
  · rw [if_neg hacc] at h
    cases h

/-- C35 (failing input).  The state with `timeout` 100 and `unitwaittime` 21
keeps the limit of 2/3; `timeout_callback` accepts the value 31 from every
caller, since 31 is not below 21 * 3 / 2 = 31; in the state with `timeout`
31 and `unitwaittime` 21 that the change leads to, `unitwaittime` is above
31 * 2 / 3 = 20, and 31 is less than 3/2 times 21. -/
theorem timeout_callback_breaks_limit :
    ∀ (ALLOW_HACK : Int) (caller : Option connection),
      unitwaittime_limited { timeout := 100, unitwaittime := 21 }
      ∧ timeout_callback ALLOW_HACK { timeout := 100, unitwaittime := 21 } 31 caller = true
      ∧ apply_changes ALLOW_HACK { timeout := 100, unitwaittime := 21 }
          [setting_change.set_timeout 31 caller] = some { timeout := 31, unitwaittime := 21 }
      ∧ ¬ unitwaittime_limited { timeout := 31, unitwaittime := 21 }
      ∧ Int.tdiv (21 * 3) 2 = 31 ∧ Int.tdiv (31 * 2) 3 = 20
      ∧ (2 : Int) * 31 < 3 * 21
      ∧ unitwaittime_callback { timeout := 31, unitwaittime := 0 } 21 caller = false := by
  intro ALLOW_HACK caller
  have hacc : timeout_callback ALLOW_HACK { timeout := 100, unitwaittime := 21 } 31 caller
      = true := by
    unfold timeout_callback
    simp
    decide
  refine ⟨by decide, hacc, ?_, by decide, by decide, by decide, by decide,
    by unfold unitwaittime_callback; decide⟩
  simp only [apply_changes, apply_change, change_accepted, hacc, if_true]

/-! ## `settings.c`: `allowtake_callback` -/

theorem strchr_iff_mem (s : List Char) (c : Char) (hc : c ≠ Char.ofNat 0) :
    strchr s c = true ↔ c ∈ s := by
  unfold strchr
  simp [hc]

theorem modifier_not_primary (c : Char) (h : c ∈ modifiers) : c ∉ primary_labels := by
  unfold modifiers at h
  simp only [List.mem_cons, List.mem_singleton, List.not_mem_nil, or_false] at h
  rcases h with h | h | h | h <;> subst h <;> decide

/-- The loop of `allowtake_callback` from a state `havecharacter_state`: it
accepts the characters that are left exactly when every one of them is a
primary label, or a modifier that follows a primary label, the first one
following a primary label when `havecharacter_state` is true. -/
theorem allowtake_loop_spec :
    ∀ (l : List Char) (s : Bool), Char.ofNat 0 ∉ l →
      (allowtake_loop l s = true ↔
        ∀ (i : Nat) (c : Char), l.get? i = some c →
          c ∈ primary_labels
            ∨ (c ∈ modifiers
              ∧ ((i = 0 ∧ s = true)
                ∨ ∃ p, 0 < i ∧ l.get? (i - 1) = some p ∧ p ∈ primary_labels))) := by
  intro l
  induction l with
  | nil =>
    intro s _
    simp [allowtake_loop]
  | cons ch rest ih =>
    intro s hnul
    have hch : ch ≠ Char.ofNat 0 := fun e => hnul (by rw [e]; exact List.mem_cons_self _ _)
    have hrest : Char.ofNat 0 ∉ rest := fun e => hnul (List.mem_cons_of_mem _ e)
    by_cases hp : ch ∈ primary_labels
    · have h1 : strchr primary_labels ch = true := (strchr_iff_mem _ _ hch).2 hp
      simp only [allowtake_loop, h1, if_true]
      rw [ih true hrest]
      constructor
      · intro h i c hi
        cases i with
        | zero =>
          simp only [List.get?_cons_zero, Option.some.injEq] at hi
          subst hi
          exact Or.inl hp
        | succ j =>
          simp only [List.get?_cons_succ] at hi
          rcases h j c hi with h2 | ⟨h2, h3⟩
          · exact Or.inl h2
          · right
            refine ⟨h2, Or.inr ?_⟩
            rcases h3 with ⟨h4, _⟩ | ⟨p, h4, h5, h6⟩
            · subst h4
              exact ⟨ch, Nat.succ_pos _, rfl, hp⟩
            · refine ⟨p, Nat.succ_pos _, ?_, h6⟩
              obtain ⟨k, rfl⟩ : ∃ k, j = k + 1 := ⟨j - 1, by omega⟩
              simpa using h5
      · intro h i c hi
        rcases h (i + 1) c (by simpa using hi) with h2 | ⟨h2, h3⟩
        · exact Or.inl h2
        · right
          refine ⟨h2, ?_⟩
          rcases h3 with ⟨h4, _⟩ | ⟨p, _, h5, h6⟩
          · omega
          · cases i with
            | zero => exact Or.inl ⟨rfl, rfl⟩
            | succ k =>
              right
              exact ⟨p, Nat.succ_pos _, by simpa using h5, h6⟩
    · have h1 : strchr primary_labels ch = false := by
        rw [← Bool.not_eq_true, strchr_iff_mem _ _ hch]
        exact hp
      by_cases hm : s = true ∧ ch ∈ modifiers
      · have h2 : (s && strchr modifiers ch) = true := by
          rw [Bool.and_eq_true, strchr_iff_mem _ _ hch]
          exact hm
        simp only [allowtake_loop, h1, h2, if_true, Bool.false_eq_true, if_false]
        rw [ih false hrest]
        constructor
        · intro h i c hi
          cases i with
          | zero =>
            simp only [List.get?_cons_zero, Option.some.injEq] at hi
            subst hi
            exact Or.inr ⟨hm.2, Or.inl ⟨rfl, hm.1⟩⟩
          | succ j =>
            simp only [List.get?_cons_succ] at hi
            rcases h j c hi with h3 | ⟨h3, h4⟩
            · exact Or.inl h3
            · right
              refine ⟨h3, Or.inr ?_⟩
              rcases h4 with ⟨_, h5⟩ | ⟨p, h5, h6, h7⟩
              · cases h5
              · refine ⟨p, Nat.succ_pos _, ?_, h7⟩
                obtain ⟨k, rfl⟩ : ∃ k, j = k + 1 := ⟨j - 1, by omega⟩
                simpa using h6
        · intro h i c hi
          rcases h (i + 1) c (by simpa using hi) with h3 | ⟨h3, h4⟩
          · exact Or.inl h3
          · right
            refine ⟨h3, ?_⟩
            rcases h4 with ⟨h5, _⟩ | ⟨p, _, h6, h7⟩
            · omega
            · cases i with
              | zero =>
                simp only [Nat.zero_add, Nat.sub_self, List.get?_cons_zero,
                  Option.some.injEq] at h6
                subst h6
                exact absurd h7 hp
              | succ k =>
                right
                exact ⟨p, Nat.succ_pos _, by simpa using h6, h7⟩
      · have h2 : (s && strchr modifiers ch) = false := by
          rw [← Bool.not_eq_true, Bool.and_eq_true, strchr_iff_mem _ _ hch]
          exact hm
        simp only [allowtake_loop, h1, h2, Bool.false_eq_true, if_false, false_iff]
        intro h
        rcases h 0 ch rfl with h3 | ⟨h3, h4⟩
        · exact hp h3
        · rcases h4 with ⟨_, h5⟩ | ⟨p, h5, _⟩
          · exact hm ⟨h5, h3⟩
          · omega

theorem get_append_length (pre : List Char) (c : Char) (post : List Char) :
    (pre ++ c :: post).get? pre.length = some c := by
  induction pre with
  | nil => rfl
  | cons a t ih => simpa using ih

theorem get_append_length_succ (pre : List Char) (d1 d2 : Char) (post : List Char) :
    (pre ++ d1 :: d2 :: post).get? (pre.length + 1) = some d2 := by
  induction pre with
  | nil => rfl
  | cons a t ih => simpa using ih

/-- C36.  For a string without the terminator among its characters,
`allowtake_callback` accepts it if and only if every character is a
primary label of "HhAadbOo" or a modifier of "1234" that comes right after
a primary label.  So the empty string is accepted, and a string that starts
with a modifier, has two modifiers in a row or has a character that is
neither a primary label nor a modifier is rejected. -/
theorem allowtake_callback_spec (value : List Char) (caller : Option connection)
    (hstr : Char.ofNat 0 ∉ value) :
    (allowtake_callback value caller = true ↔
      ∀ (i : Nat) (c : Char), value.get? i = some c →
        c ∈ primary_labels
          ∨ (c ∈ modifiers
            ∧ ∃ p, 0 < i ∧ value.get? (i - 1) = some p ∧ p ∈ primary_labels))
    ∧ (value = [] → allowtake_callback value caller = true)
    ∧ (∀ d rest, value = d :: rest → d ∈ modifiers →
        allowtake_callback value caller = false)
    ∧ (∀ pre d1 d2 post, value = pre ++ d1 :: d2 :: post → d1 ∈ modifiers →
        d2 ∈ modifiers → allowtake_callback value caller = false)
    ∧ (∀ pre c post, value = pre ++ c :: post → c ∉ primary_labels → c ∉ modifiers →
        allowtake_callback value caller = false) := by
  have hiff : allowtake_callback value caller = true ↔
      ∀ (i : Nat) (c : Char), value.get? i = some c →
        c ∈ primary_labels
          ∨ (c ∈ modifiers
            ∧ ∃ p, 0 < i ∧ value.get? (i - 1) = some p ∧ p ∈ primary_labels) := by
    unfold allowtake_callback
    rw [allowtake_loop_spec value false hstr]
    constructor
    · intro h i c hi
      rcases h i c hi with h1 | ⟨h1, h2⟩
      · exact Or.inl h1
      · rcases h2 with ⟨_, h3⟩ | h3
        · cases h3
        · exact Or.inr ⟨h1, h3⟩
    · intro h i c hi
      rcases h i c hi with h1 | ⟨h1, h2⟩
      · exact Or.inl h1
      · exact Or.inr ⟨h1, Or.inr h2⟩
  refine ⟨hiff, ?_, ?_, ?_, ?_⟩
  · intro he
    subst he
    rfl
  · intro d rest he hd
    rw [← Bool.not_eq_true, hiff]
    intro h
    subst he
    rcases h 0 d rfl with h1 | ⟨_, p, h2, _⟩
    · exact modifier_not_primary d hd h1
    · omega
  · intro pre d1 d2 post he hd1 hd2
    rw [← Bool.not_eq_true, hiff]
    intro h
    subst he
    have hget := get_append_length_succ pre d1 d2 post
    rcases h (pre.length + 1) d2 hget with h1 | ⟨_, p, _, h2, h3⟩
    · exact modifier_not_primary d2 hd2 h1
    · have hget1 : (pre ++ d1 :: d2 :: post).get? (pre.length + 1 - 1) = some d1 :=
        get_append_length pre d1 (d2 :: post)
      rw [hget1] at h2
      simp only [Option.some.injEq] at h2
      subst h2
      exact modifier_not_primary d1 hd1 h3
  · intro pre c post he hc1 hc2
    rw [← Bool.not_eq_true, hiff]
    intro h
    subst he
    have hget := get_append_length pre c post
    rcases h pre.length c hget with h1 | ⟨h1, _⟩
    · exact hc1 h1
    · exact hc2 h1

/-- Witness for C36: "H1a" is accepted, its modifier "1" coming right after
the primary label "H", and "H12" is rejected. -/
theorem allowtake_callback_spec_witness :
    Char.ofNat 0 ∉ ['H', '1', 'a']
    ∧ allowtake_callback ['H', '1', 'a'] none = true
    ∧ (∀ (i : Nat) (c : Char), ['H', '1', 'a'].get? i = some c →
        c ∈ primary_labels
          ∨ (c ∈ modifiers
            ∧ ∃ p, 0 < i ∧ ['H', '1', 'a'].get? (i - 1) = some p ∧ p ∈ primary_labels))
    ∧ allowtake_callback ['H', '1', '2'] none = false :=
  ⟨by decide, by decide,
    (allowtake_callback_spec ['H', '1', 'a'] none (by decide)).1.1 (by decide),
    (allowtake_callback_spec ['H', '1', '2'] none (by decide)).2.2.2.1 ['H'] '1' '2' []
      rfl (by decide) (by decide)⟩


/-! ## Binary64 arithmetic: the scaling by `sciencebox` and the local
`tech_upkeep` -/

set_option maxRecDepth 8192

/-- C22 (failing input).  In binary64 arithmetic, for the player of
`sciencebox_game 50 100 false` with upkeep per city, `player_tech_upkeep`
returns 1794 when the local `tech_upkeep`, which has no initial value, holds
`0.0` at its first use, 7794 when it holds `1000.0`, 0 when it holds
`-1000.0`, and a negative value, the `INT_MIN` that x86-64 gives for a
conversion that C leaves undefined, when it holds `1e12` or a NaN. -/
theorem player_tech_upkeep_uninitialised :
    player_tech_upkeep (sciencebox_game 50 100 false) sample_upkeep
        (some (sciencebox_player false)) (ieeeDouble.ofInt 0) = some 1794
      ∧ player_tech_upkeep (sciencebox_game 50 100 false) sample_upkeep
        (some (sciencebox_player false)) (ieeeDouble.ofInt 1000) = some 7794
      ∧ player_tech_upkeep (sciencebox_game 50 100 false) sample_upkeep
        (some (sciencebox_player false)) (ieeeDouble.ofInt (-1000)) = some 0
      ∧ player_tech_upkeep (sciencebox_game 50 100 false) sample_upkeep
        (some (sciencebox_player false)) (ieeeDouble.ofInt 1000000000000)
        = some (-2147483648)
      ∧ player_tech_upkeep (sciencebox_game 50 100 false) sample_upkeep
        (some (sciencebox_player false)) nan_value = some (-2147483648) := by
  refine ⟨?_, ?_, ?_, ?_, ?_⟩ <;> decide

end Freeciv
